import Mathlib

/-!
# HiFiBerry clock drivers: PLL coefficient solver, SCK selector, divider chain, DAC2HD clock

A shallow embedding of the clock arithmetic of `zpcm512x.c`, of the register sequencing of
`clk-hifiberry-dac2hd.c` and of the oscillator selection of `zhifiberry_dacplus.c`, with the
properties proved about them.

Conventions of the embedding.

* Clock rates are `unsigned long` in the source and natural numbers here.  For rates below
  `2 ^ 31` Hz and overclock percentages within the ranges of their mixer controls (at most 20
  for the PLL, 40 for the DSP and the DAC) none of the intermediate values of the functions
  embedded below leaves the range of its C type, on 32-bit and on 64-bit kernels: the products
  are guarded in the source by `0xffffffffUL / 10000` and by the `ULL` division helpers.  There
  natural-number arithmetic is the machine arithmetic.  The overclock controls store any value
  they are given; `zpcm512x_pll_max_` is the PLL ceiling in the arithmetic of an
  `unsigned long` of a given width, for any stored value.
* A C division or remainder by zero has no defined result; the functions that can reach one
  return `Outcome.undefined` there instead of the value Lean gives to `n / 0`.
* The Linux helpers the source calls (`gcd`, `fls`, `rounddown`, `DIV_ROUND_UP`,
  `DIV_ROUND_CLOSEST`, `DIV_ROUND_CLOSEST_ULL`, `DIV_ROUND_DOWN_ULL`, `snd_soc_params_to_bclk`)
  are given their kernel definitions for unsigned arguments.
* The bus is a log of the register operations issued, with the return value of each operation
  given by its position in the log, so that every pattern of bus failures is covered.
* `clk-hifiberry-dac2hd.c` is embedded as compiled without `CLK_DAC2HD_PREPARE_INIT`, which the
  source tests but does not define.  Its dedicated register tables are parameters of the
  embedding, and the tables compiled in under `CLK_DAC2HD_STATIC_DEFAULTS` are given as
  definitions.
-/

namespace HiFiBerry

/-! ## Return values -/

/-- Result of a driver function: `ok a` is `return 0` with the values `a` left behind,
`error e` is `return e` for a non-zero `e` (a negative errno), and `undefined` is a run that
divides by zero or reads past the end of a table. -/
inductive Outcome (α : Type) where
  | ok (a : α) : Outcome α
  | error (errno : Int) : Outcome α
  | undefined : Outcome α
  deriving DecidableEq, Repr

/-- Linux errno `EINVAL`. -/
def EINVAL : Int := 22

/-- Linux errno `EBUSY`. -/
def EBUSY : Int := 16

/-! ## Kernel arithmetic helpers -/

/-- Kernel `DIV_ROUND_UP(n, d)`, which is `(n + d - 1) / d`. -/
def DIV_ROUND_UP (n d : Nat) : Nat := (n + d - 1) / d

/-- Kernel `DIV_ROUND_CLOSEST(x, divisor)` for unsigned operands: `(x + divisor / 2) / divisor`. -/
def DIV_ROUND_CLOSEST (x divisor : Nat) : Nat := (x + divisor / 2) / divisor

/-- Kernel `DIV_ROUND_CLOSEST_ULL(x, divisor)`: `x + divisor / 2` divided by `divisor`. -/
def DIV_ROUND_CLOSEST_ULL (x divisor : Nat) : Nat := (x + divisor / 2) / divisor

/-- Kernel `DIV_ROUND_DOWN_ULL(ll, d)`: the quotient `ll / d`. -/
def DIV_ROUND_DOWN_ULL (ll d : Nat) : Nat := ll / d

/-- Kernel `rounddown(x, y)`, which is `x - (x % y)`. -/
def rounddown (x y : Nat) : Nat := x - x % y

/-- Scan of `fls` over the bit positions `n, n - 1, ..., 1`: the highest position `i <= n`
whose bit `2 ^ (i - 1)` is reached by `x`, and 0 when there is none. -/
def fls_from (x : Nat) : Nat → Nat
  | 0 => 0
  | n + 1 => if 2 ^ n ≤ x then n + 1 else fls_from x n

/-- Kernel `fls(x)` of a 32-bit `unsigned int`: the position of the most significant set bit
counted from one, so `fls(0) = 0`, `fls(1) = 1` and `fls(0x80000000) = 32`. -/
def fls (x : Nat) : Nat := fls_from x 32

/-! ## Overclock ceilings (`zpcm512x.c`, lines 606-684) -/

/-- Source `zpcm512x_pll_max_` (line 608) in the arithmetic of an `unsigned long` of
`BITS_PER_LONG` bits, for the value the `unsigned long` field `overclock_pll` holds: the
product `25000000 * overclock_pll` and the sum are taken modulo `2 ^ BITS_PER_LONG`. -/
def zpcm512x_pll_max_ (BITS_PER_LONG overclock_pll : Nat) : Nat :=
  (25000000 + (25000000 * overclock_pll % 2 ^ BITS_PER_LONG) / 100) % 2 ^ BITS_PER_LONG

/-- Source `zpcm512x_pll_max`, the PLL ceiling for the stored `overclock_pll` percentage, for a
percentage whose product with 25000000 fits an `unsigned long`: up to 171 with 32 bits, which
covers the range 0..20 of the mixer control.  There it is the value of `zpcm512x_pll_max_`
(lemma `pll_max_eq`); beyond, `zpcm512x_pll_max_` gives the value of the source. -/
def zpcm512x_pll_max (overclock_pll : Nat) : Nat :=
  25000000 + 25000000 * overclock_pll / 100

/-- Source `zpcm512x_dsp_max`. -/
def zpcm512x_dsp_max (overclock_dsp : Nat) : Nat :=
  50000000 + 50000000 * overclock_dsp / 100

/-- Source `zpcm512x_dac_max`. -/
def zpcm512x_dac_max (overclock_dac rate : Nat) : Nat :=
  rate + rate * overclock_dac / 100

/-- Source `zpcm512x_ncp_target`. -/
def zpcm512x_ncp_target (overclock_dac dac_rate : Nat) : Nat :=
  if dac_rate ≤ 6144000 then 1536000 else zpcm512x_dac_max overclock_dac 1536000

/-! ## SCK selector (`zpcm512x_find_sck`, lines 927-959) -/

/-- The loop `for (; pow2; pow2 >>= 1)` of `zpcm512x_find_sck`.  The argument counts the values
`pow2` has still to take: `k + 1` stands for `pow2 = 1 << k` and `0` for `pow2 = 0`, where the
loop ends and the function returns 0.  A candidate `sck_rate >= 16000000` leaves the loop and is
returned. -/
def find_sck_loop (pll_max bclk_rate : Nat) : Nat → Nat
  | 0 => 0
  | k + 1 =>
    let pow2 := 1 <<< k
    let sck_rate := rounddown pll_max (bclk_rate * pow2)
    if sck_rate ≥ 16000000 then sck_rate else find_sck_loop pll_max bclk_rate k

/-- Source `zpcm512x_find_sck`, for the stored `overclock_pll`; the result 0 is the failure
return.  The loop starts at `pow2 = 1 << fls((pll_max - 16000000) / bclk_rate)`.  The caller
passes `bclk_rate > 0`. -/
def zpcm512x_find_sck (overclock_pll bclk_rate : Nat) : Nat :=
  find_sck_loop (zpcm512x_pll_max overclock_pll) bclk_rate
    (fls ((zpcm512x_pll_max overclock_pll - 16000000) / bclk_rate) + 1)

/-! ## PLL coefficient solver (`zpcm512x_find_pll_coeff`, lines 961-1088) -/

/-- Which `goto done` (or the fall through to `done`) a successful run of the solver took. -/
inductive PllPath where
  | exactInt
  | exactFrac
  | fallback
  deriving DecidableEq, Repr

/-- What a successful `zpcm512x_find_pll_coeff` stores: `pll_r`, `pll_j`, `pll_d`, `pll_p` and
`real_pll`, together with the path that produced them (not stored by the source). -/
structure PllCoeff where
  R : Nat
  J : Nat
  D : Nat
  P : Nat
  real_pll : Nat
  path : PllPath
  deriving DecidableEq, Repr

/-- The loop `for (R = 16; R; R--)` of the `D = 0` case, entered at `R`: the first `R`, going
down, with `num % R == 0` and `J = num / R` in `1..63`, as `(R, J)`. -/
def find_R (num : Nat) : Nat → Option (Nat × Nat)
  | 0 => none
  | R + 1 =>
    if num % (R + 1) ≠ 0 then find_R num R
    else if num / (R + 1) = 0 ∨ num / (R + 1) > 63 then find_R num R
    else some (R + 1, num / (R + 1))

/-- The loop `for (P = den; P <= 15; P++)` of the `D > 0` case, entered at `P` with `fuel`
iterations left (the caller gives `16 - den`, the length of `den..15`): the first `P` that
passes the three `continue` tests, with its `K`, as `(P, K)`. -/
def find_P (pllin_rate num den : Nat) : Nat → Nat → Option (Nat × Nat)
  | 0, _ => none
  | fuel + 1, P =>
    if P > 15 then none
    else if pllin_rate / P < 6667000 ∨ 200000000 < pllin_rate / P then
      find_P pllin_rate num den fuel (P + 1)
    else if num * P % den ≠ 0 then find_P pllin_rate num den fuel (P + 1)
    else if num * P / den < 40000 ∨ num * P / den > 120000 then
      find_P pllin_rate num den fuel (P + 1)
    else some (P, num * P / den)

/-- The two statements `if (K < 40000) K = 40000;` and `if (K > 120000) K = 120000;` of the
fallback. -/
def pll_clamp_K (K0 : Nat) : Nat :=
  let K1 := if K0 < 40000 then 40000 else K0
  if K1 > 120000 then 120000 else K1

/-- The `P` of the fallback: `DIV_ROUND_UP(pllin_rate, 20000000)`, replaced by 1 when it is 0. -/
def pll_fallback_P (pllin_rate : Nat) : Nat :=
  if DIV_ROUND_UP pllin_rate 20000000 = 0 then 1 else DIV_ROUND_UP pllin_rate 20000000

/-- The code after the label `fallback:` of `zpcm512x_find_pll_coeff` (with `R = 1` set before
the jump). -/
def find_pll_coeff_fallback (pllin_rate pll_rate : Nat) : Outcome PllCoeff :=
  let P0 := DIV_ROUND_UP pllin_rate 20000000
  if P0 ≠ 0 ∧ P0 > 15 then Outcome.error (-EINVAL)
  else
    let P := pll_fallback_P pllin_rate
    if pllin_rate / P < 6667000 then Outcome.error (-EINVAL)
    else
      let K := pll_clamp_K (DIV_ROUND_CLOSEST_ULL (10000 * pll_rate * P) pllin_rate)
      Outcome.ok
        { R := 1, J := K / 10000, D := K % 10000, P := P,
          real_pll := DIV_ROUND_DOWN_ULL (K * pllin_rate) (10000 * P),
          path := PllPath.fallback }

/-- The `D > 0` part of `zpcm512x_find_pll_coeff`, from `R = 1;` on, for the `num` and `den`
left by the `D = 0` part. -/
def find_pll_coeff_frac (pllin_rate pll_rate num den : Nat) : Outcome PllCoeff :=
  if num > 0xffffffff / 10000 then find_pll_coeff_fallback pllin_rate pll_rate
  else
    let common := Nat.gcd (10000 * num) den
    let num2 := 10000 * num / common
    let den2 := den / common
    match find_P pllin_rate num2 den2 (16 - den2) den2 with
    | some (P, K) =>
      Outcome.ok
        { R := 1, J := K / 10000, D := K % 10000, P := P, real_pll := pll_rate,
          path := PllPath.exactFrac }
    | none => find_pll_coeff_fallback pllin_rate pll_rate

/-- The numerator `num` with which `zpcm512x_find_pll_coeff` enters its `D = 0` test: the
reduced `pll_rate / common`, multiplied by `DIV_ROUND_UP(pllin_rate / den, 20000000)` when
`pllin_rate / den > 20000000 && num < 8`. -/
def pll_num (pllin_rate pll_rate : Nat) : Nat :=
  let common := Nat.gcd pll_rate pllin_rate
  let num := pll_rate / common
  let den := pllin_rate / common
  if pllin_rate / den > 20000000 ∧ num < 8 then
    num * DIV_ROUND_UP (pllin_rate / den) 20000000
  else num

/-- The denominator `den` with which `zpcm512x_find_pll_coeff` enters its `D = 0` test (the
multiplier is computed from the `den` before the update, as in `den *= ...`). -/
def pll_den (pllin_rate pll_rate : Nat) : Nat :=
  let common := Nat.gcd pll_rate pllin_rate
  let num := pll_rate / common
  let den := pllin_rate / common
  if pllin_rate / den > 20000000 ∧ num < 8 then
    den * DIV_ROUND_UP (pllin_rate / den) 20000000
  else den

/-- Source `zpcm512x_find_pll_coeff`.  With `pllin_rate = 0` the run divides by zero
(`pll_rate / common` or `pllin_rate / den`); with `pllin_rate > 0` every divisor is positive. -/
def zpcm512x_find_pll_coeff (pllin_rate pll_rate : Nat) : Outcome PllCoeff :=
  if pllin_rate = 0 then Outcome.undefined
  else
    let num := pll_num pllin_rate pll_rate
    let den := pll_den pllin_rate pll_rate
    let P := den
    let exact0 :=
      if den ≤ 15 ∧ num ≤ 16 * 63 ∧ 1000000 ≤ pllin_rate / P ∧ pllin_rate / P ≤ 20000000 then
        find_R num 16
      else none
    match exact0 with
    | some (R, J) =>
      Outcome.ok
        { R := R, J := J, D := 0, P := P, real_pll := pll_rate, path := PllPath.exactInt }
    | none => find_pll_coeff_frac pllin_rate pll_rate num den


/-! ## The register bus

`zpcm512x.h`, with the register addresses and bit masks, is not among the sources: registers
and bit fields are kept as names. -/

/-- Registers of the PCM512x that `zpcm512x_set_dividers` and `zpcm512x_dai_hw_params` touch,
by the names of `zpcm512x.h`; `GPIO_OUTPUT_1_plus k` is the register `PCM512x_GPIO_OUTPUT_1 + k`. -/
inductive Reg where
  | I2S_1 | ERROR_DETECT | FLEX_A | FLEX_B | PLL_EN | PLL_REF | DAC_REF
  | GPIO_DACIN | GPIO_PLLIN | GPIO_EN | SYNCHRONIZE
  | PLL_COEFF_0 | PLL_COEFF_1 | PLL_COEFF_2 | PLL_COEFF_3 | PLL_COEFF_4
  | DSP_CLKDIV | DAC_CLKDIV | NCP_CLKDIV | OSR_CLKDIV
  | MASTER_CLKDIV_1 | MASTER_CLKDIV_2 | IDAC_1 | IDAC_2 | FS_SPEED_MODE
  | GPIO_OUTPUT_1_plus (k : Int)
  deriving DecidableEq, Repr

/-- Bit-field constants of `zpcm512x.h`, by name. -/
inductive Sym where
  | ALEN | ALEN_16 | ALEN_20 | ALEN_24 | ALEN_32
  | DCAS | IDFS | IDBK | IDSK | IDCH | IDCM | IPLK
  | PLLE | SREF | SREF_GPIO | SDAC | SDAC_GPIO | SDAC_SCK
  | GREF | GREF_GPIO1 | G1OE | GxSL | GxSL_PLLCK
  | RQSY | RQSY_HALT | RQSY_RESUME
  | FSSP | FSSP_48KHZ | FSSP_96KHZ | FSSP_192KHZ | FSSP_384KHZ
  deriving DecidableEq, Repr

/-- The mask and value arguments of `regmap_update_bits`, as the source writes them. -/
inductive Bits where
  | zero : Bits
  | sym (s : Sym) : Bits
  | ored (l : List Sym) : Bits
  | plus (s : Sym) (k : Int) : Bits
  | shl (s : Sym) (k : Int) : Bits
  deriving DecidableEq, Repr

/-- One operation on the codec's regmap. -/
inductive BusOp where
  | write (reg : Reg) (val : Int) : BusOp
  | update_bits (reg : Reg) (mask val : Bits) : BusOp
  deriving DecidableEq, Repr

/-- A register bus: `ret n` is the return value of the `n`-th operation issued on it (0 for
success, a negative errno otherwise) and `log` the operations issued so far, oldest first,
failed ones included. -/
structure Bus (Op : Type) where
  ret : Nat → Int
  log : List Op

/-- A driver routine working on a bus: it ends in an `Outcome` and leaves the bus behind. -/
def Drv (Op α : Type) : Type := Bus Op → Outcome α × Bus Op

/-- A routine that just returns a value. -/
def Drv.ret {Op α : Type} (a : α) : Drv Op α := fun b => (Outcome.ok a, b)

/-- Sequencing: an `error` or `undefined` outcome of the first routine ends the run. -/
def Drv.bind {Op α β : Type} (m : Drv Op α) (f : α → Drv Op β) : Drv Op β := fun b =>
  match m b with
  | (Outcome.ok a, b1) => f a b1
  | (Outcome.error e, b1) => (Outcome.error e, b1)
  | (Outcome.undefined, b1) => (Outcome.undefined, b1)

instance {Op : Type} : Monad (Drv Op) where
  pure := Drv.ret
  bind := Drv.bind

/-- A routine that ends with a pure outcome, such as `return -EINVAL;`. -/
def Drv.lift {Op α : Type} (o : Outcome α) : Drv Op α := fun b => (o, b)

/-- One bus operation followed by the source's `if (ret != 0) return ret;`: the operation is
logged, and a non-zero return value of the bus ends the run with it. -/
def Drv.issue {Op : Type} (op : Op) : Drv Op Unit := fun b =>
  if b.ret b.log.length = 0 then (Outcome.ok (), { b with log := b.log ++ [op] })
  else (Outcome.error (b.ret b.log.length), { b with log := b.log ++ [op] })

/-- Source `ret = regmap_write(zpcm512x->regmap, reg, val); if (ret != 0) return ret;`. -/
def regmap_write (reg : Reg) (val : Int) : Drv BusOp Unit :=
  Drv.issue (BusOp.write reg val)

/-- Source `ret = regmap_update_bits(zpcm512x->regmap, reg, mask, val); if (ret != 0) return
ret;`. -/
def regmap_update_bits (reg : Reg) (mask val : Bits) : Drv BusOp Unit :=
  Drv.issue (BusOp.update_bits reg mask val)

/-! ## Divider chain (`zpcm512x_pllin_dac_rate` and `zpcm512x_set_dividers`, lines 1090-1441) -/

/-- The fields of `struct zpcm512x_priv` the clock code reads, with `sclk_rate` for
`clk_get_rate(zpcm512x->sclk)` and `fmt_is_CBS_CFS` for the test
`(fmt & SND_SOC_DAIFMT_MASTER_MASK) == SND_SOC_DAIFMT_CBS_CFS`. -/
structure zpcm512x_priv where
  pll_in : Nat
  pll_out : Nat
  overclock_pll : Nat
  overclock_dac : Nat
  overclock_dsp : Nat
  bclk_ratio : Nat
  sclk_rate : Nat
  fmt_is_CBS_CFS : Bool

/-- The negotiated hardware parameters: `rate` is `params_rate(params)`, `width` is
`params_width(params)` and `frame_size` is `snd_soc_params_to_frame_size(params)`, which is not
negative once `zpcm512x_dai_hw_params` has accepted the width. -/
structure snd_pcm_hw_params where
  rate : Nat
  width : Nat
  frame_size : Nat

/-- Kernel `snd_soc_params_to_bclk`: the frame size times the rate when the frame size is
positive, and the frame size itself otherwise. -/
def snd_soc_params_to_bclk (params : snd_pcm_hw_params) : Nat :=
  if params.frame_size > 0 then params.frame_size * params.rate else params.frame_size

/-- The `for` loop of `zpcm512x_pllin_dac_rate`, entered at `dac_rate` with `fuel` iterations
left.  `some r` is the value the function returns (`some 0` for the `return 0` in the loop and
the one after it); `none` means that one of the two `dac_rate -= osr_rate` (the one ending the
body, then the one of the loop header) would be applied to a value below `osr_rate`, or that
the iterations are used up. -/
def pllin_dac_rate_loop (osr_rate pllin_rate : Nat) : Nat → Nat → Option Nat
  | 0, _ => none
  | fuel + 1, dac_rate =>
    if dac_rate = 0 then some 0
    else if pllin_rate / dac_rate > 128 then some 0
    else if pllin_rate % dac_rate = 0 then some dac_rate
    else if dac_rate < osr_rate then none
    else if dac_rate - osr_rate < osr_rate then none
    else pllin_dac_rate_loop osr_rate pllin_rate fuel (dac_rate - osr_rate - osr_rate)

/-- Source `zpcm512x_pllin_dac_rate`.  `pllin_rate % osr_rate` with `osr_rate = 0` is
undefined; the loop starts at `rounddown(zpcm512x_dac_max(6144000), osr_rate)` and is given one
iteration more than that value, which it cannot use up. -/
def zpcm512x_pllin_dac_rate (priv : zpcm512x_priv) (osr_rate pllin_rate : Nat) : Outcome Nat :=
  if priv.pll_out = 0 then Outcome.ok 0
  else if osr_rate = 0 then Outcome.undefined
  else if pllin_rate % osr_rate ≠ 0 then Outcome.ok 0
  else
    match pllin_dac_rate_loop osr_rate pllin_rate
        (rounddown (zpcm512x_dac_max priv.overclock_dac 6144000) osr_rate + 1)
        (rounddown (zpcm512x_dac_max priv.overclock_dac 6144000) osr_rate) with
    | some r => Outcome.ok r
    | none => Outcome.undefined

/-- The loop `for (; dac_mul; dac_mul--) if (!(sck_mul % dac_mul)) break;` of
`zpcm512x_set_dividers`, entered at `dac_mul`: the value of `dac_mul` after it. -/
def find_dac_mul (sck_mul : Nat) : Nat → Nat
  | 0 => 0
  | dac_mul + 1 =>
    if sck_mul % (dac_mul + 1) = 0 then dac_mul + 1 else find_dac_mul sck_mul dac_mul

/-- What the first part of `zpcm512x_set_dividers` (to line 1259) leaves in its local
variables, with the coefficients stored by the solver in PLL mode. -/
structure ClockSel where
  pllin_rate : Nat
  sck_rate : Nat
  mck_rate : Nat
  bclk_rate : Nat
  bclk_div : Nat
  coeff : Option PllCoeff

/-- What `zpcm512x_set_dividers` has in its local variables when it returns 0 (`dac_rate` is
the value after `dac_rate = dacsrc_rate / dac_div`), with the coefficients stored by the solver
in PLL mode. -/
structure Dividers where
  lrclk_div : Nat
  sck_rate : Nat
  mck_rate : Nat
  bclk_rate : Nat
  bclk_div : Nat
  sample_rate : Nat
  osr_rate : Nat
  dsp_div : Nat
  dacsrc_rate : Nat
  dac_rate : Nat
  osr_div : Nat
  dac_div : Nat
  ncp_div : Nat
  idac : Nat
  fssp : Sym
  coeff : Option PllCoeff

/-- Lines 1167-1177 of `zpcm512x_set_dividers`: the choice of `lrclk_div`. -/
def set_dividers_lrclk_div (priv : zpcm512x_priv) (params : snd_pcm_hw_params) : Outcome Nat :=
  if priv.bclk_ratio > 0 then Outcome.ok priv.bclk_ratio
  else if params.frame_size = 0 then Outcome.error (-EINVAL)
  else Outcome.ok params.frame_size

/-- Lines 1180-1184, the branch `!zpcm512x->pll_out`: `DIV_ROUND_CLOSEST(sck_rate, bclk_rate)`
divides by `bclk_rate`, which is 0 for a rate of 0. -/
def set_dividers_no_pll (priv : zpcm512x_priv) (params : snd_pcm_hw_params) (lrclk_div : Nat) :
    Outcome ClockSel :=
  let sck_rate := priv.sclk_rate
  let bclk_rate := params.rate * lrclk_div
  if bclk_rate = 0 then Outcome.undefined
  else
    Outcome.ok
      { pllin_rate := 0, sck_rate := sck_rate, mck_rate := sck_rate, bclk_rate := bclk_rate,
        bclk_div := DIV_ROUND_CLOSEST sck_rate bclk_rate, coeff := none }

/-- Lines 1216-1254: the five PLL coefficient writes. -/
def set_dividers_write_pll (c : PllCoeff) : Drv BusOp Unit := do
  regmap_write Reg.PLL_COEFF_0 ((c.P : Int) - 1)
  regmap_write Reg.PLL_COEFF_1 (c.J : Int)
  regmap_write Reg.PLL_COEFF_2 ((c.D >>> 8 : Nat) : Int)
  regmap_write Reg.PLL_COEFF_3 ((c.D &&& 0xff : Nat) : Int)
  regmap_write Reg.PLL_COEFF_4 ((c.R : Int) - 1)

/-- Lines 1186-1258, the PLL branch: BCLK from the parameters (`ret < 0` cannot occur for a
frame size that is not negative), SCK selection, the solver, the coefficient writes. -/
def set_dividers_pll (priv : zpcm512x_priv) (params : snd_pcm_hw_params) : Drv BusOp ClockSel :=
  let ret := snd_soc_params_to_bclk params
  if ret = 0 then Drv.lift (Outcome.error (-EINVAL))
  else
    let bclk_rate := ret
    let pllin_rate := priv.sclk_rate
    let sck_rate := zpcm512x_find_sck priv.overclock_pll bclk_rate
    if sck_rate = 0 then Drv.lift (Outcome.error (-EINVAL))
    else
      let pll_rate := 4 * sck_rate
      match zpcm512x_find_pll_coeff pllin_rate pll_rate with
      | Outcome.undefined => Drv.lift Outcome.undefined
      | Outcome.error e => Drv.lift (Outcome.error e)
      | Outcome.ok c => do
        set_dividers_write_pll c
        pure
          { pllin_rate := pllin_rate, sck_rate := sck_rate, mck_rate := c.real_pll,
            bclk_rate := bclk_rate, bclk_div := DIV_ROUND_CLOSEST sck_rate bclk_rate,
            coeff := some c }

/-- Lines 1179-1259: the two clocking modes. -/
def set_dividers_clock (priv : zpcm512x_priv) (params : snd_pcm_hw_params) (lrclk_div : Nat) :
    Drv BusOp ClockSel :=
  if priv.pll_out = 0 then Drv.lift (set_dividers_no_pll priv params lrclk_div)
  else set_dividers_pll priv params

/-- Lines 1274-1331: the DAC clock source, as `(dac_rate, dacsrc_rate)`.  With a non-zero
`zpcm512x_pllin_dac_rate` the DAC runs from the PLL input through a GPIO; otherwise
`dac_max / osr_rate` divides by `osr_rate`, and the DAC rate is the largest multiple of
`osr_rate` found by the `dac_mul` loop. -/
def set_dividers_dac_source (priv : zpcm512x_priv) (sck_rate osr_rate pllin_rate : Nat) :
    Drv BusOp (Nat × Nat) :=
  match zpcm512x_pllin_dac_rate priv osr_rate pllin_rate with
  | Outcome.undefined => Drv.lift Outcome.undefined
  | Outcome.error e => Drv.lift (Outcome.error e)
  | Outcome.ok dac_rate =>
    if dac_rate ≠ 0 then do
      regmap_update_bits Reg.DAC_REF (Bits.sym Sym.SDAC) (Bits.sym Sym.SDAC_GPIO)
      regmap_update_bits Reg.GPIO_DACIN (Bits.sym Sym.GREF)
        (Bits.plus Sym.GREF_GPIO1 ((priv.pll_in : Int) - 1))
      pure (dac_rate, pllin_rate)
    else if osr_rate = 0 then Drv.lift Outcome.undefined
    else
      let dac_mul := find_dac_mul (sck_rate / osr_rate)
        (zpcm512x_dac_max priv.overclock_dac 6144000 / osr_rate)
      if dac_mul = 0 then Drv.lift (Outcome.error (-EINVAL))
      else do
        regmap_update_bits Reg.DAC_REF (Bits.sym Sym.SDAC) (Bits.sym Sym.SDAC_SCK)
        pure (dac_mul * osr_rate, sck_rate)

/-- Lines 1348-1358: the NCP divider for the final `dac_rate`.  The test
`ncp_div > 128 || dac_rate / ncp_div > 2048000` divides by `ncp_div` when `ncp_div <= 128`. -/
def set_dividers_ncp_div (priv : zpcm512x_priv) (dac_rate : Nat) : Outcome Nat :=
  let ncp_div := DIV_ROUND_CLOSEST dac_rate (zpcm512x_ncp_target priv.overclock_dac dac_rate)
  if ncp_div > 128 then
    if DIV_ROUND_UP dac_rate 2048000 > 128 then Outcome.error (-EINVAL)
    else Outcome.ok (DIV_ROUND_UP dac_rate 2048000)
  else if ncp_div = 0 then Outcome.undefined
  else if dac_rate / ncp_div > 2048000 then
    if DIV_ROUND_UP dac_rate 2048000 > 128 then Outcome.error (-EINVAL)
    else Outcome.ok (DIV_ROUND_UP dac_rate 2048000)
  else Outcome.ok ncp_div

/-- Lines 1420-1427: the speed mode for the actual sample rate. -/
def set_dividers_fssp (priv : zpcm512x_priv) (sample_rate : Nat) : Sym :=
  if sample_rate ≤ zpcm512x_dac_max priv.overclock_dac 48000 then Sym.FSSP_48KHZ
  else if sample_rate ≤ zpcm512x_dac_max priv.overclock_dac 96000 then Sym.FSSP_96KHZ
  else if sample_rate ≤ zpcm512x_dac_max priv.overclock_dac 192000 then Sym.FSSP_192KHZ
  else Sym.FSSP_384KHZ

/-- Lines 1333-1360: `osr_div`, `dac_div`, the final `dac_rate`, `ncp_div` and `idac`, for the
values computed so far.  `dacsrc_rate / dac_div` divides by `dac_div`. -/
def set_dividers_compute (priv : zpcm512x_priv) (lrclk_div : Nat) (k : ClockSel)
    (sample_rate osr_rate dsp_div dac_rate0 dacsrc_rate : Nat) : Outcome Dividers :=
  let osr_div := DIV_ROUND_CLOSEST dac_rate0 osr_rate
  if osr_div > 128 then Outcome.error (-EINVAL)
  else
    let dac_div := DIV_ROUND_CLOSEST dacsrc_rate dac_rate0
    if dac_div > 128 then Outcome.error (-EINVAL)
    else if dac_div = 0 then Outcome.undefined
    else
      let dac_rate := dacsrc_rate / dac_div
      match set_dividers_ncp_div priv dac_rate with
      | Outcome.undefined => Outcome.undefined
      | Outcome.error e => Outcome.error e
      | Outcome.ok ncp_div =>
        Outcome.ok
          { lrclk_div := lrclk_div, sck_rate := k.sck_rate, mck_rate := k.mck_rate,
            bclk_rate := k.bclk_rate, bclk_div := k.bclk_div, sample_rate := sample_rate,
            osr_rate := osr_rate, dsp_div := dsp_div, dacsrc_rate := dacsrc_rate,
            dac_rate := dac_rate, osr_div := osr_div, dac_div := dac_div, ncp_div := ncp_div,
            idac := k.mck_rate / (dsp_div * sample_rate),
            fssp := set_dividers_fssp priv sample_rate, coeff := k.coeff }

/-- Lines 1362-1434: the divider, IDAC and speed-mode writes. -/
def set_dividers_write (d : Dividers) : Drv BusOp Unit := do
  regmap_write Reg.DSP_CLKDIV ((d.dsp_div : Int) - 1)
  regmap_write Reg.DAC_CLKDIV ((d.dac_div : Int) - 1)
  regmap_write Reg.NCP_CLKDIV ((d.ncp_div : Int) - 1)
  regmap_write Reg.OSR_CLKDIV ((d.osr_div : Int) - 1)
  regmap_write Reg.MASTER_CLKDIV_1 ((d.bclk_div : Int) - 1)
  regmap_write Reg.MASTER_CLKDIV_2 ((d.lrclk_div : Int) - 1)
  regmap_write Reg.IDAC_1 ((d.idac >>> 8 : Nat) : Int)
  regmap_write Reg.IDAC_2 ((d.idac &&& 0xff : Nat) : Int)
  regmap_update_bits Reg.FS_SPEED_MODE (Bits.sym Sym.FSSP) (Bits.sym d.fssp)

/-- Lines 1261-1441 of `zpcm512x_set_dividers`, after the clocking mode is settled.
`sck_rate / bclk_div / lrclk_div` divides by `bclk_div`. -/
def set_dividers_chain (priv : zpcm512x_priv) (lrclk_div : Nat) (k : ClockSel) :
    Drv BusOp Dividers :=
  if k.bclk_div > 128 then Drv.lift (Outcome.error (-EINVAL))
  else if k.bclk_div = 0 then Drv.lift Outcome.undefined
  else
    let sample_rate := k.sck_rate / k.bclk_div / lrclk_div
    let osr_rate := 16 * sample_rate
    let dsp_div := if k.mck_rate > zpcm512x_dsp_max priv.overclock_dsp then 2 else 1
    do
      let src ← set_dividers_dac_source priv k.sck_rate osr_rate k.pllin_rate
      let d ← Drv.lift
        (set_dividers_compute priv lrclk_div k sample_rate osr_rate dsp_div src.1 src.2)
      set_dividers_write d
      pure d

/-- Source `zpcm512x_set_dividers`. -/
def zpcm512x_set_dividers (priv : zpcm512x_priv) (params : snd_pcm_hw_params) :
    Drv BusOp Dividers := do
  let lrclk_div ← Drv.lift (set_dividers_lrclk_div priv params)
  let k ← set_dividers_clock priv params lrclk_div
  set_dividers_chain priv lrclk_div k

/-! ## Hardware parameters (`zpcm512x_dai_hw_params`, lines 1443-1630) -/

/-- The `switch (params_width(params))` of `zpcm512x_dai_hw_params`. -/
def hw_params_alen (params : snd_pcm_hw_params) : Outcome Sym :=
  if params.width = 16 then Outcome.ok Sym.ALEN_16
  else if params.width = 20 then Outcome.ok Sym.ALEN_20
  else if params.width = 24 then Outcome.ok Sym.ALEN_24
  else if params.width = 32 then Outcome.ok Sym.ALEN_32
  else Outcome.error (-EINVAL)

/-- The set of error-detection bits `zpcm512x_dai_hw_params` updates in master mode. -/
def hw_params_detect_mask : Bits :=
  Bits.ored [Sym.IDFS, Sym.IDBK, Sym.IDSK, Sym.IDCH, Sym.IDCM, Sym.DCAS, Sym.IPLK]

/-- Lines 1504-1554: the master-mode register writes that precede `zpcm512x_set_dividers`. -/
def hw_params_master_setup (priv : zpcm512x_priv) : Drv BusOp Unit :=
  if priv.pll_out ≠ 0 then do
    regmap_write Reg.FLEX_A 0x11
    regmap_write Reg.FLEX_B 0xff
    regmap_update_bits Reg.ERROR_DETECT hw_params_detect_mask
      (Bits.ored [Sym.IDFS, Sym.IDBK, Sym.IDSK, Sym.IDCH, Sym.DCAS])
  else do
    regmap_update_bits Reg.ERROR_DETECT hw_params_detect_mask
      (Bits.ored [Sym.IDFS, Sym.IDBK, Sym.IDSK, Sym.IDCH, Sym.DCAS, Sym.IPLK])
    regmap_update_bits Reg.PLL_EN (Bits.sym Sym.PLLE) Bits.zero

/-- Lines 1563-1609: the PLL routing writes that follow `zpcm512x_set_dividers` in PLL mode. -/
def hw_params_pll_routing (priv : zpcm512x_priv) : Drv BusOp Unit :=
  if priv.pll_out ≠ 0 then do
    regmap_update_bits Reg.PLL_REF (Bits.sym Sym.SREF) (Bits.sym Sym.SREF_GPIO)
    regmap_update_bits Reg.GPIO_PLLIN (Bits.sym Sym.GREF)
      (Bits.plus Sym.GREF_GPIO1 ((priv.pll_in : Int) - 1))
    regmap_update_bits Reg.PLL_EN (Bits.sym Sym.PLLE) (Bits.sym Sym.PLLE)
    regmap_update_bits Reg.GPIO_EN (Bits.shl Sym.G1OE ((priv.pll_out : Int) - 1))
      (Bits.shl Sym.G1OE ((priv.pll_out : Int) - 1))
    regmap_update_bits (Reg.GPIO_OUTPUT_1_plus ((priv.pll_out : Int) - 1)) (Bits.sym Sym.GxSL)
      (Bits.sym Sym.GxSL_PLLCK)
  else pure ()

/-- Lines 1611-1625: the halt and resume requests on `PCM512x_SYNCHRONIZE`. -/
def hw_params_synchronize : Drv BusOp Unit := do
  regmap_update_bits Reg.SYNCHRONIZE (Bits.sym Sym.RQSY) (Bits.sym Sym.RQSY_HALT)
  regmap_update_bits Reg.SYNCHRONIZE (Bits.sym Sym.RQSY) (Bits.sym Sym.RQSY_RESUME)

/-- Lines 1463-1554 of `zpcm512x_dai_hw_params` for a master-mode format: everything before
the call of `zpcm512x_set_dividers`. -/
def hw_params_before_dividers (priv : zpcm512x_priv) (params : snd_pcm_hw_params) :
    Drv BusOp Unit := do
  let alen ← Drv.lift (hw_params_alen params)
  regmap_update_bits Reg.I2S_1 (Bits.sym Sym.ALEN) (Bits.sym alen)
  hw_params_master_setup priv

/-- Source `zpcm512x_dai_hw_params`.  With the format `SND_SOC_DAIFMT_CBS_CFS` the function
enables the clock divider autoset and jumps to `skip_pll`. -/
def zpcm512x_dai_hw_params (priv : zpcm512x_priv) (params : snd_pcm_hw_params) :
    Drv BusOp Unit :=
  if priv.fmt_is_CBS_CFS then do
    let alen ← Drv.lift (hw_params_alen params)
    regmap_update_bits Reg.I2S_1 (Bits.sym Sym.ALEN) (Bits.sym alen)
    regmap_update_bits Reg.ERROR_DETECT (Bits.sym Sym.DCAS) Bits.zero
  else do
    hw_params_before_dividers priv params
    let _ ← zpcm512x_set_dividers priv params
    hw_params_pll_routing priv
    hw_params_synchronize

/-! ## DAC2HD PLL register log (`clk_hb_dac2hd_write_pll_regs`, `clk-hifiberry-dac2hd.c`) -/

/-- Kernel `struct reg_default`: a register and the value written to it (`def` in the source). -/
structure reg_default where
  reg : Nat
  defv : Nat
  deriving DecidableEq, Repr

/-- Source `clk_hb_dac2hd_pll_reg_soft_reset`. -/
def clk_hb_dac2hd_pll_reg_soft_reset : reg_default := { reg := 177, defv := 0xAC }

/-- One operation of the clock driver: a `regmap_write`, or the `usleep_range` that follows the
reset write. -/
inductive ClkOp where
  | write (reg val : Nat) : ClkOp
  | usleep_range (min max : Nat) : ClkOp
  deriving DecidableEq, Repr

/-- Source `usleep_range(min, max)`: recorded in the log, it cannot fail. -/
def usleep_range (min max : Nat) : Drv ClkOp Unit := fun b =>
  (Outcome.ok (), { b with log := b.log ++ [ClkOp.usleep_range min max] })

/-- The loop `for (i = 0; i < num; i++)` of `clk_hb_dac2hd_write_pll_regs`, entered at `i` with
`n` iterations left (`i + n = num`): `ret |= regmap_write(regs[i].reg, regs[i].def)` with
`ret = 0` before, and `return ret` when it is not 0.  Reading `regs[i]` past the end of the
table is undefined. -/
def write_pll_regs_loop (regs : List reg_default) : Nat → Nat → Drv ClkOp Unit
  | 0, _ => pure ()
  | n + 1, i =>
    match regs[i]? with
    | none => Drv.lift Outcome.undefined
    | some r => do
      Drv.issue (ClkOp.write r.reg r.defv)
      write_pll_regs_loop regs n (i + 1)

/-- Source `clk_hb_dac2hd_write_pll_regs`. -/
def clk_hb_dac2hd_write_pll_regs (regs : List reg_default) (num : Nat) (do_pll_reset : Bool) :
    Drv ClkOp Unit := do
  write_pll_regs_loop regs num 0
  if do_pll_reset then do
    Drv.issue
      (ClkOp.write clk_hb_dac2hd_pll_reg_soft_reset.reg clk_hb_dac2hd_pll_reg_soft_reset.defv)
    usleep_range 9950 10050
  else pure ()

/-! ## DAC2HD rate selection (`clk_hb_dac2hd_set_rate`, `clk-hifiberry-dac2hd.c`) -/

/-- The globals of the source that hold the six dedicated register tables and their counters.
They are compiled in under `CLK_DAC2HD_STATIC_DEFAULTS` and filled from the device tree by
`clk_hb_dac2hd_dt_parse` otherwise.  The counters are `int` in the source; a negative one (a
failed device-tree read) runs the write loop as often as 0 does. -/
structure dac2hd_pll_regs where
  dedicated_44k1_pll_regs : List reg_default
  num_dedicated_44k1_pll_regs : Nat
  dedicated_88k2_pll_regs : List reg_default
  num_dedicated_88k2_pll_regs : Nat
  dedicated_176k4_pll_regs : List reg_default
  num_dedicated_176k4_pll_regs : Nat
  dedicated_48k_pll_regs : List reg_default
  num_dedicated_48k_pll_regs : Nat
  dedicated_96k_pll_regs : List reg_default
  num_dedicated_96k_pll_regs : Nat
  dedicated_192k_pll_regs : List reg_default
  num_dedicated_192k_pll_regs : Nat

/-- Source `clk_hb_dac2hd_dedicated_192k_pll_regs` under `CLK_DAC2HD_STATIC_DEFAULTS`. -/
def clk_hb_dac2hd_dedicated_192k_pll_regs : List reg_default :=
  [⟨0x1A, 0x0C⟩, ⟨0x1B, 0x35⟩, ⟨0x1E, 0xF0⟩, ⟨0x20, 0x09⟩,
   ⟨0x21, 0x50⟩, ⟨0x2B, 0x02⟩, ⟨0x2D, 0x10⟩, ⟨0x2E, 0x40⟩,
   ⟨0x33, 0x01⟩, ⟨0x35, 0x22⟩, ⟨0x36, 0x80⟩, ⟨0x3C, 0x22⟩,
   ⟨0x3D, 0x46⟩]

/-- Source `clk_hb_dac2hd_dedicated_96k_pll_regs` under `CLK_DAC2HD_STATIC_DEFAULTS`. -/
def clk_hb_dac2hd_dedicated_96k_pll_regs : List reg_default :=
  [⟨0x1A, 0x0C⟩, ⟨0x1B, 0x35⟩, ⟨0x1E, 0xF0⟩, ⟨0x20, 0x09⟩,
   ⟨0x21, 0x50⟩, ⟨0x2B, 0x02⟩, ⟨0x2D, 0x10⟩, ⟨0x2E, 0x40⟩,
   ⟨0x33, 0x01⟩, ⟨0x35, 0x47⟩, ⟨0x36, 0x00⟩, ⟨0x3C, 0x32⟩,
   ⟨0x3D, 0x46⟩]

/-- Source `clk_hb_dac2hd_dedicated_48k_pll_regs` under `CLK_DAC2HD_STATIC_DEFAULTS`. -/
def clk_hb_dac2hd_dedicated_48k_pll_regs : List reg_default :=
  [⟨0x1A, 0x0C⟩, ⟨0x1B, 0x35⟩, ⟨0x1E, 0xF0⟩, ⟨0x20, 0x09⟩,
   ⟨0x21, 0x50⟩, ⟨0x2B, 0x02⟩, ⟨0x2D, 0x10⟩, ⟨0x2E, 0x40⟩,
   ⟨0x33, 0x01⟩, ⟨0x35, 0x90⟩, ⟨0x36, 0x00⟩, ⟨0x3C, 0x42⟩,
   ⟨0x3D, 0x46⟩]

/-- Source `clk_hb_dac2hd_dedicated_176k4_pll_regs` under `CLK_DAC2HD_STATIC_DEFAULTS`. -/
def clk_hb_dac2hd_dedicated_176k4_pll_regs : List reg_default :=
  [⟨0x1A, 0x3D⟩, ⟨0x1B, 0x09⟩, ⟨0x1E, 0xF3⟩, ⟨0x20, 0x13⟩,
   ⟨0x21, 0x75⟩, ⟨0x2B, 0x04⟩, ⟨0x2D, 0x11⟩, ⟨0x2E, 0xE0⟩,
   ⟨0x33, 0x02⟩, ⟨0x35, 0x25⟩, ⟨0x36, 0xC0⟩, ⟨0x3C, 0x22⟩,
   ⟨0x3D, 0x7A⟩]

/-- Source `clk_hb_dac2hd_dedicated_88k2_pll_regs` under `CLK_DAC2HD_STATIC_DEFAULTS`. -/
def clk_hb_dac2hd_dedicated_88k2_pll_regs : List reg_default :=
  [⟨0x1A, 0x3D⟩, ⟨0x1B, 0x09⟩, ⟨0x1E, 0xF3⟩, ⟨0x20, 0x13⟩,
   ⟨0x21, 0x75⟩, ⟨0x2B, 0x04⟩, ⟨0x2D, 0x11⟩, ⟨0x2E, 0xE0⟩,
   ⟨0x33, 0x01⟩, ⟨0x35, 0x4D⟩, ⟨0x36, 0x80⟩, ⟨0x3C, 0x32⟩,
   ⟨0x3D, 0x7A⟩]

/-- Source `clk_hb_dac2hd_dedicated_44k1_pll_regs` under `CLK_DAC2HD_STATIC_DEFAULTS`. -/
def clk_hb_dac2hd_dedicated_44k1_pll_regs : List reg_default :=
  [⟨0x1A, 0x3D⟩, ⟨0x1B, 0x09⟩, ⟨0x1E, 0xF3⟩, ⟨0x20, 0x13⟩,
   ⟨0x21, 0x75⟩, ⟨0x2B, 0x04⟩, ⟨0x2D, 0x11⟩, ⟨0x2E, 0xE0⟩,
   ⟨0x33, 0x01⟩, ⟨0x35, 0x9D⟩, ⟨0x36, 0x00⟩, ⟨0x3C, 0x42⟩,
   ⟨0x3D, 0x7A⟩]

/-- The tables and counters as compiled under `CLK_DAC2HD_STATIC_DEFAULTS`, each counter being
the `ARRAY_SIZE` of its table. -/
def clk_hb_dac2hd_static_defaults : dac2hd_pll_regs :=
  { dedicated_44k1_pll_regs := clk_hb_dac2hd_dedicated_44k1_pll_regs
    num_dedicated_44k1_pll_regs := clk_hb_dac2hd_dedicated_44k1_pll_regs.length
    dedicated_88k2_pll_regs := clk_hb_dac2hd_dedicated_88k2_pll_regs
    num_dedicated_88k2_pll_regs := clk_hb_dac2hd_dedicated_88k2_pll_regs.length
    dedicated_176k4_pll_regs := clk_hb_dac2hd_dedicated_176k4_pll_regs
    num_dedicated_176k4_pll_regs := clk_hb_dac2hd_dedicated_176k4_pll_regs.length
    dedicated_48k_pll_regs := clk_hb_dac2hd_dedicated_48k_pll_regs
    num_dedicated_48k_pll_regs := clk_hb_dac2hd_dedicated_48k_pll_regs.length
    dedicated_96k_pll_regs := clk_hb_dac2hd_dedicated_96k_pll_regs
    num_dedicated_96k_pll_regs := clk_hb_dac2hd_dedicated_96k_pll_regs.length
    dedicated_192k_pll_regs := clk_hb_dac2hd_dedicated_192k_pll_regs
    num_dedicated_192k_pll_regs := clk_hb_dac2hd_dedicated_192k_pll_regs.length }

/-- The field of `struct clk_hb_dac2hd_drvdata` that `clk_hb_dac2hd_set_rate` reads and
writes, as compiled without `CLK_DAC2HD_PREPARE_INIT` (which the source does not define). -/
structure clk_hb_dac2hd_drvdata where
  rate : Nat
  deriving DecidableEq, Repr

/-- The driver data as `devm_kzalloc` leaves it in `clk_hb_dac2hd_i2c_probe`: no rate has been
selected and `rate` is 0. -/
def clk_hb_dac2hd_drvdata_kzalloc : clk_hb_dac2hd_drvdata := { rate := 0 }

/-- Source `clk_hb_dac2hd_recalc_rate`. -/
def clk_hb_dac2hd_recalc_rate (drvdata : clk_hb_dac2hd_drvdata) : Nat := drvdata.rate

/-- The `switch (rate)` of `clk_hb_dac2hd_set_rate`: the table and the counter passed to
`clk_hb_dac2hd_write_pll_regs` for each `case`, in the order of the source, and `none` for
`default`. -/
def set_rate_pll_regs (t : dac2hd_pll_regs) (rate : Nat) : Option (List reg_default × Nat) :=
  if rate = 44100 then some (t.dedicated_44k1_pll_regs, t.num_dedicated_44k1_pll_regs)
  else if rate = 88200 then some (t.dedicated_88k2_pll_regs, t.num_dedicated_88k2_pll_regs)
  else if rate = 176400 then some (t.dedicated_176k4_pll_regs, t.num_dedicated_176k4_pll_regs)
  else if rate = 48000 then some (t.dedicated_48k_pll_regs, t.num_dedicated_48k_pll_regs)
  else if rate = 96000 then some (t.dedicated_96k_pll_regs, t.num_dedicated_96k_pll_regs)
  else if rate = 192000 then some (t.dedicated_192k_pll_regs, t.num_dedicated_192k_pll_regs)
  else none

/-- Source `clk_hb_dac2hd_set_rate`, as compiled without `CLK_DAC2HD_PREPARE_INIT`: the return
value, the driver data and the bus it leaves.  The test `rate == drvdata->rate` comes before the
`switch`; every `case` passes `CLK_DAC2HD_PLL_RESET`; after the `switch` only `ret < 0` returns
without storing the rate. -/
def clk_hb_dac2hd_set_rate (t : dac2hd_pll_regs) (rate : Nat)
    (drvdata : clk_hb_dac2hd_drvdata) (b : Bus ClkOp) :
    Outcome Unit × clk_hb_dac2hd_drvdata × Bus ClkOp :=
  if rate = drvdata.rate then (Outcome.ok (), drvdata, b)
  else
    match set_rate_pll_regs t rate with
    | none => (Outcome.error (-EINVAL), drvdata, b)
    | some (regs, num) =>
      match clk_hb_dac2hd_write_pll_regs regs num true b with
      | (Outcome.ok _, b1) => (Outcome.ok (), { drvdata with rate := rate }, b1)
      | (Outcome.error ret, b1) =>
        if ret < 0 then (Outcome.error ret, drvdata, b1)
        else (Outcome.error ret, { drvdata with rate := rate }, b1)
      | (Outcome.undefined, b1) => (Outcome.undefined, drvdata, b1)

/-- A sequence of `clk_hb_dac2hd_set_rate` calls, one for each rate of the list, each working
on the driver data and the bus the one before has left. -/
def clk_hb_dac2hd_set_rates (t : dac2hd_pll_regs) :
    List Nat → clk_hb_dac2hd_drvdata × Bus ClkOp → clk_hb_dac2hd_drvdata × Bus ClkOp
  | [], s => s
  | rate :: rates, s =>
    clk_hb_dac2hd_set_rates t rates (clk_hb_dac2hd_set_rate t rate s.1 s.2).2

/-! ## Overclock controls (`zpcm512x_overclock_*_put`, `zpcm512x.c`, lines 256-366) -/

/-- Kernel `enum snd_soc_bias_level`. -/
inductive snd_soc_bias_level where
  | OFF
  | STANDBY
  | PREPARE
  | ON
  deriving DecidableEq, Repr

/-- Source `zpcm512x_overclock_pll_put` for the bias level of the component and the control
value `ucontrol->value.integer.value[0]` as the assignment to the `unsigned long` field holds
it: the return value and the private data it leaves. -/
def zpcm512x_overclock_pll_put (level : snd_soc_bias_level) (priv : zpcm512x_priv)
    (value : Nat) : Outcome Unit × zpcm512x_priv :=
  match level with
  | snd_soc_bias_level.OFF => (Outcome.ok (), { priv with overclock_pll := value })
  | snd_soc_bias_level.STANDBY => (Outcome.ok (), { priv with overclock_pll := value })
  | _ => (Outcome.error (-EBUSY), priv)

/-- Source `zpcm512x_overclock_dsp_put`. -/
def zpcm512x_overclock_dsp_put (level : snd_soc_bias_level) (priv : zpcm512x_priv)
    (value : Nat) : Outcome Unit × zpcm512x_priv :=
  match level with
  | snd_soc_bias_level.OFF => (Outcome.ok (), { priv with overclock_dsp := value })
  | snd_soc_bias_level.STANDBY => (Outcome.ok (), { priv with overclock_dsp := value })
  | _ => (Outcome.error (-EBUSY), priv)

/-- Source `zpcm512x_overclock_dac_put`. -/
def zpcm512x_overclock_dac_put (level : snd_soc_bias_level) (priv : zpcm512x_priv)
    (value : Nat) : Outcome Unit × zpcm512x_priv :=
  match level with
  | snd_soc_bias_level.OFF => (Outcome.ok (), { priv with overclock_dac := value })
  | snd_soc_bias_level.STANDBY => (Outcome.ok (), { priv with overclock_dac := value })
  | _ => (Outcome.error (-EBUSY), priv)

/-! ## Rate rule (`zpcm512x_sck_max` and `zpcm512x_hw_rule_rate`, `zpcm512x.c`, lines 654-731) -/

/-- Source `zpcm512x_sck_max`. -/
def zpcm512x_sck_max (priv : zpcm512x_priv) : Nat :=
  if priv.pll_out = 0 then 25000000 else zpcm512x_pll_max priv.overclock_pll

/-- Kernel `struct snd_interval` with both ends closed, as the `memset` of the source leaves
`openmin` and `openmax`. -/
structure snd_interval where
  min : Nat
  max : Nat
  deriving DecidableEq, Repr

/-- Source `zpcm512x_hw_rule_rate` for a frame size that is not negative: `ok none` is the
`return 0` that leaves the rates alone, `ok (some ranges)` the call of `snd_interval_ranges`
with these ranges.  `zpcm512x_dai_startup_master` installs the rule only when `pll_out` is
set. -/
def zpcm512x_hw_rule_rate (priv : zpcm512x_priv) (frame_size : Nat) :
    Outcome (Option (List snd_interval)) :=
  if frame_size = 32 then Outcome.ok none
  else if frame_size = 48 ∨ frame_size = 64 then
    Outcome.ok (some
      [{ min := 8000, max := zpcm512x_sck_max priv / frame_size / 2 },
       { min := DIV_ROUND_UP 16000000 frame_size, max := 384000 }])
  else Outcome.error (-EINVAL)

/-- Whether the rule lets a rate through: kernel `snd_interval_ranges` keeps the single rate
`[rate, rate]` exactly when one of the ranges contains it, and a rule that returns 0 without
ranges keeps every rate. -/
def hw_rule_rate_admits (rule : Option (List snd_interval)) (rate : Nat) : Bool :=
  match rule with
  | none => true
  | some ranges => ranges.any (fun i => decide (i.min ≤ rate ∧ rate ≤ i.max))

/-! ## The SCK search started as the specification words it -/

/-- Scan for `floor(log2(x))` over the exponents `n - 1, ..., 0`: the largest `i < n` with
`2 ^ i <= x`, and 0 when there is none. -/
def floor_log2_from (x : Nat) : Nat → Nat
  | 0 => 0
  | n + 1 => if 2 ^ n ≤ x then n else floor_log2_from x n

/-- The exponent of the largest power of two not exceeding `x`, for `0 < x < 2 ^ 32`. -/
def floor_log2 (x : Nat) : Nat := floor_log2_from x 32

/-- The search of `zpcm512x_find_sck` started instead at `pow2 = 1 << floor(log2(q))`, the
largest power of two not exceeding `q = (pll_max - 16000000) / bclk_rate`, as the
specification describes the start. -/
def find_sck_from_largest_pow2 (overclock_pll bclk_rate : Nat) : Nat :=
  find_sck_loop (zpcm512x_pll_max overclock_pll) bclk_rate
    (floor_log2 ((zpcm512x_pll_max overclock_pll - 16000000) / bclk_rate) + 1)

/-! ## DAC+ Pro clock selection (`zhifiberry_dacplus.c`, lines 47-54 and 224-282) and the
advertised rates (`zpcm512x.c`, lines 689-692) -/

/-- Source `HIFIBERRY_DACPRO_CLK44EN`. -/
def HIFIBERRY_DACPRO_CLK44EN : Nat := 1

/-- Source `HIFIBERRY_DACPRO_CLK48EN`. -/
def HIFIBERRY_DACPRO_CLK48EN : Nat := 2

/-- Source `CLK_44EN_RATE`. -/
def CLK_44EN_RATE : Nat := 22579200

/-- Source `CLK_48EN_RATE`. -/
def CLK_48EN_RATE : Nat := 24576000

/-- Source `snd_rpi_hb_dacplus_clk_for_rate`: the `switch` on the sample rate. -/
def snd_rpi_hb_dacplus_clk_for_rate (sample_rate : Nat) : Nat :=
  if sample_rate = 11025 ∨ sample_rate = 22050 ∨ sample_rate = 44100 ∨ sample_rate = 88200 ∨
      sample_rate = 176400 ∨ sample_rate = 352800 then HIFIBERRY_DACPRO_CLK44EN
  else HIFIBERRY_DACPRO_CLK48EN

/-- The `clock_rate` that `snd_rpi_hb_dacplus_set_sclk` gives to `clk_set_rate` for a sample
rate. -/
def snd_rpi_hb_dacplus_set_sclk (sample_rate : Nat) : Nat :=
  if snd_rpi_hb_dacplus_clk_for_rate sample_rate = HIFIBERRY_DACPRO_CLK44EN then CLK_44EN_RATE
  else CLK_48EN_RATE

/-- Source `zpcm512x_dai_rates`. -/
def zpcm512x_dai_rates : List Nat :=
  [8000, 11025, 16000, 22050, 32000, 44100, 48000, 64000,
   88200, 96000, 176400, 192000, 352800, 384000]

/-! ## Predicates on runs -/

/-- The register an operation addresses. -/
def BusOp.reg : BusOp → Reg
  | BusOp.write r _ => r
  | BusOp.update_bits r _ _ => r

/-- The `regmap_write` of one table entry. -/
def reg_default.op (r : reg_default) : ClkOp := ClkOp.write r.reg r.defv

/-- A routine is clean for `P` when every run of it leaves the return values of the bus alone,
appends to the log only operations satisfying `P`, and, if it succeeds, every operation it
appended has returned 0. -/
def Drv.Clean {Op α : Type} (P : Op → Prop) (m : Drv Op α) : Prop :=
  ∀ b : Bus Op, (m b).2.ret = b.ret ∧ ∃ ops : List Op, (m b).2.log = b.log ++ ops ∧
    (∀ op ∈ ops, P op) ∧
    (∀ a, (m b).1 = Outcome.ok a → ∀ j, j < ops.length → b.ret (b.log.length + j) = 0)

/-- The five PLL coefficient writes of `zpcm512x_set_dividers` (lines 1216-1254) for the
coefficients `c`, in the order of the source. -/
def pll_coeff_writes (c : PllCoeff) : List BusOp :=
  [BusOp.write Reg.PLL_COEFF_0 ((c.P : Int) - 1),
   BusOp.write Reg.PLL_COEFF_1 (c.J : Int),
   BusOp.write Reg.PLL_COEFF_2 ((c.D >>> 8 : Nat) : Int),
   BusOp.write Reg.PLL_COEFF_3 ((c.D &&& 0xff : Nat) : Int),
   BusOp.write Reg.PLL_COEFF_4 ((c.R : Int) - 1)]

/-- The divider, IDAC and speed-mode operations of `zpcm512x_set_dividers` (lines 1362-1434) for
the values `d`, in the order of the source. -/
def divider_writes (d : Dividers) : List BusOp :=
  [BusOp.write Reg.DSP_CLKDIV ((d.dsp_div : Int) - 1),
   BusOp.write Reg.DAC_CLKDIV ((d.dac_div : Int) - 1),
   BusOp.write Reg.NCP_CLKDIV ((d.ncp_div : Int) - 1),
   BusOp.write Reg.OSR_CLKDIV ((d.osr_div : Int) - 1),
   BusOp.write Reg.MASTER_CLKDIV_1 ((d.bclk_div : Int) - 1),
   BusOp.write Reg.MASTER_CLKDIV_2 ((d.lrclk_div : Int) - 1),
   BusOp.write Reg.IDAC_1 ((d.idac >>> 8 : Nat) : Int),
   BusOp.write Reg.IDAC_2 ((d.idac &&& 0xff : Nat) : Int),
   BusOp.update_bits Reg.FS_SPEED_MODE (Bits.sym Sym.FSSP) (Bits.sym d.fssp)]

/-- Whether a register is one of `PCM512x_PLL_COEFF_0` to `PCM512x_PLL_COEFF_4`. -/
def Reg.is_pll_coeff : Reg → Bool
  | Reg.PLL_COEFF_0 => true
  | Reg.PLL_COEFF_1 => true
  | Reg.PLL_COEFF_2 => true
  | Reg.PLL_COEFF_3 => true
  | Reg.PLL_COEFF_4 => true
  | _ => false

/-- A bus on which every operation still to be issued returns 0. -/
def Bus.all_ok {Op : Type} (b : Bus Op) : Prop := ∀ j, b.ret (b.log.length + j) = 0

/-- The run that issues the operations of a list in order, each followed by
`if (ret != 0) return ret;`. -/
def Drv.issue_all {Op : Type} : List Op → Drv Op Unit
  | [] => Drv.ret ()
  | op :: ops => Drv.bind (Drv.issue op) (fun _ => Drv.issue_all ops)

/-- A routine is uniform when, on buses where every operation still to be issued returns 0,
its outcome does not depend on the bus and the bus it leaves is again such a bus. -/
def Drv.Uniform {Op α : Type} (m : Drv Op α) : Prop :=
  ∀ b b' : Bus Op, b.all_ok → b'.all_ok → (m b).1 = (m b').1 ∧ (m b).2.all_ok

/-! ## Lemmas on the search loops -/

theorem find_R_some (num : Nat) : ∀ (n R J : Nat), find_R num n = some (R, J) →
    1 ≤ R ∧ R ≤ n ∧ num % R = 0 ∧ J = num / R ∧ 1 ≤ J ∧ J ≤ 63 := by
  intro n
  induction n with
  | zero => intro R J h; simp [find_R] at h
  | succ n ih =>
    intro R J h
    unfold find_R at h
    split at h
    · obtain ⟨h1, h2, h3⟩ := ih R J h
      exact ⟨h1, by omega, h3⟩
    · split at h
      · obtain ⟨h1, h2, h3⟩ := ih R J h
        exact ⟨h1, by omega, h3⟩
      · rename_i hmod hJ
        simp only [Option.some.injEq, Prod.mk.injEq] at h
        obtain ⟨rfl, rfl⟩ := h
        generalize num / (n + 1) = q at hJ ⊢
        generalize num % (n + 1) = r at hmod ⊢
        refine ⟨by omega, le_refl _, by omega, rfl, by omega, by omega⟩

theorem find_P_some (pllin_rate num den : Nat) : ∀ (fuel P0 P K : Nat),
    find_P pllin_rate num den fuel P0 = some (P, K) →
    P0 ≤ P ∧ P ≤ 15 ∧ 6667000 ≤ pllin_rate / P ∧ pllin_rate / P ≤ 200000000 ∧
      num * P % den = 0 ∧ K = num * P / den ∧ 40000 ≤ K ∧ K ≤ 120000 := by
  intro fuel
  induction fuel with
  | zero => intro P0 P K h; simp [find_P] at h
  | succ n ih =>
    intro P0 P K h
    unfold find_P at h
    split at h
    · simp at h
    · split at h
      · obtain ⟨h1, h2⟩ := ih _ P K h
        exact ⟨by omega, h2⟩
      · split at h
        · obtain ⟨h1, h2⟩ := ih _ P K h
          exact ⟨by omega, h2⟩
        · split at h
          · obtain ⟨h1, h2⟩ := ih _ P K h
            exact ⟨by omega, h2⟩
          · rename_i hP hin hmod hK
            simp only [Option.some.injEq, Prod.mk.injEq] at h
            obtain ⟨rfl, rfl⟩ := h
            generalize pllin_rate / P0 = x at hin ⊢
            generalize num * P0 / den = q at hK ⊢
            generalize num * P0 % den = r at hmod ⊢
            refine ⟨le_refl _, by omega, by omega, by omega, by omega, rfl, by omega, by omega⟩

/-! ## Lemmas on the solver -/

theorem pll_den_pos (pllin_rate pll_rate : Nat) (h : 0 < pllin_rate) :
    0 < pll_den pllin_rate pll_rate := by
  have hg : 0 < Nat.gcd pll_rate pllin_rate := Nat.gcd_pos_of_pos_right _ h
  have hd : 0 < pllin_rate / Nat.gcd pll_rate pllin_rate :=
    Nat.div_pos (Nat.gcd_le_right _ h) hg
  unfold pll_den
  simp only
  split
  · rename_i hc
    apply Nat.mul_pos hd
    unfold DIV_ROUND_UP
    generalize pllin_rate / (pllin_rate / Nat.gcd pll_rate pllin_rate) = x at hc ⊢
    omega
  · exact hd

theorem pll_ratio (pllin_rate pll_rate : Nat) :
    pll_rate * pll_den pllin_rate pll_rate = pllin_rate * pll_num pllin_rate pll_rate := by
  obtain ⟨a, ha⟩ := Nat.gcd_dvd_left pll_rate pllin_rate
  obtain ⟨b, hb⟩ := Nat.gcd_dvd_right pll_rate pllin_rate
  rcases Nat.eq_zero_or_pos (Nat.gcd pll_rate pllin_rate) with hg | hg
  · have h1 : pll_rate = 0 := by rw [ha, hg, Nat.zero_mul]
    have h2 : pllin_rate = 0 := by rw [hb, hg, Nat.zero_mul]
    subst h1 h2
    simp
  · have h1 : pll_rate / Nat.gcd pll_rate pllin_rate = a :=
      Nat.div_eq_of_eq_mul_right hg ha
    have h2 : pllin_rate / Nat.gcd pll_rate pllin_rate = b :=
      Nat.div_eq_of_eq_mul_right hg hb
    have key : pll_rate * b = pllin_rate * a := by
      have e1 : pll_rate * b = Nat.gcd pll_rate pllin_rate * a * b := congrArg (· * b) ha
      have e2 : pllin_rate * a = Nat.gcd pll_rate pllin_rate * b * a := congrArg (· * a) hb
      rw [e1, e2]; ring
    unfold pll_den pll_num
    simp only [h1, h2]
    split
    · rw [← Nat.mul_assoc, ← Nat.mul_assoc, key]
    · exact key

/-- What a successful run of the fallback stores. -/
theorem find_pll_coeff_fallback_ok (pllin_rate pll_rate : Nat) (c : PllCoeff)
    (h : find_pll_coeff_fallback pllin_rate pll_rate = Outcome.ok c) :
    pll_fallback_P pllin_rate ≤ 15 ∧ 6667000 ≤ pllin_rate / pll_fallback_P pllin_rate ∧
    c = { R := 1,
          J := pll_clamp_K (DIV_ROUND_CLOSEST_ULL
                (10000 * pll_rate * pll_fallback_P pllin_rate) pllin_rate) / 10000,
          D := pll_clamp_K (DIV_ROUND_CLOSEST_ULL
                (10000 * pll_rate * pll_fallback_P pllin_rate) pllin_rate) % 10000,
          P := pll_fallback_P pllin_rate,
          real_pll := DIV_ROUND_DOWN_ULL
            (pll_clamp_K (DIV_ROUND_CLOSEST_ULL
                (10000 * pll_rate * pll_fallback_P pllin_rate) pllin_rate) * pllin_rate)
            (10000 * pll_fallback_P pllin_rate),
          path := PllPath.fallback } := by
  unfold find_pll_coeff_fallback at h
  simp only at h
  by_cases h1 : DIV_ROUND_UP pllin_rate 20000000 ≠ 0 ∧ DIV_ROUND_UP pllin_rate 20000000 > 15
  · rw [if_pos h1] at h
    exact absurd h (by simp)
  · rw [if_neg h1] at h
    by_cases h2 : pllin_rate / pll_fallback_P pllin_rate < 6667000
    · rw [if_pos h2] at h
      exact absurd h (by simp)
    · rw [if_neg h2] at h
      simp only [Outcome.ok.injEq] at h
      refine ⟨?_, by omega, h.symm⟩
      unfold pll_fallback_P
      split <;> omega

/-- The three ways `zpcm512x_find_pll_coeff` returns 0, read off its code. -/
theorem find_pll_coeff_ok_cases (pllin_rate pll_rate : Nat) (c : PllCoeff)
    (h : zpcm512x_find_pll_coeff pllin_rate pll_rate = Outcome.ok c) :
    0 < pllin_rate ∧
    ((c.path = PllPath.exactInt ∧ c.D = 0 ∧ c.P = pll_den pllin_rate pll_rate ∧ c.P ≤ 15 ∧
        pll_num pllin_rate pll_rate ≤ 16 * 63 ∧ 1000000 ≤ pllin_rate / c.P ∧
        pllin_rate / c.P ≤ 20000000 ∧
        find_R (pll_num pllin_rate pll_rate) 16 = some (c.R, c.J) ∧ c.real_pll = pll_rate) ∨
     (c.path = PllPath.exactFrac ∧ c.R = 1 ∧ c.real_pll = pll_rate ∧
        pll_num pllin_rate pll_rate ≤ 0xffffffff / 10000 ∧
        ∃ K, find_P pllin_rate
            (10000 * pll_num pllin_rate pll_rate /
              Nat.gcd (10000 * pll_num pllin_rate pll_rate) (pll_den pllin_rate pll_rate))
            (pll_den pllin_rate pll_rate /
              Nat.gcd (10000 * pll_num pllin_rate pll_rate) (pll_den pllin_rate pll_rate))
            (16 - pll_den pllin_rate pll_rate /
              Nat.gcd (10000 * pll_num pllin_rate pll_rate) (pll_den pllin_rate pll_rate))
            (pll_den pllin_rate pll_rate /
              Nat.gcd (10000 * pll_num pllin_rate pll_rate) (pll_den pllin_rate pll_rate))
            = some (c.P, K) ∧ c.J = K / 10000 ∧ c.D = K % 10000) ∨
     (c.path = PllPath.fallback ∧ find_pll_coeff_fallback pllin_rate pll_rate = Outcome.ok c)) := by
  unfold zpcm512x_find_pll_coeff at h
  split at h
  · exact absurd h (by simp)
  · rename_i hpos
    refine ⟨Nat.pos_of_ne_zero hpos, ?_⟩
    simp only at h
    split at h
    · rename_i R J hex
      simp only [Outcome.ok.injEq] at h
      subst h
      left
      split at hex
      · rename_i hcond
        exact ⟨rfl, rfl, rfl, hcond.1, hcond.2.1, hcond.2.2.1, hcond.2.2.2, hex, rfl⟩
      · exact absurd hex (by simp)
    · right
      unfold find_pll_coeff_frac at h
      split at h
      · right
        refine ⟨?_, h⟩
        rw [(find_pll_coeff_fallback_ok _ _ _ h).2.2]
      · rename_i hnum
        simp only at h
        split at h
        · rename_i P K hP
          left
          simp only [Outcome.ok.injEq] at h
          subst h
          exact ⟨rfl, rfl, rfl, by omega, K, hP, rfl, rfl⟩
        · right
          refine ⟨?_, h⟩
          rw [(find_pll_coeff_fallback_ok _ _ _ h).2.2]

theorem pll_clamp_K_bounds (K0 : Nat) : 40000 ≤ pll_clamp_K K0 ∧ pll_clamp_K K0 ≤ 120000 := by
  unfold pll_clamp_K
  simp only
  split <;> split <;> omega

/-- A successful run stores a `P` of at least 1. -/
theorem find_pll_coeff_ok_P_pos (pllin_rate pll_rate : Nat) (c : PllCoeff)
    (h : zpcm512x_find_pll_coeff pllin_rate pll_rate = Outcome.ok c) : 1 ≤ c.P := by
  obtain ⟨_, hcase⟩ := find_pll_coeff_ok_cases pllin_rate pll_rate c h
  rcases hcase with ⟨_, _, _, _, _, hlo, _⟩ | ⟨_, _, _, _, K, hK, _⟩ | ⟨_, hfb⟩
  · rcases Nat.eq_zero_or_pos c.P with h0 | h0
    · rw [h0, Nat.div_zero] at hlo; omega
    · exact h0
  · obtain ⟨_, _, x1, _⟩ := find_P_some _ _ _ _ _ _ _ hK
    rcases Nat.eq_zero_or_pos c.P with h0 | h0
    · rw [h0, Nat.div_zero] at x1; omega
    · exact h0
  · obtain ⟨_, x1, hc⟩ := find_pll_coeff_fallback_ok _ _ _ hfb
    rw [hc]
    rcases Nat.eq_zero_or_pos (pll_fallback_P pllin_rate) with h0 | h0
    · rw [h0, Nat.div_zero] at x1; omega
    · exact h0

theorem pll_num_of_coprime (g a b : Nat) (hg : 0 < g) (hb : 0 < b) (hcop : Nat.Coprime a b) :
    pll_num (g * b) (g * a) =
      if g > 20000000 ∧ a < 8 then a * DIV_ROUND_UP g 20000000 else a := by
  have e : Nat.gcd (g * a) (g * b) = g := by
    rw [Nat.gcd_mul_left, hcop, Nat.mul_one]
  unfold pll_num
  simp only [e, Nat.mul_div_cancel_left _ hg, Nat.mul_div_cancel _ hb]

theorem pll_den_of_coprime (g a b : Nat) (hg : 0 < g) (hb : 0 < b) (hcop : Nat.Coprime a b) :
    pll_den (g * b) (g * a) =
      if g > 20000000 ∧ a < 8 then b * DIV_ROUND_UP g 20000000 else b := by
  have e : Nat.gcd (g * a) (g * b) = g := by
    rw [Nat.gcd_mul_left, hcop, Nat.mul_one]
  unfold pll_den
  simp only [e, Nat.mul_div_cancel_left _ hg, Nat.mul_div_cancel _ hb]

theorem find_R_complete (num : Nat) : ∀ (n R : Nat), 1 ≤ R → R ≤ n → num % R = 0 →
    1 ≤ num / R → num / R ≤ 63 → ∃ R' J', find_R num n = some (R', J') := by
  intro n
  induction n with
  | zero => intro R h1 h2; omega
  | succ n ih =>
    intro R h1 h2 hmod hlo hhi
    unfold find_R
    split
    · rename_i hne
      have hRn : R ≤ n := by
        rcases Nat.lt_or_ge R (n + 1) with h | h
        · omega
        · have : R = n + 1 := by omega
          subst this
          exact absurd hmod hne
      exact ih R h1 hRn hmod hlo hhi
    · split
      · rename_i hJ
        have hRn : R ≤ n := by
          rcases Nat.lt_or_ge R (n + 1) with h | h
          · omega
          · have : R = n + 1 := by omega
            subst this
            generalize num / (n + 1) = q at hJ hlo hhi
            omega
        exact ih R h1 hRn hmod hlo hhi
      · exact ⟨_, _, rfl⟩

/-- If `a * k = R * J` with `R` in `1..16`, `J` in `1..63` and `k >= 1`, then `a` itself splits
into such a pair. -/
theorem factor_of_scaled (a k R J : Nat) (hk : 1 ≤ k) (hR1 : 1 ≤ R) (hR2 : R ≤ 16)
    (hJ1 : 1 ≤ J) (hJ2 : J ≤ 63) (h : a * k = R * J) :
    ∃ R', 1 ≤ R' ∧ R' ≤ 16 ∧ a % R' = 0 ∧ 1 ≤ a / R' ∧ a / R' ≤ 63 := by
  have hd : 0 < Nat.gcd R k := Nat.gcd_pos_of_pos_left _ hR1
  obtain ⟨R', hR'⟩ := Nat.gcd_dvd_left R k
  obtain ⟨k', hk'⟩ := Nat.gcd_dvd_right R k
  have hcop : Nat.Coprime R' k' := by
    have := Nat.coprime_div_gcd_div_gcd hd
    rwa [Nat.div_eq_of_eq_mul_right hd hR', Nat.div_eq_of_eq_mul_right hd hk'] at this
  have hR'pos : 0 < R' := by
    rcases Nat.eq_zero_or_pos R' with h0 | h0
    · rw [h0, Nat.mul_zero] at hR'; omega
    · exact h0
  have hk'pos : 0 < k' := by
    rcases Nat.eq_zero_or_pos k' with h0 | h0
    · rw [h0, Nat.mul_zero] at hk'; omega
    · exact h0
  -- cancel the gcd
  have h2 : a * k' = R' * J := by
    apply Nat.eq_of_mul_eq_mul_left hd
    calc Nat.gcd R k * (a * k') = a * (Nat.gcd R k * k') := by ring
      _ = a * k := by rw [← hk']
      _ = R * J := h
      _ = Nat.gcd R k * R' * J := congrArg (· * J) hR'
      _ = Nat.gcd R k * (R' * J) := by ring
  have hdvd : k' ∣ J := by
    have : k' ∣ R' * J := Dvd.intro_left a h2
    exact (Nat.Coprime.dvd_mul_left hcop.symm).mp this
  obtain ⟨J', hJ'⟩ := hdvd
  have h3 : a = R' * J' := by
    apply Nat.eq_of_mul_eq_mul_right hk'pos
    rw [h2, hJ']; ring
  have hJ'pos : 0 < J' := by
    rcases Nat.eq_zero_or_pos J' with h0 | h0
    · rw [h0, Nat.mul_zero] at hJ'; omega
    · exact h0
  have hR'le : R' ≤ R := by
    rw [hR']; exact Nat.le_mul_of_pos_left _ hd
  have hJ'le : J' ≤ J := by
    rw [hJ']; exact Nat.le_mul_of_pos_left _ hk'pos
  refine ⟨R', hR'pos, by omega, ?_, ?_, ?_⟩
  · rw [h3]; exact Nat.mul_mod_right _ _
  · rw [h3, Nat.mul_div_cancel_left _ hR'pos]; exact hJ'pos
  · rw [h3, Nat.mul_div_cancel_left _ hR'pos]; omega

theorem find_pll_coeff_exactInt (pllin_rate pll_rate R J : Nat) (hpos : 0 < pllin_rate)
    (hcond : pll_den pllin_rate pll_rate ≤ 15 ∧ pll_num pllin_rate pll_rate ≤ 16 * 63 ∧
      1000000 ≤ pllin_rate / pll_den pllin_rate pll_rate ∧
      pllin_rate / pll_den pllin_rate pll_rate ≤ 20000000)
    (hR : find_R (pll_num pllin_rate pll_rate) 16 = some (R, J)) :
    zpcm512x_find_pll_coeff pllin_rate pll_rate =
      Outcome.ok ⟨R, J, 0, pll_den pllin_rate pll_rate, pll_rate, PllPath.exactInt⟩ := by
  unfold zpcm512x_find_pll_coeff
  rw [if_neg (by omega)]
  simp only
  rw [if_pos hcond, hR]

theorem find_R_small (n : Nat) (h1 : 1 ≤ n) (h2 : n ≤ 20) :
    ∃ R J, find_R n 16 = some (R, J) := by
  have h : (find_R n 16).isSome = true := by
    interval_cases n <;> decide
  obtain ⟨⟨R, J⟩, hRJ⟩ := Option.isSome_iff_exists.mp h
  exact ⟨R, J, hRJ⟩

/-- On the `D = 0` path the stored `R`, `J`, `P` give the requested rate exactly. -/
theorem exactInt_relation (pllin_rate pll_rate R J : Nat)
    (hR : find_R (pll_num pllin_rate pll_rate) 16 = some (R, J)) :
    pllin_rate * R * J = pll_rate * pll_den pllin_rate pll_rate := by
  obtain ⟨_, _, rmod, rJ, _, _⟩ := find_R_some _ _ _ _ hR
  have hnum : R * J = pll_num pllin_rate pll_rate := by
    rw [rJ]; exact Nat.mul_div_cancel' (Nat.dvd_of_mod_eq_zero rmod)
  rw [Nat.mul_assoc, hnum, pll_ratio]

theorem exact_found_core (g a b k R J : Nat) (hg : 0 < g) (hb : 0 < b)
    (hcop : Nat.Coprime a b)
    (h64 : 64000000 ≤ g * a) (h100 : g * a ≤ 100000000)
    (hk : 1 ≤ k) (hP : b * k ≤ 15)
    (hR1 : 1 ≤ R) (hR2 : R ≤ 16) (hJ1 : 1 ≤ J) (hJ2 : J ≤ 63)
    (hhi : g / k ≤ 20000000) (hlo : 1000000 ≤ g / k)
    (hak : a * k = R * J) :
    ∃ c, zpcm512x_find_pll_coeff (g * b) (g * a) = Outcome.ok c ∧
      (c.path = PllPath.exactInt ∨
        (g * b = 280000007 ∧ g * a = 80000002 ∧ c.path = PllPath.exactFrac)) ∧
      c.D = 0 ∧ c.real_pll = g * a ∧ g * b * c.R * c.J = g * a * c.P := by
  have ha1 : 1 ≤ a := by
    rcases Nat.eq_zero_or_pos a with h0 | h0
    · rw [h0, Nat.mul_zero] at h64; omega
    · exact h0
  have hgle : g ≤ 100000000 := le_trans (Nat.le_mul_of_pos_right g ha1) h100
  have hpos : 0 < g * b := Nat.mul_pos hg hb
  have hgk : g / k ≤ g := Nat.div_le_self _ _
  have hnum := pll_num_of_coprime g a b hg hb hcop
  have hden := pll_den_of_coprime g a b hg hb hcop
  -- the result of a successful `D = 0` search
  have finish : ∀ R' J', find_R (pll_num (g * b) (g * a)) 16 = some (R', J') →
      (pll_den (g * b) (g * a) ≤ 15 ∧ pll_num (g * b) (g * a) ≤ 16 * 63 ∧
        1000000 ≤ g * b / pll_den (g * b) (g * a) ∧
        g * b / pll_den (g * b) (g * a) ≤ 20000000) →
      ∃ c, zpcm512x_find_pll_coeff (g * b) (g * a) = Outcome.ok c ∧
        (c.path = PllPath.exactInt ∨
          (g * b = 280000007 ∧ g * a = 80000002 ∧ c.path = PllPath.exactFrac)) ∧
        c.D = 0 ∧ c.real_pll = g * a ∧ g * b * c.R * c.J = g * a * c.P := by
    intro R' J' hR' hcond
    exact ⟨_, find_pll_coeff_exactInt _ _ R' J' hpos hcond hR', Or.inl rfl, rfl, rfl,
      exactInt_relation _ _ _ _ hR'⟩
  by_cases hbig : g > 20000000
  · have ha4 : a ≤ 4 := by
      by_contra hc
      have : g * 5 ≤ g * a := Nat.mul_le_mul_left g (by omega)
      omega
    have hcdef : DIV_ROUND_UP g 20000000 = (g + 19999999) / 20000000 := by
      unfold DIV_ROUND_UP; rfl
    rw [if_pos ⟨hbig, by omega⟩, hcdef] at hnum hden
    have hc1 : 20000000 * ((g + 19999999) / 20000000) ≤ g + 19999999 := Nat.mul_div_le _ _
    have hc2 : g + 19999999 < 20000000 * ((g + 19999999) / 20000000 + 1) :=
      Nat.lt_mul_div_succ _ (by norm_num)
    generalize (g + 19999999) / 20000000 = c at hnum hden hc1 hc2
    have hc25 : 2 ≤ c ∧ c ≤ 5 := by omega
    by_cases hd15 : b * c ≤ 15
    · have hac : a * c ≤ 20 := by
        calc a * c ≤ 4 * 5 := Nat.mul_le_mul ha4 hc25.2
          _ = 20 := rfl
      have hac1 : 1 ≤ a * c := Nat.mul_pos ha1 (by omega)
      obtain ⟨R', J', hR'⟩ := find_R_small (a * c) hac1 hac
      have hq : g * b / (b * c) = g / c := by
        rw [Nat.mul_comm g b]; exact Nat.mul_div_mul_left g c hb
      apply finish R' J'
      · rw [hnum]; exact hR'
      · rw [hnum, hden, hq]
        refine ⟨hd15, by omega, ?_, ?_⟩
        · obtain ⟨h2, h5⟩ := hc25
          interval_cases c <;> omega
        · obtain ⟨h2, h5⟩ := hc25
          interval_cases c <;> omega
    · -- the scaled denominator is too large: only one pair of rates gets here
      have hkc : k < c := by
        have : b * k < b * c := by omega
        exact Nat.lt_of_mul_lt_mul_left this
      have hgk2 : g < 20000001 * k := by
        have : g / k < 20000001 := by omega
        exact (Nat.div_lt_iff_lt_mul (by omega)).mp this
      obtain ⟨h2, h5⟩ := hc25
      have hk4 : k ≤ 4 := by omega
      have hb15 : b ≤ 15 := le_trans (Nat.le_mul_of_pos_right b hk) hP
      interval_cases k <;> interval_cases c <;> interval_cases a <;> try omega
      -- `k = 2`, `c = 3`, `a = 2`, `g = 40000001`
      have hg' : g = 40000001 := by omega
      subst hg'
      have hb67 : b = 6 ∨ b = 7 := by omega
      rcases hb67 with rfl | rfl
      · exact absurd hcop (by decide)
      · exact ⟨⟨1, 4, 0, 14, 80000002, PllPath.exactFrac⟩, by decide,
          Or.inr ⟨by decide, by decide, rfl⟩, rfl, rfl, by decide⟩
  · rw [if_neg (by omega)] at hnum hden
    have hbk : b ≤ b * k := Nat.le_mul_of_pos_right b hk
    have hak2 : a ≤ a * k := Nat.le_mul_of_pos_right a hk
    have hRJ : R * J ≤ 16 * 63 := Nat.mul_le_mul hR2 hJ2
    obtain ⟨R0, r1, r2, r3, r4, r5⟩ := factor_of_scaled a k R J hk hR1 hR2 hJ1 hJ2 hak
    obtain ⟨R', J', hR'⟩ := find_R_complete a 16 R0 r1 r2 r3 r4 r5
    apply finish R' J'
    · rw [hnum]; exact hR'
    · rw [hnum, hden, Nat.mul_div_cancel _ hb]
      exact ⟨by omega, by omega, by omega, by omega⟩

/-- The pair of rates that reaches the second exact search although `R = 4`, `J = 1`, `P = 14`
give the rate exactly: `280000007 / 14` is 20000000 only after truncation. -/
theorem second_search_pair :
    64000000 ≤ 80000002 ∧ 80000002 ≤ 100000000 ∧ (1 ≤ 4 ∧ 4 ≤ 16) ∧ (1 ≤ 1 ∧ 1 ≤ 63) ∧
      (1 ≤ 14 ∧ 14 ≤ 15) ∧ 1000000 ≤ 280000007 / 14 ∧ 280000007 / 14 ≤ 20000000 ∧
      80000002 * 14 = 280000007 * 4 * 1 ∧
      zpcm512x_find_pll_coeff 280000007 80000002 =
        Outcome.ok ⟨1, 4, 0, 14, 80000002, PllPath.exactFrac⟩ := by
  decide

/-- The source tests `pllin_rate / P` with truncating division.  With legality read that way
(`pllin_rate / P <= 20000000` truncated), the solver still succeeds with `D = 0` and the exact
rate, through the `D = 0` search for all rates but one pair: for `pllin_rate = 280000007` and
`pll_rate = 80000002` the divider `P = 14` passes only by truncation (20000000.5 Hz), `den` is
scaled from 7 to 21, and the second exact search finds `R = 1`, `J = 4`, `D = 0`, `P = 14`. -/
theorem exact_found_truncating (pllin_rate pll_rate R J P : Nat)
    (h64 : 64000000 ≤ pll_rate) (h100 : pll_rate ≤ 100000000)
    (hR1 : 1 ≤ R) (hR2 : R ≤ 16) (hJ1 : 1 ≤ J) (hJ2 : J ≤ 63) (hP1 : 1 ≤ P) (hP2 : P ≤ 15)
    (hlo : 1000000 ≤ pllin_rate / P) (hhi : pllin_rate / P ≤ 20000000)
    (heq : pll_rate * P = pllin_rate * R * J) :
    ∃ c, zpcm512x_find_pll_coeff pllin_rate pll_rate = Outcome.ok c ∧
      (c.path = PllPath.exactInt ∨
        (pllin_rate = 280000007 ∧ pll_rate = 80000002 ∧ c.path = PllPath.exactFrac)) ∧
      c.D = 0 ∧ c.real_pll = pll_rate ∧ pllin_rate * c.R * c.J = pll_rate * c.P := by
  have hpos : 0 < pllin_rate := by
    rcases Nat.eq_zero_or_pos pllin_rate with h0 | h0
    · rw [h0, Nat.zero_div] at hlo; omega
    · exact h0
  have hg : 0 < Nat.gcd pll_rate pllin_rate := Nat.gcd_pos_of_pos_right _ hpos
  obtain ⟨a, ha⟩ := Nat.gcd_dvd_left pll_rate pllin_rate
  obtain ⟨b, hb⟩ := Nat.gcd_dvd_right pll_rate pllin_rate
  have hcop : Nat.Coprime a b := by
    have := Nat.coprime_div_gcd_div_gcd hg
    rwa [Nat.div_eq_of_eq_mul_right hg ha, Nat.div_eq_of_eq_mul_right hg hb] at this
  generalize Nat.gcd pll_rate pllin_rate = g at hg ha hb
  subst ha hb
  have hb0 : 0 < b := by
    rcases Nat.eq_zero_or_pos b with h0 | h0
    · rw [h0, Nat.mul_zero] at hpos; omega
    · exact h0
  have h1 : a * P = b * (R * J) := by
    apply Nat.eq_of_mul_eq_mul_left hg
    calc g * (a * P) = g * a * P := by ring
      _ = g * b * R * J := heq
      _ = g * (b * (R * J)) := by ring
  have hbP : b ∣ P := (Nat.Coprime.dvd_mul_left hcop.symm).mp (Dvd.intro _ h1.symm)
  obtain ⟨k, hk⟩ := hbP
  subst hk
  have hk1 : 1 ≤ k := by
    rcases Nat.eq_zero_or_pos k with h0 | h0
    · rw [h0, Nat.mul_zero] at hP1; omega
    · exact h0
  have hak : a * k = R * J := by
    apply Nat.eq_of_mul_eq_mul_left hb0
    calc b * (a * k) = a * (b * k) := by ring
      _ = b * (R * J) := h1
  have hq : g * b / (b * k) = g / k := by
    rw [Nat.mul_comm g b]; exact Nat.mul_div_mul_left g k hb0
  rw [hq] at hlo hhi
  exact exact_found_core g a b k R J hg hb0 hcop h64 h100 hk1 hP2 hR1 hR2 hJ1 hJ2 hhi hlo hak

/-! ## The claims about the PLL coefficient solver -/

/-- C1: whenever `zpcm512x_find_pll_coeff` returns success, on whichever of its three paths, the
stored coefficients satisfy `1 <= R <= 16`, `1 <= J <= 63`, `0 <= D <= 9999` and `1 <= P <= 15`
(a successful run has `pllin_rate > 0`; `pll_rate` is arbitrary). -/
theorem find_pll_coeff_bounds (pllin_rate pll_rate : Nat) (c : PllCoeff)
    (h : zpcm512x_find_pll_coeff pllin_rate pll_rate = Outcome.ok c) :
    0 < pllin_rate ∧ 1 ≤ c.R ∧ c.R ≤ 16 ∧ 1 ≤ c.J ∧ c.J ≤ 63 ∧ 0 ≤ c.D ∧ c.D ≤ 9999 ∧
      1 ≤ c.P ∧ c.P ≤ 15 := by
  obtain ⟨hpos, hcase⟩ := find_pll_coeff_ok_cases pllin_rate pll_rate c h
  refine ⟨hpos, ?_⟩
  rcases hcase with ⟨_, hD, _, hP, _, hlo, _, hR, _⟩ | ⟨_, hR, _, _, K, hK, hJ, hD⟩ | ⟨_, hfb⟩
  · obtain ⟨r1, r2, _, _, j1, j2⟩ := find_R_some _ _ _ _ hR
    have hP1 : 1 ≤ c.P := by
      rcases Nat.eq_zero_or_pos c.P with h0 | h0
      · rw [h0, Nat.div_zero] at hlo; omega
      · exact h0
    omega
  · obtain ⟨_, p2, x1, _, _, _, k1, k2⟩ := find_P_some _ _ _ _ _ _ _ hK
    have hP1 : 1 ≤ c.P := by
      rcases Nat.eq_zero_or_pos c.P with h0 | h0
      · rw [h0, Nat.div_zero] at x1; omega
      · exact h0
    omega
  · obtain ⟨p2, x1, hc⟩ := find_pll_coeff_fallback_ok _ _ _ hfb
    have hk := pll_clamp_K_bounds
      (DIV_ROUND_CLOSEST_ULL (10000 * pll_rate * pll_fallback_P pllin_rate) pllin_rate)
    have hP1 : 1 ≤ pll_fallback_P pllin_rate := by
      rcases Nat.eq_zero_or_pos (pll_fallback_P pllin_rate) with h0 | h0
      · rw [h0, Nat.div_zero] at x1; omega
      · exact h0
    rw [hc]
    simp only
    omega

/-- C1, at the rates 12 MHz and 90.3168 MHz: the solver succeeds and its coefficients are within
the bounds. -/
theorem find_pll_coeff_bounds_witness :
    zpcm512x_find_pll_coeff 12000000 90316800 =
        Outcome.ok ⟨1, 7, 5264, 1, 90316800, PllPath.exactFrac⟩ ∧
      (0 < 12000000 ∧ 1 ≤ 1 ∧ 1 ≤ 16 ∧ 1 ≤ 7 ∧ 7 ≤ 63 ∧ 0 ≤ 5264 ∧ 5264 ≤ 9999 ∧
        1 ≤ 1 ∧ 1 ≤ 15) :=
  ⟨by decide,
   find_pll_coeff_bounds 12000000 90316800 ⟨1, 7, 5264, 1, 90316800, PllPath.exactFrac⟩
     (by decide)⟩

/-- C2: for `64 MHz <= pll_rate <= 100 MHz`, if legal coefficients `R` in `1..16`, `J` in
`1..63`, `P` in `1..15` exist with `1 MHz <= pllin_rate / P <= 20 MHz` (the frequency
`pllin_rate / P` as a fraction: `1000000 * P <= pllin_rate <= 20000000 * P`) and
`pll_rate * P = pllin_rate * R * J`, then the solver succeeds through its `D = 0` search: it
stores `D = 0`, `real_pll = pll_rate` and `R`, `J`, `P` with `pllin_rate * R * J = pll_rate * P`,
and does not reach the fallback. -/
theorem find_pll_coeff_exact_found (pllin_rate pll_rate R J P : Nat)
    (h64 : 64000000 ≤ pll_rate) (h100 : pll_rate ≤ 100000000)
    (hR1 : 1 ≤ R) (hR2 : R ≤ 16) (hJ1 : 1 ≤ J) (hJ2 : J ≤ 63) (hP1 : 1 ≤ P) (hP2 : P ≤ 15)
    (hlo : 1000000 * P ≤ pllin_rate) (hhi : pllin_rate ≤ 20000000 * P)
    (heq : pll_rate * P = pllin_rate * R * J) :
    ∃ c, zpcm512x_find_pll_coeff pllin_rate pll_rate = Outcome.ok c ∧
      c.path = PllPath.exactInt ∧ c.path ≠ PllPath.fallback ∧
      c.D = 0 ∧ c.real_pll = pll_rate ∧ pllin_rate * c.R * c.J = pll_rate * c.P := by
  have hlo' : 1000000 ≤ pllin_rate / P := (Nat.le_div_iff_mul_le (by omega)).mpr hlo
  have hhi' : pllin_rate / P ≤ 20000000 := by
    have : pllin_rate / P < 20000001 :=
      (Nat.div_lt_iff_lt_mul (by omega)).mpr (by
        have : 20000000 * P < 20000001 * P := by omega
        omega)
    omega
  obtain ⟨c, hc, hpath, hD, hreal, hrel⟩ :=
    exact_found_truncating pllin_rate pll_rate R J P h64 h100 hR1 hR2 hJ1 hJ2 hP1 hP2
      hlo' hhi' heq
  have hexact : c.path = PllPath.exactInt := by
    rcases hpath with h | ⟨h1, h2, _⟩
    · exact h
    · -- the exceptional pair is not legal: `280000007 <= 20000000 * P` forces `P = 15`
      exfalso
      subst h1 h2
      have hP15 : P = 15 := by omega
      subst hP15
      rw [Nat.mul_assoc] at heq
      generalize R * J = m at heq
      omega
  exact ⟨c, hc, hexact, by rw [hexact]; decide, hD, hreal, hrel⟩

/-- C2, at `pllin_rate = 12 MHz`, `pll_rate = 96 MHz` with `R = 8`, `J = 1`, `P = 1`. -/
theorem find_pll_coeff_exact_found_witness :
    ∃ c, zpcm512x_find_pll_coeff 12000000 96000000 = Outcome.ok c ∧
      c.path = PllPath.exactInt ∧ c.path ≠ PllPath.fallback ∧
      c.D = 0 ∧ c.real_pll = 96000000 ∧ 12000000 * c.R * c.J = 96000000 * c.P :=
  find_pll_coeff_exact_found 12000000 96000000 8 1 1 (by decide) (by decide) (by decide)
    (by decide) (by decide) (by decide) (by decide) (by decide) (by decide) (by decide)
    (by decide)

/-- C3: on every successful return the stored coefficients reproduce the recorded rate,
`real_pll = floor(pllin_rate * R * (10000 * J + D) / (10000 * P))`; on the two exact paths
`real_pll` is the requested `pll_rate` and the division is exact; on the fallback `R = 1` and
`10000 * J + D` is the rounded quotient `10000 * pll_rate * P / pllin_rate` clamped to
`40000..120000`. -/
theorem find_pll_coeff_real_pll (pllin_rate pll_rate : Nat) (c : PllCoeff)
    (h : zpcm512x_find_pll_coeff pllin_rate pll_rate = Outcome.ok c) :
    c.real_pll = pllin_rate * c.R * (10000 * c.J + c.D) / (10000 * c.P) ∧
    (c.path ≠ PllPath.fallback →
      c.real_pll = pll_rate ∧
        pllin_rate * c.R * (10000 * c.J + c.D) = 10000 * c.P * pll_rate) ∧
    (c.path = PllPath.fallback →
      c.R = 1 ∧ 10000 * c.J + c.D =
        pll_clamp_K (DIV_ROUND_CLOSEST_ULL (10000 * pll_rate * c.P) pllin_rate)) := by
  obtain ⟨hpos, hcase⟩ := find_pll_coeff_ok_cases pllin_rate pll_rate c h
  have hP1 := find_pll_coeff_ok_P_pos pllin_rate pll_rate c h
  have hden := pll_den_pos pllin_rate pll_rate hpos
  have hratio := pll_ratio pllin_rate pll_rate
  have hexact : c.path ≠ PllPath.fallback → c.real_pll = pll_rate ∧
      pllin_rate * c.R * (10000 * c.J + c.D) = 10000 * c.P * pll_rate := by
    intro hne
    rcases hcase with ⟨_, hD, hP, _, _, _, _, hR, hreal⟩ | ⟨_, hR, hreal, _, K, hK, hJ, hD⟩ |
      ⟨hp, _⟩
    · obtain ⟨_, _, rmod, rJ, _, _⟩ := find_R_some _ _ _ _ hR
      have hnum : c.R * c.J = pll_num pllin_rate pll_rate := by
        rw [rJ]; exact Nat.mul_div_cancel' (Nat.dvd_of_mod_eq_zero rmod)
      refine ⟨hreal, ?_⟩
      rw [hD, hP]
      calc pllin_rate * c.R * (10000 * c.J + 0)
          = 10000 * (pllin_rate * (c.R * c.J)) := by ring
        _ = 10000 * (pll_rate * pll_den pllin_rate pll_rate) := by rw [hnum, hratio]
        _ = 10000 * pll_den pllin_rate pll_rate * pll_rate := by ring
    · obtain ⟨_, _, _, _, kmod, kdef, _, _⟩ := find_P_some _ _ _ _ _ _ _ hK
      refine ⟨hreal, ?_⟩
      have hKJD : 10000 * c.J + c.D = K := by rw [hJ, hD]; exact Nat.div_add_mod K 10000
      rw [hKJD, hR]
      -- `K * den2 = num2 * P`, and `num2 / den2 = 10000 * num / den`
      obtain ⟨a, ha⟩ := Nat.gcd_dvd_left (10000 * pll_num pllin_rate pll_rate)
        (pll_den pllin_rate pll_rate)
      obtain ⟨b, hb⟩ := Nat.gcd_dvd_right (10000 * pll_num pllin_rate pll_rate)
        (pll_den pllin_rate pll_rate)
      have hg : 0 < Nat.gcd (10000 * pll_num pllin_rate pll_rate) (pll_den pllin_rate pll_rate) :=
        Nat.gcd_pos_of_pos_right _ hden
      rw [Nat.div_eq_of_eq_mul_right hg ha, Nat.div_eq_of_eq_mul_right hg hb] at kmod kdef
      have hb0 : 0 < b := by
        rcases Nat.eq_zero_or_pos b with h0 | h0
        · rw [h0, Nat.mul_zero] at hb; omega
        · exact h0
      have hKb : K * b = a * c.P := by
        rw [kdef]; exact Nat.div_mul_cancel (Nat.dvd_of_mod_eq_zero kmod)
      -- multiply through by `den = g * b`
      apply Nat.eq_of_mul_eq_mul_right hden
      calc pllin_rate * 1 * K * pll_den pllin_rate pll_rate
          = pllin_rate * K * pll_den pllin_rate pll_rate := by ring
        _ = pllin_rate * K *
              (Nat.gcd (10000 * pll_num pllin_rate pll_rate) (pll_den pllin_rate pll_rate) * b) :=
            congrArg (pllin_rate * K * ·) hb
        _ = pllin_rate *
              (Nat.gcd (10000 * pll_num pllin_rate pll_rate) (pll_den pllin_rate pll_rate) *
                (K * b)) := by ring
        _ = pllin_rate *
              (Nat.gcd (10000 * pll_num pllin_rate pll_rate) (pll_den pllin_rate pll_rate) *
                (a * c.P)) := by rw [hKb]
        _ = pllin_rate *
              (Nat.gcd (10000 * pll_num pllin_rate pll_rate) (pll_den pllin_rate pll_rate) * a) *
                c.P := by ring
        _ = pllin_rate * (10000 * pll_num pllin_rate pll_rate) * c.P :=
            congrArg (pllin_rate * · * c.P) ha.symm
        _ = 10000 * c.P * (pllin_rate * pll_num pllin_rate pll_rate) := by ring
        _ = 10000 * c.P * (pll_rate * pll_den pllin_rate pll_rate) := by rw [hratio]
        _ = 10000 * c.P * pll_rate * pll_den pllin_rate pll_rate := by ring
    · exact absurd hp hne
  have hfall : c.path = PllPath.fallback → c.R = 1 ∧
      10000 * c.J + c.D =
        pll_clamp_K (DIV_ROUND_CLOSEST_ULL (10000 * pll_rate * c.P) pllin_rate) ∧
      c.real_pll = pllin_rate * c.R * (10000 * c.J + c.D) / (10000 * c.P) := by
    intro hp
    rcases hcase with ⟨hp2, _⟩ | ⟨hp2, _⟩ | ⟨_, hfb⟩
    · rw [hp] at hp2; exact absurd hp2 (by simp)
    · rw [hp] at hp2; exact absurd hp2 (by simp)
    · obtain ⟨_, _, hc⟩ := find_pll_coeff_fallback_ok _ _ _ hfb
      rw [hc]
      simp only [DIV_ROUND_DOWN_ULL]
      refine ⟨trivial, Nat.div_add_mod _ 10000, ?_⟩
      rw [Nat.div_add_mod _ 10000, Nat.mul_one, Nat.mul_comm]
  refine ⟨?_, hexact, fun hp => ⟨(hfall hp).1, (hfall hp).2.1⟩⟩
  by_cases hp : c.path = PllPath.fallback
  · exact (hfall hp).2.2
  · obtain ⟨hr, he⟩ := hexact hp
    rw [he, hr]
    have h10 : 0 < 10000 * c.P := by omega
    exact (Nat.mul_div_cancel_left pll_rate h10).symm

/-- C3, at the rates 12 MHz and 90.3168 MHz (an exact fractional solution). -/
theorem find_pll_coeff_real_pll_witness :
    (90316800 = 12000000 * 1 * (10000 * 7 + 5264) / (10000 * 1)) ∧
    (PllPath.exactFrac ≠ PllPath.fallback →
      90316800 = 90316800 ∧ 12000000 * 1 * (10000 * 7 + 5264) = 10000 * 1 * 90316800) ∧
    (PllPath.exactFrac = PllPath.fallback →
      1 = 1 ∧ 10000 * 7 + 5264 =
        pll_clamp_K (DIV_ROUND_CLOSEST_ULL (10000 * 90316800 * 1) 12000000)) :=
  find_pll_coeff_real_pll 12000000 90316800 ⟨1, 7, 5264, 1, 90316800, PllPath.exactFrac⟩
    (by decide)

/-- C4 as stated fails: for `pllin_rate = 24576000` and `pll_rate = 98304000` the solver does
not store `R = 4, J = 1, D = 0, P = 1`. -/
theorem scenario_A_not_R4_P1 :
    ¬ ∃ c : PllCoeff, zpcm512x_find_pll_coeff 24576000 98304000 = Outcome.ok c ∧
        c.R = 4 ∧ c.J = 1 ∧ c.D = 0 ∧ c.P = 1 := by
  rintro ⟨c, hc, hR, _⟩
  have h : zpcm512x_find_pll_coeff 24576000 98304000 =
      Outcome.ok ⟨8, 1, 0, 2, 98304000, PllPath.exactInt⟩ := by decide
  rw [h] at hc
  simp only [Outcome.ok.injEq] at hc
  rw [← hc] at hR
  exact absurd hR (by decide)

/-- C4, amended: for `pllin_rate = 24576000` and `pll_rate = 98304000` the solver takes the
`D = 0` path and stores `R = 8, J = 1, D = 0, P = 2`, since `pllin_rate / den = 24576000` exceeds
20 MHz and `num = 4` and `den = 1` are both scaled by `DIV_ROUND_UP(24576000, 20000000) = 2`. -/
theorem find_pll_coeff_scenario_A :
    zpcm512x_find_pll_coeff 24576000 98304000 =
      Outcome.ok ⟨8, 1, 0, 2, 98304000, PllPath.exactInt⟩ := by
  decide

/-- C5 as stated fails: `pllin_rate = 1000001` and `pll_rate = 64000000` lie in the two ranges
and the solver returns `-EINVAL`. -/
theorem solver_fails_at_1000001 :
    1000000 ≤ 1000001 ∧ 1000001 ≤ 50000000 ∧ 64000000 ≤ 64000000 ∧ 64000000 ≤ 100000000 ∧
      zpcm512x_find_pll_coeff 1000001 64000000 = Outcome.error (-EINVAL) := by
  decide

theorem find_pll_coeff_fallback_succeeds (pllin_rate pll_rate : Nat)
    (h1 : 6667000 ≤ pllin_rate) (h2 : pllin_rate ≤ 300000000) :
    ∃ c, find_pll_coeff_fallback pllin_rate pll_rate = Outcome.ok c ∧
      c.path = PllPath.fallback := by
  have hP : pll_fallback_P pllin_rate = (pllin_rate + 19999999) / 20000000 := by
    unfold pll_fallback_P DIV_ROUND_UP
    split <;> omega
  have hP1 : 1 ≤ (pllin_rate + 19999999) / 20000000 := by omega
  have hP15 : (pllin_rate + 19999999) / 20000000 ≤ 15 := by omega
  have hx : ¬ pllin_rate / pll_fallback_P pllin_rate < 6667000 := by
    rw [hP]
    have hlo : 20000000 * ((pllin_rate + 19999999) / 20000000) ≤ pllin_rate + 19999999 :=
      Nat.mul_div_le _ _
    generalize (pllin_rate + 19999999) / 20000000 = k at hP1 hP15 hlo ⊢
    interval_cases k <;> omega
  have h0 : ¬ (DIV_ROUND_UP pllin_rate 20000000 ≠ 0 ∧ DIV_ROUND_UP pllin_rate 20000000 > 15) := by
    unfold DIV_ROUND_UP
    omega
  unfold find_pll_coeff_fallback
  simp only
  rw [if_neg h0, if_neg hx]
  exact ⟨_, rfl, rfl⟩

theorem find_pll_coeff_fallback_error (pllin_rate pll_rate : Nat) :
    (∃ c, find_pll_coeff_fallback pllin_rate pll_rate = Outcome.ok c ∧
      c.path = PllPath.fallback) ∨
    find_pll_coeff_fallback pllin_rate pll_rate = Outcome.error (-EINVAL) := by
  unfold find_pll_coeff_fallback
  simp only
  split
  · right; rfl
  · split
    · right; rfl
    · left; exact ⟨_, rfl, rfl⟩

/-- A run with `pllin_rate > 0` succeeds on an exact path or ends in the fallback code. -/
theorem find_pll_coeff_exact_or_fallback (pllin_rate pll_rate : Nat) (h : 0 < pllin_rate) :
    (∃ c, zpcm512x_find_pll_coeff pllin_rate pll_rate = Outcome.ok c ∧
      c.path ≠ PllPath.fallback) ∨
    zpcm512x_find_pll_coeff pllin_rate pll_rate =
      find_pll_coeff_fallback pllin_rate pll_rate := by
  unfold zpcm512x_find_pll_coeff
  rw [if_neg (by omega)]
  simp only
  split
  · left; exact ⟨_, rfl, by simp⟩
  · unfold find_pll_coeff_frac
    split
    · right; rfl
    · simp only
      split
      · left; exact ⟨_, rfl, by simp⟩
      · right; rfl

/-- C5, amended: for `pllin_rate` in `[6667000, 50 MHz]` and `pll_rate` in `[64 MHz, 100 MHz]`
the solver returns success; for `pllin_rate` in `[1 MHz, 6667000)` it returns success when one of
the two exact searches finds coefficients and `-EINVAL` otherwise. -/
theorem find_pll_coeff_succeeds_above_6667kHz (pllin_rate pll_rate : Nat)
    (h1 : 1000000 ≤ pllin_rate) (h2 : pllin_rate ≤ 50000000)
    (_h3 : 64000000 ≤ pll_rate) (_h4 : pll_rate ≤ 100000000) :
    (6667000 ≤ pllin_rate → ∃ c, zpcm512x_find_pll_coeff pllin_rate pll_rate = Outcome.ok c) ∧
    (pllin_rate < 6667000 →
      (∃ c, zpcm512x_find_pll_coeff pllin_rate pll_rate = Outcome.ok c ∧
        c.path ≠ PllPath.fallback) ∨
      zpcm512x_find_pll_coeff pllin_rate pll_rate = Outcome.error (-EINVAL)) := by
  have hcase := find_pll_coeff_exact_or_fallback pllin_rate pll_rate (by omega)
  constructor
  · intro h5
    rcases hcase with ⟨c, hc, _⟩ | hfb
    · exact ⟨c, hc⟩
    · obtain ⟨c, hc, _⟩ := find_pll_coeff_fallback_succeeds pllin_rate pll_rate h5 (by omega)
      exact ⟨c, by rw [hfb, hc]⟩
  · intro h5
    rcases hcase with hex | hfb
    · left; exact hex
    · right
      rw [hfb]
      rcases find_pll_coeff_fallback_error pllin_rate pll_rate with ⟨c, hc, _⟩ | herr
      · obtain ⟨_, hx, _⟩ := find_pll_coeff_fallback_ok _ _ _ hc
        have hP : pll_fallback_P pllin_rate = 1 := by
          unfold pll_fallback_P DIV_ROUND_UP
          split <;> omega
        rw [hP, Nat.div_one] at hx
        omega
      · exact herr

/-- C5 amended, at `pllin_rate = 12 MHz`, `pll_rate = 90.3168 MHz`. -/
theorem find_pll_coeff_succeeds_above_6667kHz_witness :
    (6667000 ≤ 12000000 → ∃ c, zpcm512x_find_pll_coeff 12000000 90316800 = Outcome.ok c) ∧
    (12000000 < 6667000 →
      (∃ c, zpcm512x_find_pll_coeff 12000000 90316800 = Outcome.ok c ∧
        c.path ≠ PllPath.fallback) ∨
      zpcm512x_find_pll_coeff 12000000 90316800 = Outcome.error (-EINVAL)) :=
  find_pll_coeff_succeeds_above_6667kHz 12000000 90316800 (by decide) (by decide) (by decide)
    (by decide)

/-! ## The claims about the SCK selector -/

theorem rounddown_eq_mul (x y : Nat) : rounddown x y = y * (x / y) := by
  unfold rounddown
  have := Nat.div_add_mod x y
  omega

theorem rounddown_le (x y : Nat) : rounddown x y ≤ x := by
  unfold rounddown
  omega

theorem find_sck_loop_result (pll_max bclk_rate : Nat) : ∀ k : Nat,
    find_sck_loop pll_max bclk_rate k ≠ 0 →
      16000000 ≤ find_sck_loop pll_max bclk_rate k ∧
      find_sck_loop pll_max bclk_rate k ≤ pll_max ∧
      bclk_rate ∣ find_sck_loop pll_max bclk_rate k := by
  intro k
  induction k with
  | zero => intro h; simp [find_sck_loop] at h
  | succ k ih =>
    intro h
    unfold find_sck_loop at h ⊢
    simp only at h ⊢
    split
    · rename_i hge
      rw [if_pos hge] at h
      refine ⟨hge, rounddown_le _ _, ?_⟩
      rw [rounddown_eq_mul]
      exact Dvd.dvd.mul_right (Dvd.intro _ rfl) _
    · rename_i hlt
      rw [if_neg hlt] at h
      exact ih h

theorem find_sck_loop_last (pll_max bclk_rate : Nat)
    (h : 16000000 ≤ rounddown pll_max bclk_rate) : ∀ k : Nat,
    16000000 ≤ find_sck_loop pll_max bclk_rate (k + 1) := by
  intro k
  induction k with
  | zero =>
    unfold find_sck_loop
    simp only [Nat.shiftLeft_zero, Nat.mul_one]
    rw [if_pos h]
    exact h
  | succ k ih =>
    unfold find_sck_loop
    simp only
    split
    · rename_i hge; exact hge
    · exact ih

theorem find_sck_loop_zero (pll_max bclk_rate : Nat) : ∀ k : Nat,
    find_sck_loop pll_max bclk_rate (k + 1) = 0 → rounddown pll_max bclk_rate < 16000000 := by
  intro k h
  by_contra hc
  have := find_sck_loop_last pll_max bclk_rate (by omega) k
  omega

theorem multiple_in_range_iff (pll_max bclk_rate : Nat) (hb : 0 < bclk_rate) :
    (∃ m : Nat, 16000000 ≤ m * bclk_rate ∧ m * bclk_rate ≤ pll_max) ↔
      16000000 ≤ rounddown pll_max bclk_rate := by
  rw [rounddown_eq_mul]
  constructor
  · rintro ⟨m, h1, h2⟩
    have hm : m ≤ pll_max / bclk_rate := (Nat.le_div_iff_mul_le hb).mpr h2
    calc 16000000 ≤ m * bclk_rate := h1
      _ ≤ pll_max / bclk_rate * bclk_rate := Nat.mul_le_mul_right _ hm
      _ = bclk_rate * (pll_max / bclk_rate) := Nat.mul_comm _ _
  · intro h
    refine ⟨pll_max / bclk_rate, by rw [Nat.mul_comm]; exact h, ?_⟩
    exact Nat.div_mul_le_self _ _

/-- C6: for every `bclk_rate > 0` and every `overclock_pll`, a non-zero result `sck` of
`zpcm512x_find_sck` satisfies `16000000 <= sck <= 25000000 + 250000 * overclock_pll` (the PLL
ceiling) and is an integer multiple of `bclk_rate`. -/
theorem find_sck_in_range (overclock_pll bclk_rate : Nat) (_hb : 0 < bclk_rate)
    (h : zpcm512x_find_sck overclock_pll bclk_rate ≠ 0) :
    16000000 ≤ zpcm512x_find_sck overclock_pll bclk_rate ∧
    zpcm512x_find_sck overclock_pll bclk_rate ≤ 25000000 + 250000 * overclock_pll ∧
    ∃ m : Nat, zpcm512x_find_sck overclock_pll bclk_rate = m * bclk_rate := by
  have hmax : zpcm512x_pll_max overclock_pll = 25000000 + 250000 * overclock_pll := by
    unfold zpcm512x_pll_max
    omega
  obtain ⟨h1, h2, m, hm⟩ := find_sck_loop_result _ _ _ h
  refine ⟨h1, ?_, m, ?_⟩
  · rw [← hmax]; exact h2
  · rw [Nat.mul_comm]; exact hm

/-- C6, at `bclk_rate = 1536000` with ceiling 25 MHz: the result is 24576000, which is
`16 * 1536000`. -/
theorem find_sck_in_range_witness :
    zpcm512x_find_sck 0 1536000 = 24576000 ∧
    (16000000 ≤ zpcm512x_find_sck 0 1536000 ∧
      zpcm512x_find_sck 0 1536000 ≤ 25000000 + 250000 * 0 ∧
      ∃ m : Nat, zpcm512x_find_sck 0 1536000 = m * 1536000) :=
  ⟨by decide, find_sck_in_range 0 1536000 (by decide) (by decide)⟩

/-- C7: for every `bclk_rate > 0`, `zpcm512x_find_sck` returns 0 if and only if no integer
multiple of `bclk_rate` lies in `[16 MHz, pll_max]`. -/
theorem find_sck_zero_iff (overclock_pll bclk_rate : Nat) (hb : 0 < bclk_rate) :
    zpcm512x_find_sck overclock_pll bclk_rate = 0 ↔
      ¬ ∃ m : Nat, 16000000 ≤ m * bclk_rate ∧ m * bclk_rate ≤ zpcm512x_pll_max overclock_pll := by
  rw [multiple_in_range_iff _ _ hb]
  unfold zpcm512x_find_sck
  constructor
  · intro h
    have := find_sck_loop_zero _ _ _ h
    omega
  · intro h
    by_contra hne
    obtain ⟨h1, h2, m, hm⟩ := find_sck_loop_result _ _ _ hne
    have hmul : (∃ m : Nat, 16000000 ≤ m * bclk_rate ∧
        m * bclk_rate ≤ zpcm512x_pll_max overclock_pll) :=
      ⟨m, by rw [Nat.mul_comm, ← hm]; exact h1, by rw [Nat.mul_comm, ← hm]; exact h2⟩
    exact h ((multiple_in_range_iff _ _ hb).mp hmul)

/-- C7, at `bclk_rate = 12288000` (48 kHz frames of 256 bits) with ceiling 25 MHz: 24576000 is
returned, and at `bclk_rate = 13000000`, where no multiple fits, 0 is returned. -/
theorem find_sck_zero_iff_witness :
    (zpcm512x_find_sck 0 13000000 = 0 ↔
      ¬ ∃ m : Nat, 16000000 ≤ m * 13000000 ∧ m * 13000000 ≤ zpcm512x_pll_max 0) ∧
    zpcm512x_find_sck 0 13000000 = 0 ∧ zpcm512x_find_sck 0 12288000 = 24576000 :=
  ⟨find_sck_zero_iff 0 13000000 (by decide), by decide, by decide⟩

/-! ## Lemmas on driver routines -/

theorem Drv.bind_eq {Op α β : Type} (m : Drv Op α) (f : α → Drv Op β) :
    (m >>= f) = Drv.bind m f := rfl

theorem Drv.pure_eq {Op α : Type} (a : α) : (pure a : Drv Op α) = Drv.ret a := rfl

theorem Drv.bind_of_ok {Op α β : Type} (m : Drv Op α) (f : α → Drv Op β) (b b1 : Bus Op) (a : α)
    (h : m b = (Outcome.ok a, b1)) : Drv.bind m f b = f a b1 := by
  unfold Drv.bind
  rw [h]

theorem Drv.bind_of_error {Op α β : Type} (m : Drv Op α) (f : α → Drv Op β) (b b1 : Bus Op)
    (e : Int) (h : m b = (Outcome.error e, b1)) : Drv.bind m f b = (Outcome.error e, b1) := by
  unfold Drv.bind
  rw [h]

theorem Drv.bind_of_undefined {Op α β : Type} (m : Drv Op α) (f : α → Drv Op β) (b b1 : Bus Op)
    (h : m b = (Outcome.undefined, b1)) : Drv.bind m f b = (Outcome.undefined, b1) := by
  unfold Drv.bind
  rw [h]

/-- A run of `m >>= f` that succeeds is a successful run of `m` followed by one of `f`. -/
theorem Drv.bind_ok_inv {Op α β : Type} (m : Drv Op α) (f : α → Drv Op β) (b b' : Bus Op) (d : β)
    (h : Drv.bind m f b = (Outcome.ok d, b')) :
    ∃ a b1, m b = (Outcome.ok a, b1) ∧ f a b1 = (Outcome.ok d, b') := by
  unfold Drv.bind at h
  split at h
  · rename_i a b1 hm
    exact ⟨a, b1, hm, h⟩
  · simp at h
  · simp at h

theorem Drv.issue_of_ok {Op : Type} (op : Op) (b : Bus Op) (h : b.ret b.log.length = 0) :
    Drv.issue op b = (Outcome.ok (), { b with log := b.log ++ [op] }) := by
  unfold Drv.issue
  rw [if_pos h]

theorem Drv.issue_of_error {Op : Type} (op : Op) (b : Bus Op) (h : b.ret b.log.length ≠ 0) :
    Drv.issue op b =
      (Outcome.error (b.ret b.log.length), { b with log := b.log ++ [op] }) := by
  unfold Drv.issue
  rw [if_neg h]

/-! ## The DAC2HD register log -/

theorem write_pll_regs_loop_ok (regs : List reg_default) : ∀ (n i : Nat) (b : Bus ClkOp),
    i + n ≤ regs.length → (∀ j, j < n → b.ret (b.log.length + j) = 0) →
    write_pll_regs_loop regs n i b =
      (Outcome.ok (), { b with log := b.log ++ ((regs.drop i).take n).map reg_default.op }) := by
  intro n
  induction n with
  | zero =>
    intro i b _ _
    simp [write_pll_regs_loop, Drv.pure_eq, Drv.ret]
  | succ n ih =>
    intro i b hlen hok
    have hi : i < regs.length := by omega
    unfold write_pll_regs_loop
    rw [List.getElem?_eq_getElem hi]
    simp only [Drv.bind_eq]
    have h0 : b.ret b.log.length = 0 := by simpa using hok 0 (by omega)
    rw [Drv.bind_of_ok _ _ _ _ _ (Drv.issue_of_ok _ b h0)]
    rw [ih (i + 1) _ (by omega) (by
      intro j hj
      have := hok (j + 1) (by omega)
      simp only [List.length_append, List.length_singleton]
      rw [← this]; congr 1; omega)]
    rw [List.drop_eq_getElem_cons hi]
    simp only [List.take_succ_cons, List.map_cons, List.append_assoc, List.singleton_append,
      reg_default.op]

theorem write_pll_regs_loop_fail (regs : List reg_default) : ∀ (n i k : Nat) (b : Bus ClkOp),
    i + n ≤ regs.length → k < n → (∀ j, j < k → b.ret (b.log.length + j) = 0) →
    b.ret (b.log.length + k) ≠ 0 →
    write_pll_regs_loop regs n i b =
      (Outcome.error (b.ret (b.log.length + k)),
        { b with log := b.log ++ ((regs.drop i).take (k + 1)).map reg_default.op }) := by
  intro n
  induction n with
  | zero => intro i k b _ hk; omega
  | succ n ih =>
    intro i k b hlen hk hok hfail
    have hi : i < regs.length := by omega
    unfold write_pll_regs_loop
    rw [List.getElem?_eq_getElem hi]
    simp only [Drv.bind_eq]
    rcases Nat.eq_zero_or_pos k with hk0 | hkpos
    · subst hk0
      have h0 : b.ret b.log.length ≠ 0 := by simpa using hfail
      rw [Drv.bind_of_error _ _ _ _ _ (Drv.issue_of_error _ b h0)]
      rw [List.drop_eq_getElem_cons hi]
      simp only [List.take_succ_cons, List.take_zero, List.map_cons, List.map_nil,
        reg_default.op, Nat.add_zero, Nat.zero_add]
    · have h0 : b.ret b.log.length = 0 := by simpa using hok 0 hkpos
      rw [Drv.bind_of_ok _ _ _ _ _ (Drv.issue_of_ok _ b h0)]
      obtain ⟨k', rfl⟩ : ∃ k', k = k' + 1 := ⟨k - 1, by omega⟩
      have hidx : ∀ j, b.log.length + 1 + j = b.log.length + (j + 1) := by intro j; omega
      rw [ih (i + 1) k' _ (by omega) (by omega) (by
          intro j hj
          simp only [List.length_append, List.length_singleton, hidx]
          exact hok (j + 1) (by omega)) (by
          simp only [List.length_append, List.length_singleton, hidx]
          exact hfail)]
      simp only [List.length_append, List.length_singleton, hidx]
      rw [List.drop_eq_getElem_cons hi]
      simp only [List.take_succ_cons, List.map_cons, List.append_assoc, List.singleton_append,
        reg_default.op]

/-- C10: `clk_hb_dac2hd_write_pll_regs` writes the `num` pairs of the table in index order.
If the write of index `k` is the first that fails, the function returns its error and the log
has grown by the pairs `0..k` only: no later pair, no reset write.  If all `num` writes succeed,
then with `do_pll_reset` clear it returns 0 with nothing more written, and with `do_pll_reset`
set exactly one further write, of the pair `(177, 0xAC)`, follows: it returns 0 (after the
`usleep_range`) when that write succeeds, and its error otherwise. -/
theorem write_pll_regs_in_order (regs : List reg_default) (num : Nat) (do_pll_reset : Bool)
    (b : Bus ClkOp) (hnum : num ≤ regs.length) :
    (∀ k, k < num → (∀ j, j < k → b.ret (b.log.length + j) = 0) →
      b.ret (b.log.length + k) ≠ 0 →
      clk_hb_dac2hd_write_pll_regs regs num do_pll_reset b =
        (Outcome.error (b.ret (b.log.length + k)),
          { b with log := b.log ++ (regs.take (k + 1)).map reg_default.op })) ∧
    ((∀ j, j < num → b.ret (b.log.length + j) = 0) →
      (do_pll_reset = false →
        clk_hb_dac2hd_write_pll_regs regs num do_pll_reset b =
          (Outcome.ok (), { b with log := b.log ++ (regs.take num).map reg_default.op })) ∧
      (do_pll_reset = true → b.ret (b.log.length + num) = 0 →
        clk_hb_dac2hd_write_pll_regs regs num do_pll_reset b =
          (Outcome.ok (),
            { b with log := b.log ++ (regs.take num).map reg_default.op ++
                [ClkOp.write 177 0xAC, ClkOp.usleep_range 9950 10050] })) ∧
      (do_pll_reset = true → b.ret (b.log.length + num) ≠ 0 →
        clk_hb_dac2hd_write_pll_regs regs num do_pll_reset b =
          (Outcome.error (b.ret (b.log.length + num)),
            { b with log := b.log ++ (regs.take num).map reg_default.op ++
                [ClkOp.write 177 0xAC] }))) := by
  have hlen : (List.map reg_default.op (List.take num regs)).length = num := by
    rw [List.length_map, List.length_take]; omega
  constructor
  · intro k hk hok hfail
    unfold clk_hb_dac2hd_write_pll_regs
    rw [Drv.bind_eq,
      Drv.bind_of_error _ _ _ _ _
        (write_pll_regs_loop_fail regs num 0 k b (by omega) hk hok hfail)]
    rw [List.drop_zero]
  · intro hok
    have hloop := write_pll_regs_loop_ok regs num 0 b (by omega) hok
    rw [List.drop_zero] at hloop
    refine ⟨?_, ?_, ?_⟩
    · intro hr
      unfold clk_hb_dac2hd_write_pll_regs
      rw [Drv.bind_eq, Drv.bind_of_ok _ _ _ _ _ hloop, hr]
      rfl
    · intro hr h0
      unfold clk_hb_dac2hd_write_pll_regs
      rw [Drv.bind_eq, Drv.bind_of_ok _ _ _ _ _ hloop, hr]
      simp only [if_true, Drv.bind_eq]
      rw [Drv.bind_of_ok _ _ _ _ _ (Drv.issue_of_ok _ _ (by
        simp only [List.length_append, hlen]; exact h0))]
      simp only [usleep_range, clk_hb_dac2hd_pll_reg_soft_reset, List.append_assoc,
        List.singleton_append]
    · intro hr h0
      unfold clk_hb_dac2hd_write_pll_regs
      rw [Drv.bind_eq, Drv.bind_of_ok _ _ _ _ _ hloop, hr]
      simp only [if_true, Drv.bind_eq]
      rw [Drv.bind_of_error _ _ _ _ _ (Drv.issue_of_error _ _ (by
        simp only [List.length_append, hlen]; exact h0))]
      simp only [clk_hb_dac2hd_pll_reg_soft_reset, List.length_append, hlen]

/-- C10, on a table of three pairs, of which two are to be written: on a bus where every write
succeeds the two pairs and the reset pair are written, in this order; on a bus whose second
operation fails with -5 the run ends there with -5. -/
theorem write_pll_regs_in_order_witness :
    clk_hb_dac2hd_write_pll_regs [⟨0x1A, 0x0C⟩, ⟨0x1B, 0x35⟩, ⟨0x1E, 0xF0⟩] 2 true
        ⟨fun _ => 0, []⟩ =
      (Outcome.ok (),
        ⟨fun _ => 0, [ClkOp.write 0x1A 0x0C, ClkOp.write 0x1B 0x35, ClkOp.write 177 0xAC,
          ClkOp.usleep_range 9950 10050]⟩) ∧
    clk_hb_dac2hd_write_pll_regs [⟨0x1A, 0x0C⟩, ⟨0x1B, 0x35⟩, ⟨0x1E, 0xF0⟩] 2 true
        ⟨fun n => if n = 1 then -5 else 0, []⟩ =
      (Outcome.error (-5),
        ⟨fun n => if n = 1 then -5 else 0, [ClkOp.write 0x1A 0x0C, ClkOp.write 0x1B 0x35]⟩) :=
  ⟨((write_pll_regs_in_order [⟨0x1A, 0x0C⟩, ⟨0x1B, 0x35⟩, ⟨0x1E, 0xF0⟩] 2 true
      ⟨fun _ => 0, []⟩ (by decide)).2 (fun _ _ => rfl)).2.1 rfl rfl,
   (write_pll_regs_in_order [⟨0x1A, 0x0C⟩, ⟨0x1B, 0x35⟩, ⟨0x1E, 0xF0⟩] 2 true
      ⟨fun n => if n = 1 then -5 else 0, []⟩ (by decide)).1 1 (by decide)
      (fun j hj => by
        have : j = 0 := by omega
        subst this
        rfl)
      (by decide)⟩

theorem Drv.lift_ok_inv {Op α : Type} (o : Outcome α) (b b' : Bus Op) (a : α)
    (h : Drv.lift o b = (Outcome.ok a, b')) : o = Outcome.ok a ∧ b' = b := by
  unfold Drv.lift at h
  simp only [Prod.mk.injEq] at h
  exact ⟨h.1, h.2.symm⟩

theorem Drv.ret_ok_inv {Op α : Type} (x : α) (b b' : Bus Op) (a : α)
    (h : Drv.ret x b = (Outcome.ok a, b')) : x = a ∧ b' = b := by
  unfold Drv.ret at h
  simp only [Prod.mk.injEq, Outcome.ok.injEq] at h
  exact ⟨h.1, h.2.symm⟩

theorem Drv.issue_ok_inv {Op : Type} (op : Op) (b b' : Bus Op) (u : Unit)
    (h : Drv.issue op b = (Outcome.ok u, b')) :
    b.ret b.log.length = 0 ∧ b' = { b with log := b.log ++ [op] } := by
  unfold Drv.issue at h
  split at h
  · rename_i h0
    simp only [Prod.mk.injEq] at h
    exact ⟨h0, h.2.symm⟩
  · simp at h

theorem Drv.clean_ret {Op α : Type} (P : Op → Prop) (a : α) : Drv.Clean P (pure a : Drv Op α) := by
  intro b
  exact ⟨rfl, [], by simp [Drv.pure_eq, Drv.ret], by simp, by simp⟩

theorem Drv.clean_lift {Op α : Type} (P : Op → Prop) (o : Outcome α) :
    Drv.Clean P (Drv.lift o : Drv Op α) := by
  intro b
  exact ⟨rfl, [], by simp [Drv.lift], by simp, by simp⟩

theorem Drv.clean_issue {Op : Type} (P : Op → Prop) (op : Op) (h : P op) :
    Drv.Clean P (Drv.issue op) := by
  intro b
  unfold Drv.issue
  split
  · rename_i h0
    refine ⟨rfl, [op], rfl, by simpa using h, ?_⟩
    intro _ _ j hj
    have : j = 0 := by simpa using hj
    subst this
    exact h0
  · refine ⟨rfl, [op], rfl, by simpa using h, ?_⟩
    intro a ha
    simp at ha

theorem Drv.clean_bind {Op α β : Type} (P : Op → Prop) (m : Drv Op α) (f : α → Drv Op β)
    (hm : Drv.Clean P m) (hf : ∀ a, Drv.Clean P (f a)) : Drv.Clean P (m >>= f) := by
  intro b
  rw [Drv.bind_eq]
  obtain ⟨hret, ops1, hlog1, hP1, hok1⟩ := hm b
  rcases hmb : m b with ⟨o, b1⟩
  rw [hmb] at hret hlog1 hok1
  simp only at hret hlog1 hok1
  cases o with
  | ok a =>
    rw [Drv.bind_of_ok _ _ _ _ _ hmb]
    obtain ⟨hret2, ops2, hlog2, hP2, hok2⟩ := hf a b1
    refine ⟨by rw [hret2, hret], ops1 ++ ops2, by rw [hlog2, hlog1, List.append_assoc], ?_, ?_⟩
    · intro op hop
      rcases List.mem_append.mp hop with h | h
      · exact hP1 op h
      · exact hP2 op h
    · intro d hd j hj
      rcases Nat.lt_or_ge j ops1.length with h | h
      · exact hok1 a rfl j h
      · have := hok2 d hd (j - ops1.length) (by
          simp only [List.length_append] at hj; omega)
        rw [hret, hlog1, List.length_append] at this
        rw [← this]; congr 1; omega
  | error e =>
    rw [Drv.bind_of_error _ _ _ _ _ hmb]
    exact ⟨hret, ops1, hlog1, hP1, by intro a ha; simp at ha⟩
  | undefined =>
    rw [Drv.bind_of_undefined _ _ _ _ hmb]
    exact ⟨hret, ops1, hlog1, hP1, by intro a ha; simp at ha⟩

theorem clean_regmap_write (P : BusOp → Prop) (reg : Reg) (val : Int)
    (h : P (BusOp.write reg val)) : Drv.Clean P (regmap_write reg val) :=
  Drv.clean_issue P _ h

theorem clean_regmap_update_bits (P : BusOp → Prop) (reg : Reg) (mask val : Bits)
    (h : P (BusOp.update_bits reg mask val)) : Drv.Clean P (regmap_update_bits reg mask val) :=
  Drv.clean_issue P _ h

/-- The operations that leave `PCM512x_SYNCHRONIZE` alone. -/
theorem not_sync_write (reg : Reg) (val : Int) (h : reg ≠ Reg.SYNCHRONIZE) :
    (BusOp.write reg val).reg ≠ Reg.SYNCHRONIZE := h

theorem clean_set_dividers_write_pll (c : PllCoeff) :
    Drv.Clean (fun op => op.reg ≠ Reg.SYNCHRONIZE) (set_dividers_write_pll c) := by
  unfold set_dividers_write_pll
  refine Drv.clean_bind _ _ _ (clean_regmap_write _ _ _ (by simp [BusOp.reg])) fun _ => ?_
  refine Drv.clean_bind _ _ _ (clean_regmap_write _ _ _ (by simp [BusOp.reg])) fun _ => ?_
  refine Drv.clean_bind _ _ _ (clean_regmap_write _ _ _ (by simp [BusOp.reg])) fun _ => ?_
  refine Drv.clean_bind _ _ _ (clean_regmap_write _ _ _ (by simp [BusOp.reg])) fun _ => ?_
  exact clean_regmap_write _ _ _ (by simp [BusOp.reg])

theorem clean_set_dividers_clock (priv : zpcm512x_priv) (params : snd_pcm_hw_params)
    (lrclk_div : Nat) :
    Drv.Clean (fun op => op.reg ≠ Reg.SYNCHRONIZE) (set_dividers_clock priv params lrclk_div) := by
  unfold set_dividers_clock
  split
  · exact Drv.clean_lift _ _
  · unfold set_dividers_pll
    simp only
    split
    · exact Drv.clean_lift _ _
    · split
      · exact Drv.clean_lift _ _
      · split
        · exact Drv.clean_lift _ _
        · exact Drv.clean_lift _ _
        · exact Drv.clean_bind _ _ _ (clean_set_dividers_write_pll _) fun _ => Drv.clean_ret _ _

theorem clean_set_dividers_dac_source (priv : zpcm512x_priv) (sck_rate osr_rate pllin_rate : Nat) :
    Drv.Clean (fun op => op.reg ≠ Reg.SYNCHRONIZE)
      (set_dividers_dac_source priv sck_rate osr_rate pllin_rate) := by
  unfold set_dividers_dac_source
  split
  · exact Drv.clean_lift _ _
  · exact Drv.clean_lift _ _
  · split
    · refine Drv.clean_bind _ _ _ (clean_regmap_update_bits _ _ _ _ (by simp [BusOp.reg]))
        fun _ => ?_
      refine Drv.clean_bind _ _ _ (clean_regmap_update_bits _ _ _ _ (by simp [BusOp.reg]))
        fun _ => ?_
      exact Drv.clean_ret _ _
    · split
      · exact Drv.clean_lift _ _
      · simp only
        split
        · exact Drv.clean_lift _ _
        · refine Drv.clean_bind _ _ _ (clean_regmap_update_bits _ _ _ _ (by simp [BusOp.reg]))
            fun _ => ?_
          exact Drv.clean_ret _ _

theorem clean_set_dividers_write (d : Dividers) :
    Drv.Clean (fun op => op.reg ≠ Reg.SYNCHRONIZE) (set_dividers_write d) := by
  unfold set_dividers_write
  refine Drv.clean_bind _ _ _ (clean_regmap_write _ _ _ (by simp [BusOp.reg])) fun _ => ?_
  refine Drv.clean_bind _ _ _ (clean_regmap_write _ _ _ (by simp [BusOp.reg])) fun _ => ?_
  refine Drv.clean_bind _ _ _ (clean_regmap_write _ _ _ (by simp [BusOp.reg])) fun _ => ?_
  refine Drv.clean_bind _ _ _ (clean_regmap_write _ _ _ (by simp [BusOp.reg])) fun _ => ?_
  refine Drv.clean_bind _ _ _ (clean_regmap_write _ _ _ (by simp [BusOp.reg])) fun _ => ?_
  refine Drv.clean_bind _ _ _ (clean_regmap_write _ _ _ (by simp [BusOp.reg])) fun _ => ?_
  refine Drv.clean_bind _ _ _ (clean_regmap_write _ _ _ (by simp [BusOp.reg])) fun _ => ?_
  refine Drv.clean_bind _ _ _ (clean_regmap_write _ _ _ (by simp [BusOp.reg])) fun _ => ?_
  exact clean_regmap_update_bits _ _ _ _ (by simp [BusOp.reg])

theorem clean_set_dividers_chain (priv : zpcm512x_priv) (lrclk_div : Nat) (k : ClockSel) :
    Drv.Clean (fun op => op.reg ≠ Reg.SYNCHRONIZE) (set_dividers_chain priv lrclk_div k) := by
  unfold set_dividers_chain
  split
  · exact Drv.clean_lift _ _
  · split
    · exact Drv.clean_lift _ _
    · simp only
      refine Drv.clean_bind _ _ _ (clean_set_dividers_dac_source _ _ _ _) fun _ => ?_
      refine Drv.clean_bind _ _ _ (Drv.clean_lift _ _) fun _ => ?_
      refine Drv.clean_bind _ _ _ (clean_set_dividers_write _) fun _ => ?_
      exact Drv.clean_ret _ _

theorem clean_set_dividers (priv : zpcm512x_priv) (params : snd_pcm_hw_params) :
    Drv.Clean (fun op => op.reg ≠ Reg.SYNCHRONIZE) (zpcm512x_set_dividers priv params) := by
  unfold zpcm512x_set_dividers
  refine Drv.clean_bind _ _ _ (Drv.clean_lift _ _) fun _ => ?_
  refine Drv.clean_bind _ _ _ (clean_set_dividers_clock _ _ _) fun _ => ?_
  exact clean_set_dividers_chain _ _ _

theorem clean_hw_params_before_dividers (priv : zpcm512x_priv) (params : snd_pcm_hw_params) :
    Drv.Clean (fun op => op.reg ≠ Reg.SYNCHRONIZE) (hw_params_before_dividers priv params) := by
  unfold hw_params_before_dividers
  refine Drv.clean_bind _ _ _ (Drv.clean_lift _ _) fun _ => ?_
  refine Drv.clean_bind _ _ _ (clean_regmap_update_bits _ _ _ _ (by simp [BusOp.reg]))
    fun _ => ?_
  unfold hw_params_master_setup
  split
  · refine Drv.clean_bind _ _ _ (clean_regmap_write _ _ _ (by simp [BusOp.reg])) fun _ => ?_
    refine Drv.clean_bind _ _ _ (clean_regmap_write _ _ _ (by simp [BusOp.reg])) fun _ => ?_
    exact clean_regmap_update_bits _ _ _ _ (by simp [BusOp.reg])
  · refine Drv.clean_bind _ _ _ (clean_regmap_update_bits _ _ _ _ (by simp [BusOp.reg]))
      fun _ => ?_
    exact clean_regmap_update_bits _ _ _ _ (by simp [BusOp.reg])

theorem clean_hw_params_pll_routing (priv : zpcm512x_priv) :
    Drv.Clean (fun op => op.reg ≠ Reg.SYNCHRONIZE) (hw_params_pll_routing priv) := by
  unfold hw_params_pll_routing
  split
  · refine Drv.clean_bind _ _ _ (clean_regmap_update_bits _ _ _ _ (by simp [BusOp.reg]))
      fun _ => ?_
    refine Drv.clean_bind _ _ _ (clean_regmap_update_bits _ _ _ _ (by simp [BusOp.reg]))
      fun _ => ?_
    refine Drv.clean_bind _ _ _ (clean_regmap_update_bits _ _ _ _ (by simp [BusOp.reg]))
      fun _ => ?_
    refine Drv.clean_bind _ _ _ (clean_regmap_update_bits _ _ _ _ (by simp [BusOp.reg]))
      fun _ => ?_
    exact clean_regmap_update_bits _ _ _ _ (by simp [BusOp.reg])
  · exact Drv.clean_ret _ _

/-! ## The claim about the synchronisation pulse -/

/-- The three runs of the halt and resume requests. -/
theorem hw_params_synchronize_run (b : Bus BusOp) :
    (b.ret b.log.length ≠ 0 →
      hw_params_synchronize b =
        (Outcome.error (b.ret b.log.length),
          { b with log := b.log ++
              [BusOp.update_bits Reg.SYNCHRONIZE (Bits.sym Sym.RQSY) (Bits.sym Sym.RQSY_HALT)] })) ∧
    (b.ret b.log.length = 0 → b.ret (b.log.length + 1) ≠ 0 →
      hw_params_synchronize b =
        (Outcome.error (b.ret (b.log.length + 1)),
          { b with log := b.log ++
              [BusOp.update_bits Reg.SYNCHRONIZE (Bits.sym Sym.RQSY) (Bits.sym Sym.RQSY_HALT),
               BusOp.update_bits Reg.SYNCHRONIZE (Bits.sym Sym.RQSY)
                 (Bits.sym Sym.RQSY_RESUME)] })) ∧
    (b.ret b.log.length = 0 → b.ret (b.log.length + 1) = 0 →
      hw_params_synchronize b =
        (Outcome.ok (),
          { b with log := b.log ++
              [BusOp.update_bits Reg.SYNCHRONIZE (Bits.sym Sym.RQSY) (Bits.sym Sym.RQSY_HALT),
               BusOp.update_bits Reg.SYNCHRONIZE (Bits.sym Sym.RQSY)
                 (Bits.sym Sym.RQSY_RESUME)] })) := by
  refine ⟨?_, ?_, ?_⟩
  · intro h0
    unfold hw_params_synchronize regmap_update_bits
    rw [Drv.bind_eq, Drv.bind_of_error _ _ _ _ _ (Drv.issue_of_error _ b h0)]
  · intro h0 h1
    unfold hw_params_synchronize regmap_update_bits
    rw [Drv.bind_eq, Drv.bind_of_ok _ _ _ _ _ (Drv.issue_of_ok _ b h0)]
    rw [Drv.issue_of_error _ _ (by simpa using h1)]
    simp
  · intro h0 h1
    unfold hw_params_synchronize regmap_update_bits
    rw [Drv.bind_eq, Drv.bind_of_ok _ _ _ _ _ (Drv.issue_of_ok _ b h0)]
    rw [Drv.issue_of_ok _ _ (by simpa using h1)]
    simp

/-- C9: in `zpcm512x_dai_hw_params` for a master-mode format the operations issued are a list
`pre` that never touches `PCM512x_SYNCHRONIZE`, followed by nothing, by the HALT request, or by
the HALT and the RESUME request.  A request on `PCM512x_SYNCHRONIZE` is issued only when every
operation before it has returned 0 and `zpcm512x_set_dividers` has succeeded; on success HALT
and RESUME are the last two operations; if `zpcm512x_set_dividers` returns an error,
`zpcm512x_dai_hw_params` returns it and issues no request on `PCM512x_SYNCHRONIZE`. -/
theorem hw_params_synchronize_last (priv : zpcm512x_priv) (params : snd_pcm_hw_params)
    (b : Bus BusOp) (hm : priv.fmt_is_CBS_CFS = false) :
    ∃ pre sfx : List BusOp,
      (zpcm512x_dai_hw_params priv params b).2.log = b.log ++ pre ++ sfx ∧
      (∀ op ∈ pre, op.reg ≠ Reg.SYNCHRONIZE) ∧
      (sfx = [] ∨
        sfx = [BusOp.update_bits Reg.SYNCHRONIZE (Bits.sym Sym.RQSY) (Bits.sym Sym.RQSY_HALT)] ∨
        (sfx = [BusOp.update_bits Reg.SYNCHRONIZE (Bits.sym Sym.RQSY) (Bits.sym Sym.RQSY_HALT),
                BusOp.update_bits Reg.SYNCHRONIZE (Bits.sym Sym.RQSY)
                  (Bits.sym Sym.RQSY_RESUME)] ∧
          b.ret (b.log.length + pre.length) = 0)) ∧
      (sfx ≠ [] →
        (∀ j, j < pre.length → b.ret (b.log.length + j) = 0) ∧
        ∃ b1 d b2, hw_params_before_dividers priv params b = (Outcome.ok (), b1) ∧
          zpcm512x_set_dividers priv params b1 = (Outcome.ok d, b2)) ∧
      (∀ u, (zpcm512x_dai_hw_params priv params b).1 = Outcome.ok u →
        sfx = [BusOp.update_bits Reg.SYNCHRONIZE (Bits.sym Sym.RQSY) (Bits.sym Sym.RQSY_HALT),
               BusOp.update_bits Reg.SYNCHRONIZE (Bits.sym Sym.RQSY)
                 (Bits.sym Sym.RQSY_RESUME)]) ∧
      (∀ b1 e b2, hw_params_before_dividers priv params b = (Outcome.ok (), b1) →
        zpcm512x_set_dividers priv params b1 = (Outcome.error e, b2) →
        zpcm512x_dai_hw_params priv params b = (Outcome.error e, b2) ∧ sfx = []) := by
  unfold zpcm512x_dai_hw_params
  rw [hm]
  simp only [Bool.false_eq_true, if_false, Drv.bind_eq]
  obtain ⟨hret1, ops1, hlog1, hP1, hok1⟩ := clean_hw_params_before_dividers priv params b
  rcases h1 : hw_params_before_dividers priv params b with ⟨o1, b1⟩
  rw [h1] at hret1 hlog1 hok1
  simp only at hret1 hlog1 hok1
  -- a run that ends before the synchronisation requests
  have early : ∀ (r : Outcome Unit × Bus BusOp) (ops : List BusOp),
      r.2.log = b.log ++ ops → (∀ op ∈ ops, op.reg ≠ Reg.SYNCHRONIZE) →
      (∀ u, r.1 ≠ Outcome.ok u) →
      (∀ c1 e c2, (Outcome.ok (), c1) = (o1, b1) →
        zpcm512x_set_dividers priv params c1 = (Outcome.error e, c2) →
        r = (Outcome.error e, c2)) →
      ∃ pre sfx : List BusOp,
        r.2.log = b.log ++ pre ++ sfx ∧
        (∀ op ∈ pre, op.reg ≠ Reg.SYNCHRONIZE) ∧
        (sfx = [] ∨
          sfx = [BusOp.update_bits Reg.SYNCHRONIZE (Bits.sym Sym.RQSY)
            (Bits.sym Sym.RQSY_HALT)] ∨
          (sfx = [BusOp.update_bits Reg.SYNCHRONIZE (Bits.sym Sym.RQSY)
                    (Bits.sym Sym.RQSY_HALT),
                  BusOp.update_bits Reg.SYNCHRONIZE (Bits.sym Sym.RQSY)
                    (Bits.sym Sym.RQSY_RESUME)] ∧
            b.ret (b.log.length + pre.length) = 0)) ∧
        (sfx ≠ [] →
          (∀ j, j < pre.length → b.ret (b.log.length + j) = 0) ∧
          ∃ c1 d c2, (o1, b1) = (Outcome.ok (), c1) ∧
            zpcm512x_set_dividers priv params c1 = (Outcome.ok d, c2)) ∧
        (∀ u, r.1 = Outcome.ok u →
          sfx = [BusOp.update_bits Reg.SYNCHRONIZE (Bits.sym Sym.RQSY)
                   (Bits.sym Sym.RQSY_HALT),
                 BusOp.update_bits Reg.SYNCHRONIZE (Bits.sym Sym.RQSY)
                   (Bits.sym Sym.RQSY_RESUME)]) ∧
        (∀ c1 e c2, (o1, b1) = (Outcome.ok (), c1) →
          zpcm512x_set_dividers priv params c1 = (Outcome.error e, c2) →
          r = (Outcome.error e, c2) ∧ sfx = []) := by
    intro r ops hlog hP hne hsd
    refine ⟨ops, [], by rw [List.append_nil]; exact hlog, hP, Or.inl rfl,
      fun h => absurd rfl h, fun u hu => absurd hu (hne u), ?_⟩
    intro c1 e c2 hc1 hc2
    exact ⟨hsd c1 e c2 hc1.symm hc2, rfl⟩
  cases o1 with
  | error e1 =>
    rw [Drv.bind_of_error _ _ _ _ _ h1]
    exact early _ ops1 hlog1 hP1 (by intro u; simp) (by intro c1 e c2 hc; simp at hc)
  | undefined =>
    rw [Drv.bind_of_undefined _ _ _ _ h1]
    exact early _ ops1 hlog1 hP1 (by intro u; simp) (by intro c1 e c2 hc; simp at hc)
  | ok u1 =>
    rw [Drv.bind_of_ok _ _ _ _ _ h1]
    obtain ⟨hret2, ops2, hlog2, hP2, hok2⟩ := clean_set_dividers priv params b1
    rcases h2 : zpcm512x_set_dividers priv params b1 with ⟨o2, b2⟩
    rw [h2] at hret2 hlog2 hok2
    simp only at hret2 hlog2 hok2
    have hlog12 : b2.log = b.log ++ (ops1 ++ ops2) := by
      rw [hlog2, hlog1, List.append_assoc]
    have hP12 : ∀ op ∈ ops1 ++ ops2, op.reg ≠ Reg.SYNCHRONIZE := by
      intro op hop
      rcases List.mem_append.mp hop with h | h
      · exact hP1 op h
      · exact hP2 op h
    have hsd_ne : ∀ (r : Outcome Unit × Bus BusOp), (∀ e, o2 ≠ Outcome.error e) →
        ∀ c1 e c2, (Outcome.ok (), c1) = (Outcome.ok u1, b1) →
        zpcm512x_set_dividers priv params c1 = (Outcome.error e, c2) →
        r = (Outcome.error e, c2) := by
      intro r hne c1 e c2 hc1 hc2
      simp only [Prod.mk.injEq] at hc1
      rw [hc1.2, h2] at hc2
      simp only [Prod.mk.injEq] at hc2
      exact absurd hc2.1 (hne e)
    cases o2 with
    | error e2 =>
      rw [Drv.bind_of_error _ _ _ _ _ h2]
      refine early _ (ops1 ++ ops2) hlog12 hP12 (by intro u; simp) ?_
      intro c1 e c2 hc1 hc2
      simp only [Prod.mk.injEq] at hc1
      rw [hc1.2, h2] at hc2
      simp only [Prod.mk.injEq, Outcome.error.injEq] at hc2 ⊢
      exact hc2
    | undefined =>
      rw [Drv.bind_of_undefined _ _ _ _ h2]
      exact early _ (ops1 ++ ops2) hlog12 hP12 (by intro u; simp)
        (hsd_ne _ (by intro e; simp))
    | ok d =>
      rw [Drv.bind_of_ok _ _ _ _ _ h2]
      obtain ⟨hret3, ops3, hlog3, hP3, hok3⟩ := clean_hw_params_pll_routing priv b2
      rcases h3 : hw_params_pll_routing priv b2 with ⟨o3, b3⟩
      rw [h3] at hret3 hlog3 hok3
      simp only at hret3 hlog3 hok3
      have hlog123 : b3.log = b.log ++ (ops1 ++ ops2 ++ ops3) := by
        rw [hlog3, hlog12, List.append_assoc]
      have hP123 : ∀ op ∈ ops1 ++ ops2 ++ ops3, op.reg ≠ Reg.SYNCHRONIZE := by
        intro op hop
        rcases List.mem_append.mp hop with h | h
        · exact hP12 op h
        · exact hP3 op h
      cases o3 with
      | error e3 =>
        rw [Drv.bind_of_error _ _ _ _ _ h3]
        exact early _ _ hlog123 hP123 (by intro u; simp) (hsd_ne _ (by intro e; simp))
      | undefined =>
        rw [Drv.bind_of_undefined _ _ _ _ h3]
        exact early _ _ hlog123 hP123 (by intro u; simp) (hsd_ne _ (by intro e; simp))
      | ok u3 =>
        rw [Drv.bind_of_ok _ _ _ _ _ h3]
        -- every operation so far has returned 0
        have hall : ∀ j, j < (ops1 ++ ops2 ++ ops3).length → b.ret (b.log.length + j) = 0 := by
          intro j hj
          simp only [List.length_append] at hj
          rcases Nat.lt_or_ge j ops1.length with h | h
          · exact hok1 u1 rfl j h
          · rcases Nat.lt_or_ge j (ops1.length + ops2.length) with h' | h'
            · have := hok2 d rfl (j - ops1.length) (by omega)
              rw [hret1, hlog1, List.length_append] at this
              rw [← this]; congr 1; omega
            · have := hok3 u3 rfl (j - (ops1.length + ops2.length)) (by omega)
              rw [hret2, hret1, hlog12, List.length_append, List.length_append] at this
              rw [← this]; congr 1; omega
        have hret : b3.ret = b.ret := by rw [hret3, hret2, hret1]
        have hlen : b3.log.length = b.log.length + (ops1 ++ ops2 ++ ops3).length := by
          rw [hlog123, List.length_append]
        obtain ⟨r1, r2, r3⟩ := hw_params_synchronize_run b3
        have hsd : ∃ c1 d' c2, (Outcome.ok u1, b1) = (Outcome.ok (), c1) ∧
            zpcm512x_set_dividers priv params c1 = (Outcome.ok d', c2) := ⟨b1, d, b2, rfl, h2⟩
        by_cases g0 : b3.ret b3.log.length = 0
        · have g0' : b.ret (b.log.length + (ops1 ++ ops2 ++ ops3).length) = 0 := by
            rw [← hret, ← hlen]; exact g0
          by_cases g1 : b3.ret (b3.log.length + 1) = 0
          · rw [r3 g0 g1]
            refine ⟨ops1 ++ ops2 ++ ops3, _, by simp only [hlog123, List.append_assoc], hP123,
              Or.inr (Or.inr ⟨rfl, g0'⟩), fun _ => ⟨hall, hsd⟩, fun _ _ => rfl, ?_⟩
            intro c1 e c2 hc1 hc2
            exact absurd (hsd_ne (Outcome.ok (), b3) (by intro e; simp) c1 e c2 hc1.symm hc2)
              (by simp)
          · rw [r2 g0 g1]
            refine ⟨ops1 ++ ops2 ++ ops3, _, by simp only [hlog123, List.append_assoc], hP123,
              Or.inr (Or.inr ⟨rfl, g0'⟩), fun _ => ⟨hall, hsd⟩, fun u hu => by simp at hu, ?_⟩
            intro c1 e c2 hc1 hc2
            have := hsd_ne (Outcome.ok (), b3) (by intro e; simp) c1 e c2 hc1.symm hc2
            exact absurd this (by simp)
        · rw [r1 g0]
          refine ⟨ops1 ++ ops2 ++ ops3, _, by simp only [hlog123, List.append_assoc], hP123,
            Or.inr (Or.inl rfl), fun _ => ⟨hall, hsd⟩, fun u hu => by simp at hu, ?_⟩
          intro c1 e c2 hc1 hc2
          have := hsd_ne (Outcome.ok (), b3) (by intro e; simp) c1 e c2 hc1.symm hc2
          exact absurd this (by simp)

/-! ## The claim about the divider ranges -/

theorem div_round_closest_le (s d : Nat) (hd : 0 < d) : DIV_ROUND_CLOSEST s d ≤ s := by
  unfold DIV_ROUND_CLOSEST
  have h1 : (s + d / 2) / d * d ≤ s + d / 2 := Nat.div_mul_le_self _ _
  by_contra hc
  have h2 : (s + 1) * d ≤ (s + d / 2) / d * d := Nat.mul_le_mul_right d (by omega)
  have h3 : s ≤ s * d := Nat.le_mul_of_pos_right s hd
  have h4 : (s + 1) * d = s * d + d := by ring
  omega

theorem pllin_dac_rate_loop_dvd (osr_rate pllin_rate : Nat) : ∀ (fuel dac_rate r : Nat),
    pllin_dac_rate_loop osr_rate pllin_rate fuel dac_rate = some r → osr_rate ∣ dac_rate →
    osr_rate ∣ r := by
  intro fuel
  induction fuel with
  | zero => intro dac_rate r h; simp [pllin_dac_rate_loop] at h
  | succ n ih =>
    intro dac_rate r h hd
    unfold pllin_dac_rate_loop at h
    split at h
    · simp only [Option.some.injEq] at h; rw [← h]; exact Nat.dvd_zero _
    · split at h
      · simp only [Option.some.injEq] at h; rw [← h]; exact Nat.dvd_zero _
      · split at h
        · simp only [Option.some.injEq] at h; rw [← h]; exact hd
        · split at h
          · simp at h
          · split at h
            · simp at h
            · exact ih _ r h (Nat.dvd_sub' (Nat.dvd_sub' hd (Nat.dvd_refl _)) (Nat.dvd_refl _))

/-- Entered at a multiple `j * osr_rate` of an `osr_rate` that divides `pllin_rate`, with more
than `j` iterations allowed, the search loop returns: neither `dac_rate -= osr_rate` is ever
applied to a value below `osr_rate`. -/
theorem pllin_dac_rate_loop_returns (osr_rate pllin_rate : Nat)
    (hmod : pllin_rate % osr_rate = 0) : ∀ (fuel j : Nat), j < fuel →
    ∃ r, pllin_dac_rate_loop osr_rate pllin_rate fuel (j * osr_rate) = some r := by
  intro fuel
  induction fuel with
  | zero => intro j hj; omega
  | succ n ih =>
    intro j hj
    unfold pllin_dac_rate_loop
    split
    · exact ⟨_, rfl⟩
    · rename_i hne
      split
      · exact ⟨_, rfl⟩
      · split
        · exact ⟨_, rfl⟩
        · rename_i hnd
          have hj2 : 2 ≤ j := by
            rcases Nat.lt_or_ge j 2 with h | h
            · have hj1 : j = 0 ∨ j = 1 := by omega
              rcases hj1 with rfl | rfl
              · simp at hne
              · rw [Nat.one_mul] at hnd; exact absurd hmod hnd
            · exact h
          obtain ⟨i, rfl⟩ : ∃ i, j = i + 2 := ⟨j - 2, by omega⟩
          have e : (i + 2) * osr_rate = i * osr_rate + osr_rate + osr_rate := by ring
          rw [e]
          rw [if_neg (by omega), if_neg (by omega)]
          have e2 : i * osr_rate + osr_rate + osr_rate - osr_rate - osr_rate = i * osr_rate := by
            omega
          rw [e2]
          exact ih i (by omega)

/-- With `osr_rate > 0` the source function `zpcm512x_pllin_dac_rate` returns a value. -/
theorem pllin_dac_rate_defined (priv : zpcm512x_priv) (osr_rate pllin_rate : Nat)
    (ho : 0 < osr_rate) : ∃ r, zpcm512x_pllin_dac_rate priv osr_rate pllin_rate = Outcome.ok r := by
  unfold zpcm512x_pllin_dac_rate
  split
  · exact ⟨_, rfl⟩
  · rw [if_neg (by omega)]
    split
    · exact ⟨_, rfl⟩
    · rename_i hmod
      have hmod' : pllin_rate % osr_rate = 0 := by
        by_contra hc; exact hmod hc
      have hstart : rounddown (zpcm512x_dac_max priv.overclock_dac 6144000) osr_rate =
          zpcm512x_dac_max priv.overclock_dac 6144000 / osr_rate * osr_rate := by
        rw [rounddown_eq_mul, Nat.mul_comm]
      have hle : zpcm512x_dac_max priv.overclock_dac 6144000 / osr_rate ≤
          zpcm512x_dac_max priv.overclock_dac 6144000 / osr_rate * osr_rate :=
        Nat.le_mul_of_pos_right _ ho
      rw [hstart]
      obtain ⟨r, hr⟩ := pllin_dac_rate_loop_returns osr_rate pllin_rate hmod'
        (zpcm512x_dac_max priv.overclock_dac 6144000 / osr_rate * osr_rate + 1)
        (zpcm512x_dac_max priv.overclock_dac 6144000 / osr_rate) (by omega)
      rw [hr]
      exact ⟨r, rfl⟩

theorem pllin_dac_rate_ok (priv : zpcm512x_priv) (osr_rate pllin_rate r : Nat)
    (h : zpcm512x_pllin_dac_rate priv osr_rate pllin_rate = Outcome.ok r) (hr : r ≠ 0) :
    priv.pll_out ≠ 0 ∧ 0 < osr_rate ∧ osr_rate ∣ r := by
  unfold zpcm512x_pllin_dac_rate at h
  split at h
  · simp only [Outcome.ok.injEq] at h; exact absurd h.symm hr
  · rename_i hp
    split at h
    · simp at h
    · rename_i ho
      split at h
      · simp only [Outcome.ok.injEq] at h; exact absurd h.symm hr
      · cases hl : pllin_dac_rate_loop osr_rate pllin_rate
            (rounddown (zpcm512x_dac_max priv.overclock_dac 6144000) osr_rate + 1)
            (rounddown (zpcm512x_dac_max priv.overclock_dac 6144000) osr_rate) with
        | none => rw [hl] at h; simp at h
        | some r' =>
          rw [hl] at h
          simp only [Outcome.ok.injEq] at h
          subst h
          refine ⟨hp, by omega, pllin_dac_rate_loop_dvd _ _ _ _ _ hl ?_⟩
          rw [rounddown_eq_mul]
          exact Dvd.intro _ rfl

theorem set_dividers_dac_source_ok (priv : zpcm512x_priv) (sck_rate osr_rate pllin_rate : Nat)
    (b b' : Bus BusOp) (src : Nat × Nat)
    (h : set_dividers_dac_source priv sck_rate osr_rate pllin_rate b = (Outcome.ok src, b')) :
    0 < osr_rate ∧ osr_rate ≤ src.1 ∧ osr_rate ∣ src.1 ∧
      (src.2 = pllin_rate ∨ src.2 = sck_rate) := by
  unfold set_dividers_dac_source at h
  cases hdac : zpcm512x_pllin_dac_rate priv osr_rate pllin_rate with
  | undefined => rw [hdac] at h; simp [Drv.lift] at h
  | error e => rw [hdac] at h; simp [Drv.lift] at h
  | ok dac_rate =>
    rw [hdac] at h
    simp only at h
    split at h
    · rename_i hne
      obtain ⟨_, hpos, hdvd⟩ := pllin_dac_rate_ok _ _ _ _ hdac hne
      rw [Drv.bind_eq] at h
      obtain ⟨_, b1, _, h⟩ := Drv.bind_ok_inv _ _ _ _ _ h
      rw [Drv.bind_eq] at h
      obtain ⟨_, b2, _, h⟩ := Drv.bind_ok_inv _ _ _ _ _ h
      obtain ⟨hsrc, _⟩ := Drv.ret_ok_inv _ _ _ _ h
      subst hsrc
      exact ⟨hpos, Nat.le_of_dvd (Nat.pos_of_ne_zero hne) hdvd, hdvd, Or.inl rfl⟩
    · split at h
      · simp [Drv.lift] at h
      · rename_i ho
        split at h
        · simp [Drv.lift] at h
        · rename_i hm
          rw [Drv.bind_eq] at h
          obtain ⟨_, b1, _, h⟩ := Drv.bind_ok_inv _ _ _ _ _ h
          obtain ⟨hsrc, _⟩ := Drv.ret_ok_inv _ _ _ _ h
          subst hsrc
          exact ⟨by omega, Nat.le_mul_of_pos_left _ (Nat.pos_of_ne_zero hm),
            Dvd.intro_left _ rfl, Or.inr rfl⟩

theorem set_dividers_ncp_div_ok (priv : zpcm512x_priv) (dac_rate n : Nat)
    (h : set_dividers_ncp_div priv dac_rate = Outcome.ok n) (hd : 0 < dac_rate) :
    1 ≤ n ∧ n ≤ 128 := by
  have hup : 1 ≤ DIV_ROUND_UP dac_rate 2048000 := by
    unfold DIV_ROUND_UP; omega
  unfold set_dividers_ncp_div at h
  simp only at h
  split at h
  · split at h
    · simp at h
    · simp only [Outcome.ok.injEq] at h; omega
  · split at h
    · simp at h
    · split at h
      · split at h
        · simp at h
        · simp only [Outcome.ok.injEq] at h; omega
      · simp only [Outcome.ok.injEq] at h; omega

theorem set_dividers_compute_ok (priv : zpcm512x_priv) (lrclk_div : Nat) (k : ClockSel)
    (sample_rate osr_rate dsp_div dac_rate0 dacsrc_rate : Nat) (d : Dividers)
    (h : set_dividers_compute priv lrclk_div k sample_rate osr_rate dsp_div dac_rate0
      dacsrc_rate = Outcome.ok d)
    (ho : 0 < osr_rate) (hdac : osr_rate ≤ dac_rate0) :
    d.lrclk_div = lrclk_div ∧ d.bclk_rate = k.bclk_rate ∧ d.bclk_div = k.bclk_div ∧
    d.sample_rate = sample_rate ∧ d.osr_rate = osr_rate ∧ d.dsp_div = dsp_div ∧
    (1 ≤ d.osr_div ∧ d.osr_div ≤ 128) ∧ (1 ≤ d.dac_div ∧ d.dac_div ≤ 128) ∧
    (1 ≤ d.ncp_div ∧ d.ncp_div ≤ 128) := by
  unfold set_dividers_compute at h
  simp only at h
  split at h
  · simp at h
  · rename_i hosr
    split at h
    · simp at h
    · rename_i hdd
      split at h
      · simp at h
      · rename_i hd0
        cases hn : set_dividers_ncp_div priv
            (dacsrc_rate / DIV_ROUND_CLOSEST dacsrc_rate dac_rate0) with
        | undefined => rw [hn] at h; simp at h
        | error e => rw [hn] at h; simp at h
        | ok ncp =>
          rw [hn] at h
          have hdacpos : 0 < dac_rate0 := by omega
          have hle := div_round_closest_le dacsrc_rate dac_rate0 hdacpos
          have hrate : 0 < dacsrc_rate / DIV_ROUND_CLOSEST dacsrc_rate dac_rate0 :=
            Nat.div_pos hle (by omega)
          obtain ⟨n1, n2⟩ := set_dividers_ncp_div_ok _ _ _ hn hrate
          have hosr1 : 1 ≤ DIV_ROUND_CLOSEST dac_rate0 osr_rate := by
            unfold DIV_ROUND_CLOSEST
            exact (Nat.le_div_iff_mul_le ho).mpr (by omega)
          simp only [Outcome.ok.injEq] at h
          subst h
          exact ⟨rfl, rfl, rfl, rfl, rfl, rfl, ⟨hosr1, Nat.le_of_not_gt hosr⟩,
            ⟨Nat.pos_of_ne_zero hd0, Nat.le_of_not_gt hdd⟩, ⟨n1, n2⟩⟩

theorem set_dividers_write_ok (d : Dividers) (b b' : Bus BusOp) (u : Unit)
    (h : set_dividers_write d b = (Outcome.ok u, b')) :
    b'.log = b.log ++
      [BusOp.write Reg.DSP_CLKDIV ((d.dsp_div : Int) - 1),
       BusOp.write Reg.DAC_CLKDIV ((d.dac_div : Int) - 1),
       BusOp.write Reg.NCP_CLKDIV ((d.ncp_div : Int) - 1),
       BusOp.write Reg.OSR_CLKDIV ((d.osr_div : Int) - 1),
       BusOp.write Reg.MASTER_CLKDIV_1 ((d.bclk_div : Int) - 1),
       BusOp.write Reg.MASTER_CLKDIV_2 ((d.lrclk_div : Int) - 1),
       BusOp.write Reg.IDAC_1 ((d.idac >>> 8 : Nat) : Int),
       BusOp.write Reg.IDAC_2 ((d.idac &&& 0xff : Nat) : Int),
       BusOp.update_bits Reg.FS_SPEED_MODE (Bits.sym Sym.FSSP) (Bits.sym d.fssp)] := by
  unfold set_dividers_write regmap_write regmap_update_bits at h
  rw [Drv.bind_eq] at h
  obtain ⟨_, b1, h1, h⟩ := Drv.bind_ok_inv _ _ _ _ _ h
  rw [Drv.bind_eq] at h
  obtain ⟨_, b2, h2, h⟩ := Drv.bind_ok_inv _ _ _ _ _ h
  rw [Drv.bind_eq] at h
  obtain ⟨_, b3, h3, h⟩ := Drv.bind_ok_inv _ _ _ _ _ h
  rw [Drv.bind_eq] at h
  obtain ⟨_, b4, h4, h⟩ := Drv.bind_ok_inv _ _ _ _ _ h
  rw [Drv.bind_eq] at h
  obtain ⟨_, b5, h5, h⟩ := Drv.bind_ok_inv _ _ _ _ _ h
  rw [Drv.bind_eq] at h
  obtain ⟨_, b6, h6, h⟩ := Drv.bind_ok_inv _ _ _ _ _ h
  rw [Drv.bind_eq] at h
  obtain ⟨_, b7, h7, h⟩ := Drv.bind_ok_inv _ _ _ _ _ h
  rw [Drv.bind_eq] at h
  obtain ⟨_, b8, h8, h⟩ := Drv.bind_ok_inv _ _ _ _ _ h
  rw [(Drv.issue_ok_inv _ _ _ _ h).2, (Drv.issue_ok_inv _ _ _ _ h8).2,
    (Drv.issue_ok_inv _ _ _ _ h7).2, (Drv.issue_ok_inv _ _ _ _ h6).2,
    (Drv.issue_ok_inv _ _ _ _ h5).2, (Drv.issue_ok_inv _ _ _ _ h4).2,
    (Drv.issue_ok_inv _ _ _ _ h3).2, (Drv.issue_ok_inv _ _ _ _ h2).2,
    (Drv.issue_ok_inv _ _ _ _ h1).2]
  simp

theorem set_dividers_clock_ok (priv : zpcm512x_priv) (params : snd_pcm_hw_params)
    (lrclk_div : Nat) (b b' : Bus BusOp) (k : ClockSel)
    (h : set_dividers_clock priv params lrclk_div b = (Outcome.ok k, b')) :
    0 < k.bclk_rate := by
  unfold set_dividers_clock at h
  split at h
  · obtain ⟨h, _⟩ := Drv.lift_ok_inv _ _ _ _ h
    unfold set_dividers_no_pll at h
    simp only at h
    split at h
    · simp at h
    · rename_i hb
      simp only [Outcome.ok.injEq] at h
      subst h
      exact Nat.pos_of_ne_zero hb
  · unfold set_dividers_pll at h
    simp only at h
    split at h
    · simp [Drv.lift] at h
    · rename_i hb
      split at h
      · simp [Drv.lift] at h
      · cases hc : zpcm512x_find_pll_coeff priv.sclk_rate
            (4 * zpcm512x_find_sck priv.overclock_pll (snd_soc_params_to_bclk params)) with
        | undefined => rw [hc] at h; simp [Drv.lift] at h
        | error e => rw [hc] at h; simp [Drv.lift] at h
        | ok c =>
          rw [hc] at h
          simp only [Drv.bind_eq] at h
          obtain ⟨_, b1, _, h⟩ := Drv.bind_ok_inv _ _ _ _ _ h
          obtain ⟨hk, _⟩ := Drv.ret_ok_inv _ _ _ _ h
          subst hk
          exact Nat.pos_of_ne_zero hb

/-- The runs of `zpcm512x_set_dividers` that return success without having divided by zero:
there `dsp_div`, `dac_div`, `ncp_div`, `osr_div` and `bclk_div` lie in `[1, 128]`, and
`lrclk_div`, `bclk_rate`, `osr_rate` and `dsp_div * sample_rate` are positive; the last nine
operations on the bus are the divider, IDAC and speed-mode writes, and the five values written
with the value-minus-one encoding to `DSP_CLKDIV`, `DAC_CLKDIV`, `NCP_CLKDIV`, `OSR_CLKDIV` and
`MASTER_CLKDIV_1` lie in `[0, 127]`.  A run that divides by a zero divider is not among
them. -/
theorem set_dividers_in_range (priv : zpcm512x_priv) (params : snd_pcm_hw_params)
    (b b' : Bus BusOp) (d : Dividers)
    (h : zpcm512x_set_dividers priv params b = (Outcome.ok d, b')) :
    (1 ≤ d.dsp_div ∧ d.dsp_div ≤ 128) ∧ (1 ≤ d.dac_div ∧ d.dac_div ≤ 128) ∧
    (1 ≤ d.ncp_div ∧ d.ncp_div ≤ 128) ∧ (1 ≤ d.osr_div ∧ d.osr_div ≤ 128) ∧
    (1 ≤ d.bclk_div ∧ d.bclk_div ≤ 128) ∧
    (0 < d.lrclk_div ∧ 0 < d.bclk_rate ∧ 0 < d.osr_rate ∧ 0 < d.dsp_div * d.sample_rate) ∧
    (∃ pre : List BusOp, b'.log = b.log ++ pre ++
      [BusOp.write Reg.DSP_CLKDIV ((d.dsp_div : Int) - 1),
       BusOp.write Reg.DAC_CLKDIV ((d.dac_div : Int) - 1),
       BusOp.write Reg.NCP_CLKDIV ((d.ncp_div : Int) - 1),
       BusOp.write Reg.OSR_CLKDIV ((d.osr_div : Int) - 1),
       BusOp.write Reg.MASTER_CLKDIV_1 ((d.bclk_div : Int) - 1),
       BusOp.write Reg.MASTER_CLKDIV_2 ((d.lrclk_div : Int) - 1),
       BusOp.write Reg.IDAC_1 ((d.idac >>> 8 : Nat) : Int),
       BusOp.write Reg.IDAC_2 ((d.idac &&& 0xff : Nat) : Int),
       BusOp.update_bits Reg.FS_SPEED_MODE (Bits.sym Sym.FSSP) (Bits.sym d.fssp)]) ∧
    (0 ≤ (d.dsp_div : Int) - 1 ∧ (d.dsp_div : Int) - 1 ≤ 127) ∧
    (0 ≤ (d.dac_div : Int) - 1 ∧ (d.dac_div : Int) - 1 ≤ 127) ∧
    (0 ≤ (d.ncp_div : Int) - 1 ∧ (d.ncp_div : Int) - 1 ≤ 127) ∧
    (0 ≤ (d.osr_div : Int) - 1 ∧ (d.osr_div : Int) - 1 ≤ 127) ∧
    (0 ≤ (d.bclk_div : Int) - 1 ∧ (d.bclk_div : Int) - 1 ≤ 127) := by
  unfold zpcm512x_set_dividers at h
  rw [Drv.bind_eq] at h
  obtain ⟨lrclk_div, b0, hl0, h1⟩ := Drv.bind_ok_inv _ _ _ _ _ h
  clear h
  obtain ⟨hl, hb0⟩ := Drv.lift_ok_inv _ _ _ _ hl0
  clear hl0
  subst hb0
  rw [Drv.bind_eq] at h1
  obtain ⟨k, b1, hk, h2⟩ := Drv.bind_ok_inv _ _ _ _ _ h1
  clear h1
  have hbclk := set_dividers_clock_ok _ _ _ _ _ _ hk
  obtain ⟨_, ops1, hlog1, _, _⟩ := clean_set_dividers_clock priv params lrclk_div b0
  rw [hk] at hlog1
  simp only at hlog1
  have hlr : 0 < lrclk_div := by
    unfold set_dividers_lrclk_div at hl
    split at hl
    · simp only [Outcome.ok.injEq] at hl; omega
    · split at hl
      · simp at hl
      · simp only [Outcome.ok.injEq] at hl; omega
  unfold set_dividers_chain at h2
  split at h2
  · simp [Drv.lift] at h2
  · rename_i hb128
    split at h2
    · simp [Drv.lift] at h2
    · rename_i hbz
      simp only [Drv.bind_eq] at h2
      obtain ⟨src, b2, hsrc, h3⟩ := Drv.bind_ok_inv _ _ _ _ _ h2
      clear h2
      obtain ⟨d', b3, hd0, h4⟩ := Drv.bind_ok_inv _ _ _ _ _ h3
      clear h3
      obtain ⟨hd', hb3⟩ := Drv.lift_ok_inv _ _ _ _ hd0
      clear hd0
      subst hb3
      obtain ⟨u, b4, hw, h5⟩ := Drv.bind_ok_inv _ _ _ _ _ h4
      clear h4
      obtain ⟨hdd, hb4⟩ := Drv.ret_ok_inv _ _ _ _ h5
      clear h5
      subst hdd hb4
      obtain ⟨ho, hle, _, _⟩ := set_dividers_dac_source_ok _ _ _ _ _ _ _ hsrc
      obtain ⟨e1, e2, e3, e4, e5, e6, hosr, hdac, hncp⟩ :=
        set_dividers_compute_ok _ _ _ _ _ _ _ _ _ hd' ho hle
      obtain ⟨_, ops2, hlog2, _, _⟩ :=
        clean_set_dividers_dac_source priv k.sck_rate
          (16 * (k.sck_rate / k.bclk_div / lrclk_div)) k.pllin_rate b1
      rw [hsrc] at hlog2
      simp only at hlog2
      have hlogw := set_dividers_write_ok _ _ _ _ hw
      have hdsp : 1 ≤ d'.dsp_div ∧ d'.dsp_div ≤ 128 := by
        rw [e6]; split <;> omega
      have hbdiv : 1 ≤ d'.bclk_div ∧ d'.bclk_div ≤ 128 := by
        rw [e3]; omega
      have hsample : 0 < d'.sample_rate := by
        rw [e4]; omega
      refine ⟨hdsp, hdac, hncp, hosr, hbdiv,
        ⟨by rw [e1]; exact hlr, by rw [e2]; exact hbclk, by rw [e5]; exact ho,
          Nat.mul_pos hdsp.1 hsample⟩,
        ⟨ops1 ++ ops2, by rw [hlogw, hlog2, hlog1]; simp only [List.append_assoc]⟩,
        ?_, ?_, ?_, ?_, ?_⟩ <;> omega

/-- The dividers for the 24.576 MHz clock of the DAC+ Pro without PLL, a BCLK ratio of 64 and
48 kHz, on a bus where every operation succeeds: `zpcm512x_set_dividers` succeeds with `dsp_div = 1`,
`dac_div = 4`, `ncp_div = 4`, `osr_div = 8`, `bclk_div = 8`, all within `[1, 128]`. -/
theorem set_dividers_in_range_witness :
    ∃ (d : Dividers) (b' : Bus BusOp),
      zpcm512x_set_dividers ⟨0, 0, 0, 0, 0, 64, 24576000, false⟩ ⟨48000, 32, 64⟩
        ⟨fun _ => 0, []⟩ = (Outcome.ok d, b') ∧
      d.dsp_div = 1 ∧ d.dac_div = 4 ∧ d.ncp_div = 4 ∧ d.osr_div = 8 ∧ d.bclk_div = 8 ∧
      (1 ≤ d.dsp_div ∧ d.dsp_div ≤ 128) ∧ (1 ≤ d.dac_div ∧ d.dac_div ≤ 128) ∧
      (1 ≤ d.ncp_div ∧ d.ncp_div ≤ 128) ∧ (1 ≤ d.osr_div ∧ d.osr_div ≤ 128) ∧
      (1 ≤ d.bclk_div ∧ d.bclk_div ≤ 128) :=
  ⟨{ lrclk_div := 64, sck_rate := 24576000, mck_rate := 24576000, bclk_rate := 3072000,
     bclk_div := 8, sample_rate := 48000, osr_rate := 768000, dsp_div := 1,
     dacsrc_rate := 24576000, dac_rate := 6144000, osr_div := 8, dac_div := 4, ncp_div := 4,
     idac := 512, fssp := Sym.FSSP_48KHZ, coeff := none },
   (zpcm512x_set_dividers ⟨0, 0, 0, 0, 0, 64, 24576000, false⟩ ⟨48000, 32, 64⟩
      ⟨fun _ => 0, []⟩).2,
   rfl, rfl, rfl, rfl, rfl, rfl,
   (set_dividers_in_range ⟨0, 0, 0, 0, 0, 64, 24576000, false⟩ ⟨48000, 32, 64⟩
      ⟨fun _ => 0, []⟩ _ _ rfl).1,
   (set_dividers_in_range ⟨0, 0, 0, 0, 0, 64, 24576000, false⟩ ⟨48000, 32, 64⟩
      ⟨fun _ => 0, []⟩ _ _ rfl).2.1,
   (set_dividers_in_range ⟨0, 0, 0, 0, 0, 64, 24576000, false⟩ ⟨48000, 32, 64⟩
      ⟨fun _ => 0, []⟩ _ _ rfl).2.2.1,
   (set_dividers_in_range ⟨0, 0, 0, 0, 0, 64, 24576000, false⟩ ⟨48000, 32, 64⟩
      ⟨fun _ => 0, []⟩ _ _ rfl).2.2.2.1,
   (set_dividers_in_range ⟨0, 0, 0, 0, 0, 64, 24576000, false⟩ ⟨48000, 32, 64⟩
      ⟨fun _ => 0, []⟩ _ _ rfl).2.2.2.2.1⟩

/-- C8, where the claim fails: in PLL mode with a 22.5792 MHz clock at the PLL input, 22050 Hz
and frames of 64 bits, on a bus where every operation succeeds, `zpcm512x_set_dividers` selects
an SCK of 22579200 Hz and a BCLK divider of 16, `zpcm512x_pllin_dac_rate` returns 352800 Hz,
the DAC divider is 64 and the final DAC rate 352800 Hz, and
`DIV_ROUND_CLOSEST(dac_rate, ncp_target)` is `(352800 + 768000) / 1536000 = 0`: `ncp_div` is 0,
it is not above 128, and the test `dac_rate / ncp_div > 2048000` divides by it.  The run has
issued the five PLL coefficient writes and the two DAC source updates by then. -/
theorem set_dividers_ncp_div_zero :
    (zpcm512x_set_dividers ⟨3, 4, 0, 0, 0, 0, 22579200, false⟩ ⟨22050, 16, 64⟩
      ⟨fun _ => 0, []⟩).1 = Outcome.undefined ∧
    snd_soc_params_to_bclk ⟨22050, 16, 64⟩ = 1411200 ∧
    zpcm512x_find_sck 0 1411200 = 22579200 ∧
    zpcm512x_find_pll_coeff 22579200 (4 * 22579200) =
      Outcome.ok ⟨8, 1, 0, 2, 90316800, PllPath.exactInt⟩ ∧
    DIV_ROUND_CLOSEST 22579200 1411200 = 16 ∧ 22579200 / 16 / 64 = 22050 ∧
    16 * 22050 = 352800 ∧
    zpcm512x_pllin_dac_rate ⟨3, 4, 0, 0, 0, 0, 22579200, false⟩ 352800 22579200 =
      Outcome.ok 352800 ∧
    DIV_ROUND_CLOSEST 352800 352800 = 1 ∧ DIV_ROUND_CLOSEST 22579200 352800 = 64 ∧
    22579200 / 64 = 352800 ∧ zpcm512x_ncp_target 0 352800 = 1536000 ∧
    DIV_ROUND_CLOSEST 352800 (zpcm512x_ncp_target 0 352800) = 0 ∧
    set_dividers_ncp_div ⟨3, 4, 0, 0, 0, 0, 22579200, false⟩ 352800 = Outcome.undefined ∧
    (zpcm512x_set_dividers ⟨3, 4, 0, 0, 0, 0, 22579200, false⟩ ⟨22050, 16, 64⟩
      ⟨fun _ => 0, []⟩).2.log =
      [BusOp.write Reg.PLL_COEFF_0 1, BusOp.write Reg.PLL_COEFF_1 1,
       BusOp.write Reg.PLL_COEFF_2 0, BusOp.write Reg.PLL_COEFF_3 0,
       BusOp.write Reg.PLL_COEFF_4 7,
       BusOp.update_bits Reg.DAC_REF (Bits.sym Sym.SDAC) (Bits.sym Sym.SDAC_GPIO),
       BusOp.update_bits Reg.GPIO_DACIN (Bits.sym Sym.GREF) (Bits.plus Sym.GREF_GPIO1 2)] :=
  ⟨rfl, rfl, rfl, rfl, rfl, rfl, rfl, rfl, rfl, rfl, rfl, rfl, rfl, rfl, rfl⟩

/-- C9, in PLL mode (PLL input on GPIO 3, output on GPIO 4, 24.576 MHz, 48 kHz frames of 64
bits) on a bus where every operation succeeds: `zpcm512x_dai_hw_params` returns 0 and the
operations it issues end with the HALT and the RESUME request. -/
theorem hw_params_synchronize_last_witness :
    (zpcm512x_dai_hw_params ⟨3, 4, 0, 0, 0, 0, 24576000, false⟩ ⟨48000, 32, 64⟩
        ⟨fun _ => 0, []⟩).1 = Outcome.ok () ∧
    ∃ pre sfx : List BusOp,
      (zpcm512x_dai_hw_params ⟨3, 4, 0, 0, 0, 0, 24576000, false⟩ ⟨48000, 32, 64⟩
        ⟨fun _ => 0, []⟩).2.log = [] ++ pre ++ sfx ∧
      (∀ op ∈ pre, op.reg ≠ Reg.SYNCHRONIZE) ∧
      sfx = [BusOp.update_bits Reg.SYNCHRONIZE (Bits.sym Sym.RQSY) (Bits.sym Sym.RQSY_HALT),
             BusOp.update_bits Reg.SYNCHRONIZE (Bits.sym Sym.RQSY)
               (Bits.sym Sym.RQSY_RESUME)] := by
  obtain ⟨pre, sfx, hlog, hpre, _, _, hok, _⟩ :=
    hw_params_synchronize_last ⟨3, 4, 0, 0, 0, 0, 24576000, false⟩ ⟨48000, 32, 64⟩
      ⟨fun _ => 0, []⟩ rfl
  exact ⟨rfl, pre, sfx, hlog, hpre, hok () rfl⟩


/-! ## The claims about the DAC2HD rate selection -/

theorem write_pll_regs_reset_ok (regs : List reg_default) (num : Nat) (b : Bus ClkOp)
    (hnum : num ≤ regs.length) (hok : ∀ j, j ≤ num → b.ret (b.log.length + j) = 0) :
    clk_hb_dac2hd_write_pll_regs regs num true b =
      (Outcome.ok (),
        { b with log := b.log ++ (regs.take num).map reg_default.op ++
            [ClkOp.write 177 0xAC, ClkOp.usleep_range 9950 10050] }) := by
  have hlen : (List.map reg_default.op (List.take num regs)).length = num := by
    rw [List.length_map, List.length_take]; omega
  have hloop := write_pll_regs_loop_ok regs num 0 b (by omega) (fun j hj => hok j (by omega))
  rw [List.drop_zero] at hloop
  unfold clk_hb_dac2hd_write_pll_regs
  rw [Drv.bind_eq, Drv.bind_of_ok _ _ _ _ _ hloop]
  simp only [if_true, Drv.bind_eq]
  rw [Drv.bind_of_ok _ _ _ _ _ (Drv.issue_of_ok _ _ (by
    simp only [List.length_append, hlen]; exact hok num (le_refl _)))]
  simp only [usleep_range, clk_hb_dac2hd_pll_reg_soft_reset, List.append_assoc,
    List.singleton_append]

theorem write_pll_regs_reset_fail_table (regs : List reg_default) (num k : Nat) (b : Bus ClkOp)
    (hnum : num ≤ regs.length) (hk : k < num)
    (hok : ∀ j, j < k → b.ret (b.log.length + j) = 0) (hfail : b.ret (b.log.length + k) ≠ 0) :
    clk_hb_dac2hd_write_pll_regs regs num true b =
      (Outcome.error (b.ret (b.log.length + k)),
        { b with log := b.log ++ (regs.take (k + 1)).map reg_default.op }) := by
  unfold clk_hb_dac2hd_write_pll_regs
  rw [Drv.bind_eq,
    Drv.bind_of_error _ _ _ _ _
      (write_pll_regs_loop_fail regs num 0 k b (by omega) hk hok hfail)]
  rw [List.drop_zero]

theorem write_pll_regs_reset_fail_reset (regs : List reg_default) (num : Nat) (b : Bus ClkOp)
    (hnum : num ≤ regs.length)
    (hok : ∀ j, j < num → b.ret (b.log.length + j) = 0)
    (hfail : b.ret (b.log.length + num) ≠ 0) :
    clk_hb_dac2hd_write_pll_regs regs num true b =
      (Outcome.error (b.ret (b.log.length + num)),
        { b with log := b.log ++ (regs.take num).map reg_default.op ++
            [ClkOp.write 177 0xAC] }) := by
  have hlen : (List.map reg_default.op (List.take num regs)).length = num := by
    rw [List.length_map, List.length_take]; omega
  have hloop := write_pll_regs_loop_ok regs num 0 b (by omega) hok
  rw [List.drop_zero] at hloop
  unfold clk_hb_dac2hd_write_pll_regs
  rw [Drv.bind_eq, Drv.bind_of_ok _ _ _ _ _ hloop]
  simp only [if_true, Drv.bind_eq]
  rw [Drv.bind_of_error _ _ _ _ _ (Drv.issue_of_error _ _ (by
    simp only [List.length_append, hlen]; exact hfail))]
  simp only [clk_hb_dac2hd_pll_reg_soft_reset, List.length_append, hlen]

theorem set_rate_pll_regs_some_iff (t : dac2hd_pll_regs) (rate : Nat) :
    (set_rate_pll_regs t rate).isSome = true ↔
      rate ∈ [44100, 48000, 88200, 96000, 176400, 192000] := by
  unfold set_rate_pll_regs
  simp only [List.mem_cons, List.mem_singleton, List.not_mem_nil, or_false]
  constructor
  · intro h
    by_contra hc
    simp only [not_or] at hc
    obtain ⟨h1, h2, h3, h4, h5, h6⟩ := hc
    rw [if_neg h1, if_neg h3, if_neg h5, if_neg h2, if_neg h4, if_neg h6] at h
    simp at h
  · intro h
    rcases h with h | h | h | h | h | h <;> subst h <;> rfl

theorem set_rate_of_table (t : dac2hd_pll_regs) (rate : Nat) (drvdata : clk_hb_dac2hd_drvdata)
    (b : Bus ClkOp) (regs : List reg_default) (num : Nat)
    (hne : rate ≠ drvdata.rate) (hsel : set_rate_pll_regs t rate = some (regs, num)) :
    clk_hb_dac2hd_set_rate t rate drvdata b =
      match clk_hb_dac2hd_write_pll_regs regs num true b with
      | (Outcome.ok _, b1) => (Outcome.ok (), { drvdata with rate := rate }, b1)
      | (Outcome.error ret, b1) =>
        if ret < 0 then (Outcome.error ret, drvdata, b1)
        else (Outcome.error ret, { drvdata with rate := rate }, b1)
      | (Outcome.undefined, b1) => (Outcome.undefined, drvdata, b1) := by
  unfold clk_hb_dac2hd_set_rate
  rw [if_neg hne, hsel]

/-- C11: let the target be one of 44100, 48000, 88200, 96000, 176400 and 192000, `regs` the
dedicated table of that target (the 44k1 table for 44100, the 48k table for 48000, the 88k2
table for 88200, the 96k table for 96000, the 176k4 table for 176400, the 192k table for
192000) and `num` the counter of that table.  When the target differs from the stored rate, the
counter does not exceed the table and all bus writes succeed, `clk_hb_dac2hd_set_rate` writes
the pairs of that table in order, then the one soft-reset pair `(177, 0xAC)` (followed by the
`usleep_range`), stores the target as the rate, so that `clk_hb_dac2hd_recalc_rate` returns
it, and returns 0.  With the compiled-in tables the table of each target is the array of the
source of that name, it has 13 pairs, and all of them are written; the call for 192000 on the
driver data as allocated issues the 13 writes of the 192 kHz table and then the reset write. -/
theorem set_rate_writes_dedicated_table (t : dac2hd_pll_regs) (drvdata : clk_hb_dac2hd_drvdata)
    (b : Bus ClkOp) (rate : Nat) :
    (∀ (regs : List reg_default) (num : Nat),
      ((rate = 44100 ∧ regs = t.dedicated_44k1_pll_regs ∧
          num = t.num_dedicated_44k1_pll_regs) ∨
        (rate = 48000 ∧ regs = t.dedicated_48k_pll_regs ∧
          num = t.num_dedicated_48k_pll_regs) ∨
        (rate = 88200 ∧ regs = t.dedicated_88k2_pll_regs ∧
          num = t.num_dedicated_88k2_pll_regs) ∨
        (rate = 96000 ∧ regs = t.dedicated_96k_pll_regs ∧
          num = t.num_dedicated_96k_pll_regs) ∨
        (rate = 176400 ∧ regs = t.dedicated_176k4_pll_regs ∧
          num = t.num_dedicated_176k4_pll_regs) ∨
        (rate = 192000 ∧ regs = t.dedicated_192k_pll_regs ∧
          num = t.num_dedicated_192k_pll_regs)) →
      rate ≠ drvdata.rate → num ≤ regs.length →
      (∀ j, j ≤ num → b.ret (b.log.length + j) = 0) →
        clk_hb_dac2hd_set_rate t rate drvdata b =
          (Outcome.ok (), { drvdata with rate := rate },
            { b with log := b.log ++ (regs.take num).map reg_default.op ++
                [ClkOp.write 177 0xAC, ClkOp.usleep_range 9950 10050] }) ∧
        clk_hb_dac2hd_recalc_rate (clk_hb_dac2hd_set_rate t rate drvdata b).2.1 = rate) ∧
    (∀ regs : List reg_default,
      ((rate = 44100 ∧ regs = clk_hb_dac2hd_dedicated_44k1_pll_regs) ∨
        (rate = 48000 ∧ regs = clk_hb_dac2hd_dedicated_48k_pll_regs) ∨
        (rate = 88200 ∧ regs = clk_hb_dac2hd_dedicated_88k2_pll_regs) ∨
        (rate = 96000 ∧ regs = clk_hb_dac2hd_dedicated_96k_pll_regs) ∨
        (rate = 176400 ∧ regs = clk_hb_dac2hd_dedicated_176k4_pll_regs) ∨
        (rate = 192000 ∧ regs = clk_hb_dac2hd_dedicated_192k_pll_regs)) →
      regs.length = 13 ∧
      (rate ≠ drvdata.rate → (∀ j, j ≤ 13 → b.ret (b.log.length + j) = 0) →
        clk_hb_dac2hd_set_rate clk_hb_dac2hd_static_defaults rate drvdata b =
          (Outcome.ok (), { drvdata with rate := rate },
            { b with log := b.log ++ regs.map reg_default.op ++
                [ClkOp.write 177 0xAC, ClkOp.usleep_range 9950 10050] }))) ∧
    ((∀ j, j ≤ 13 → b.ret (b.log.length + j) = 0) →
      clk_hb_dac2hd_set_rate clk_hb_dac2hd_static_defaults 192000
          clk_hb_dac2hd_drvdata_kzalloc b =
        (Outcome.ok (), { rate := 192000 },
          { b with log := b.log ++
              [ClkOp.write 0x1A 0x0C, ClkOp.write 0x1B 0x35, ClkOp.write 0x1E 0xF0,
               ClkOp.write 0x20 0x09, ClkOp.write 0x21 0x50, ClkOp.write 0x2B 0x02,
               ClkOp.write 0x2D 0x10, ClkOp.write 0x2E 0x40, ClkOp.write 0x33 0x01,
               ClkOp.write 0x35 0x22, ClkOp.write 0x36 0x80, ClkOp.write 0x3C 0x22,
               ClkOp.write 0x3D 0x46, ClkOp.write 177 0xAC,
               ClkOp.usleep_range 9950 10050] })) := by
  have hgen : ∀ (t1 : dac2hd_pll_regs) (regs : List reg_default) (num : Nat),
      set_rate_pll_regs t1 rate = some (regs, num) → rate ≠ drvdata.rate →
      num ≤ regs.length → (∀ j, j ≤ num → b.ret (b.log.length + j) = 0) →
      clk_hb_dac2hd_set_rate t1 rate drvdata b =
        (Outcome.ok (), { drvdata with rate := rate },
          { b with log := b.log ++ (regs.take num).map reg_default.op ++
              [ClkOp.write 177 0xAC, ClkOp.usleep_range 9950 10050] }) := by
    intro t1 regs num hsel hne hnum hok
    rw [set_rate_of_table t1 rate drvdata b regs num hne hsel,
      write_pll_regs_reset_ok regs num b hnum hok]
  refine ⟨?_, ?_, ?_⟩
  · intro regs num hsel hne hnum hok
    have hs : set_rate_pll_regs t rate = some (regs, num) := by
      rcases hsel with ⟨h1, h2, h3⟩ | ⟨h1, h2, h3⟩ | ⟨h1, h2, h3⟩ | ⟨h1, h2, h3⟩ |
        ⟨h1, h2, h3⟩ | ⟨h1, h2, h3⟩ <;> subst h1 h2 h3 <;> rfl
    have hrun := hgen t regs num hs hne hnum hok
    rw [hrun]
    exact ⟨rfl, rfl⟩
  · intro regs hsel
    have hs : set_rate_pll_regs clk_hb_dac2hd_static_defaults rate = some (regs, 13) ∧
        regs.length = 13 ∧ regs.take 13 = regs := by
      rcases hsel with ⟨h1, h2⟩ | ⟨h1, h2⟩ | ⟨h1, h2⟩ | ⟨h1, h2⟩ | ⟨h1, h2⟩ | ⟨h1, h2⟩ <;>
        subst h1 h2 <;> exact ⟨rfl, rfl, rfl⟩
    refine ⟨hs.2.1, ?_⟩
    intro hne hok
    have hrun := hgen clk_hb_dac2hd_static_defaults regs 13 hs.1 hne (by rw [hs.2.1]) hok
    rw [hs.2.2] at hrun
    exact hrun
  · intro hok
    rw [set_rate_of_table clk_hb_dac2hd_static_defaults 192000 clk_hb_dac2hd_drvdata_kzalloc b
        clk_hb_dac2hd_dedicated_192k_pll_regs 13 (by decide) rfl,
      write_pll_regs_reset_ok clk_hb_dac2hd_dedicated_192k_pll_regs 13 b (by decide) hok]
    simp only [List.append_assoc]
    rfl

/-- C11, on a bus where every write succeeds and nothing has been written yet, with the
compiled-in tables: `clk_hb_dac2hd_set_rate` for 192000 on the driver data as allocated
returns 0, stores 192000 and leaves a log of 13 table writes followed by the reset write; and
the call for 44100 leaves the 13 pairs of the 44k1 table followed by the reset write. -/
theorem set_rate_writes_dedicated_table_witness :
    (clk_hb_dac2hd_set_rate clk_hb_dac2hd_static_defaults 192000 clk_hb_dac2hd_drvdata_kzalloc
        ⟨fun _ => 0, []⟩).1 = Outcome.ok () ∧
    clk_hb_dac2hd_recalc_rate
      (clk_hb_dac2hd_set_rate clk_hb_dac2hd_static_defaults 192000
        clk_hb_dac2hd_drvdata_kzalloc ⟨fun _ => 0, []⟩).2.1 = 192000 ∧
    (clk_hb_dac2hd_set_rate clk_hb_dac2hd_static_defaults 192000 clk_hb_dac2hd_drvdata_kzalloc
        ⟨fun _ => 0, []⟩).2.2.log =
      [ClkOp.write 0x1A 0x0C, ClkOp.write 0x1B 0x35, ClkOp.write 0x1E 0xF0,
       ClkOp.write 0x20 0x09, ClkOp.write 0x21 0x50, ClkOp.write 0x2B 0x02,
       ClkOp.write 0x2D 0x10, ClkOp.write 0x2E 0x40, ClkOp.write 0x33 0x01,
       ClkOp.write 0x35 0x22, ClkOp.write 0x36 0x80, ClkOp.write 0x3C 0x22,
       ClkOp.write 0x3D 0x46, ClkOp.write 177 0xAC, ClkOp.usleep_range 9950 10050] ∧
    (clk_hb_dac2hd_set_rate clk_hb_dac2hd_static_defaults 44100 clk_hb_dac2hd_drvdata_kzalloc
        ⟨fun _ => 0, []⟩).2.2.log =
      [ClkOp.write 0x1A 0x3D, ClkOp.write 0x1B 0x09, ClkOp.write 0x1E 0xF3,
       ClkOp.write 0x20 0x13, ClkOp.write 0x21 0x75, ClkOp.write 0x2B 0x04,
       ClkOp.write 0x2D 0x11, ClkOp.write 0x2E 0xE0, ClkOp.write 0x33 0x01,
       ClkOp.write 0x35 0x9D, ClkOp.write 0x36 0x00, ClkOp.write 0x3C 0x42,
       ClkOp.write 0x3D 0x7A, ClkOp.write 177 0xAC, ClkOp.usleep_range 9950 10050] := by
  have h := (set_rate_writes_dedicated_table clk_hb_dac2hd_static_defaults
    clk_hb_dac2hd_drvdata_kzalloc ⟨fun _ => 0, []⟩ 192000).2.2 (fun _ _ => rfl)
  have h44 := ((set_rate_writes_dedicated_table clk_hb_dac2hd_static_defaults
    clk_hb_dac2hd_drvdata_kzalloc ⟨fun _ => 0, []⟩ 44100).1
      clk_hb_dac2hd_dedicated_44k1_pll_regs 13 (Or.inl ⟨rfl, rfl, rfl⟩) (by decide)
      (by decide) (fun _ _ => rfl)).1
  rw [h, h44]
  exact ⟨rfl, rfl, rfl, rfl⟩

/-- C12: for a supported target that differs from the stored rate, with `regs` its dedicated
table and `num` its counter, let the write of index `k` be the first that fails, returning a
negative errno as `regmap_write` does (`k < num` is a table write, `k = num` the soft-reset
write).  Then `clk_hb_dac2hd_set_rate` returns that errno and leaves the driver data as they
were, so that `clk_hb_dac2hd_recalc_rate` still returns the previous rate.  When a table write
fails the bus has seen the pairs `0..k` of the table and nothing else: no later pair and no
soft-reset write. -/
theorem set_rate_bus_failure (t : dac2hd_pll_regs) (drvdata : clk_hb_dac2hd_drvdata)
    (b : Bus ClkOp) (rate : Nat) (regs : List reg_default) (num k : Nat)
    (hsel : set_rate_pll_regs t rate = some (regs, num)) (hne : rate ≠ drvdata.rate)
    (hnum : num ≤ regs.length) (hk : k ≤ num)
    (hok : ∀ j, j < k → b.ret (b.log.length + j) = 0)
    (hfail : b.ret (b.log.length + k) < 0) :
    (clk_hb_dac2hd_set_rate t rate drvdata b).1 = Outcome.error (b.ret (b.log.length + k)) ∧
    (clk_hb_dac2hd_set_rate t rate drvdata b).2.1 = drvdata ∧
    clk_hb_dac2hd_recalc_rate (clk_hb_dac2hd_set_rate t rate drvdata b).2.1 =
      clk_hb_dac2hd_recalc_rate drvdata ∧
    (k < num → (clk_hb_dac2hd_set_rate t rate drvdata b).2.2.log =
      b.log ++ (regs.take (k + 1)).map reg_default.op) ∧
    (k = num → (clk_hb_dac2hd_set_rate t rate drvdata b).2.2.log =
      b.log ++ (regs.take num).map reg_default.op ++ [ClkOp.write 177 0xAC]) := by
  have hne0 : b.ret (b.log.length + k) ≠ 0 := by omega
  rw [set_rate_of_table t rate drvdata b regs num hne hsel]
  rcases Nat.lt_or_ge k num with hlt | hge
  · rw [write_pll_regs_reset_fail_table regs num k b hnum hlt hok hne0]
    dsimp only
    rw [if_pos hfail]
    exact ⟨rfl, rfl, rfl, fun _ => rfl, fun h => by omega⟩
  · have hkn : k = num := by omega
    subst hkn
    rw [write_pll_regs_reset_fail_reset regs k b hnum hok hne0]
    dsimp only
    rw [if_pos hfail]
    exact ⟨rfl, rfl, rfl, fun h => by omega, fun _ => rfl⟩

/-- C12, with the compiled-in tables on a bus whose third write fails with -5: the call for
48000 on driver data holding 44100 returns -5, the stored rate is still 44100, and the bus has
seen the first three pairs of the 48 kHz table only. -/
theorem set_rate_bus_failure_witness :
    (clk_hb_dac2hd_set_rate clk_hb_dac2hd_static_defaults 48000 { rate := 44100 }
        ⟨fun n => if n = 2 then -5 else 0, []⟩).1 = Outcome.error (-5) ∧
    clk_hb_dac2hd_recalc_rate
      (clk_hb_dac2hd_set_rate clk_hb_dac2hd_static_defaults 48000 { rate := 44100 }
        ⟨fun n => if n = 2 then -5 else 0, []⟩).2.1 = 44100 ∧
    (clk_hb_dac2hd_set_rate clk_hb_dac2hd_static_defaults 48000 { rate := 44100 }
        ⟨fun n => if n = 2 then -5 else 0, []⟩).2.2.log =
      [ClkOp.write 0x1A 0x0C, ClkOp.write 0x1B 0x35, ClkOp.write 0x1E 0xF0] := by
  have h := set_rate_bus_failure clk_hb_dac2hd_static_defaults { rate := 44100 }
    ⟨fun n => if n = 2 then -5 else 0, []⟩ 48000 clk_hb_dac2hd_dedicated_48k_pll_regs 13 2
    rfl (by decide) (by decide) (by decide)
    (fun j hj => by
      have hj2 : j = 0 ∨ j = 1 := by omega
      rcases hj2 with rfl | rfl <;> rfl)
    (by decide)
  exact ⟨h.1, h.2.2.1, h.2.2.2.1 (by decide)⟩

theorem set_rate_ok_rate (t : dac2hd_pll_regs) (rate : Nat) (drvdata : clk_hb_dac2hd_drvdata)
    (b : Bus ClkOp) (h : (clk_hb_dac2hd_set_rate t rate drvdata b).1 = Outcome.ok ()) :
    (clk_hb_dac2hd_set_rate t rate drvdata b).2.1.rate = rate := by
  by_cases hr : rate = drvdata.rate
  · unfold clk_hb_dac2hd_set_rate
    rw [if_pos hr]; exact hr.symm
  · cases hsel : set_rate_pll_regs t rate with
    | none =>
      unfold clk_hb_dac2hd_set_rate at h
      rw [if_neg hr, hsel] at h
      simp at h
    | some p =>
      obtain ⟨regs, num⟩ := p
      rw [set_rate_of_table t rate drvdata b regs num hr hsel] at h ⊢
      cases hw : clk_hb_dac2hd_write_pll_regs regs num true b with
      | mk o b1 =>
        rw [hw] at h
        cases o with
        | ok u => rfl
        | error e =>
          dsimp only at h
          split at h <;> simp at h
        | undefined => simp at h

/-- C13: after a call of `clk_hb_dac2hd_set_rate` for a rate `r` that has returned 0, a second
call for `r` returns 0 as well, issues no bus operation and leaves the driver data and the bus
as the first call left them; the stored rate is `r` throughout. -/
theorem set_rate_idempotent (t : dac2hd_pll_regs) (rate : Nat)
    (drvdata : clk_hb_dac2hd_drvdata) (b : Bus ClkOp)
    (h : (clk_hb_dac2hd_set_rate t rate drvdata b).1 = Outcome.ok ()) :
    clk_hb_dac2hd_set_rate t rate (clk_hb_dac2hd_set_rate t rate drvdata b).2.1
        (clk_hb_dac2hd_set_rate t rate drvdata b).2.2 =
      (Outcome.ok (), (clk_hb_dac2hd_set_rate t rate drvdata b).2.1,
        (clk_hb_dac2hd_set_rate t rate drvdata b).2.2) ∧
    clk_hb_dac2hd_recalc_rate (clk_hb_dac2hd_set_rate t rate drvdata b).2.1 = rate := by
  have hrate := set_rate_ok_rate t rate drvdata b h
  refine ⟨?_, hrate⟩
  generalize clk_hb_dac2hd_set_rate t rate drvdata b = s at hrate
  unfold clk_hb_dac2hd_set_rate
  rw [if_pos hrate.symm]

/-- C13, for 44100 with the compiled-in tables on a bus where every write succeeds: the first
call on the driver data as allocated returns 0 after 14 writes, and the second returns 0 with
the log and the stored rate unchanged. -/
theorem set_rate_idempotent_witness :
    (clk_hb_dac2hd_set_rate clk_hb_dac2hd_static_defaults 44100 clk_hb_dac2hd_drvdata_kzalloc
        ⟨fun _ => 0, []⟩).1 = Outcome.ok () ∧
    (clk_hb_dac2hd_set_rate clk_hb_dac2hd_static_defaults 44100 clk_hb_dac2hd_drvdata_kzalloc
        ⟨fun _ => 0, []⟩).2.2.log.length = 15 ∧
    clk_hb_dac2hd_set_rate clk_hb_dac2hd_static_defaults 44100
        (clk_hb_dac2hd_set_rate clk_hb_dac2hd_static_defaults 44100
          clk_hb_dac2hd_drvdata_kzalloc ⟨fun _ => 0, []⟩).2.1
        (clk_hb_dac2hd_set_rate clk_hb_dac2hd_static_defaults 44100
          clk_hb_dac2hd_drvdata_kzalloc ⟨fun _ => 0, []⟩).2.2 =
      (Outcome.ok (),
        (clk_hb_dac2hd_set_rate clk_hb_dac2hd_static_defaults 44100
          clk_hb_dac2hd_drvdata_kzalloc ⟨fun _ => 0, []⟩).2.1,
        (clk_hb_dac2hd_set_rate clk_hb_dac2hd_static_defaults 44100
          clk_hb_dac2hd_drvdata_kzalloc ⟨fun _ => 0, []⟩).2.2) :=
  ⟨rfl, rfl,
    (set_rate_idempotent clk_hb_dac2hd_static_defaults 44100 clk_hb_dac2hd_drvdata_kzalloc
      ⟨fun _ => 0, []⟩ rfl).1⟩

theorem set_rate_rate_cases (t : dac2hd_pll_regs) (rate : Nat)
    (drvdata : clk_hb_dac2hd_drvdata) (b : Bus ClkOp) :
    (clk_hb_dac2hd_set_rate t rate drvdata b).2.1.rate = drvdata.rate ∨
      ((clk_hb_dac2hd_set_rate t rate drvdata b).2.1.rate = rate ∧
        rate ∈ [44100, 48000, 88200, 96000, 176400, 192000]) := by
  by_cases hr : rate = drvdata.rate
  · unfold clk_hb_dac2hd_set_rate
    rw [if_pos hr]; exact Or.inl rfl
  · cases hsel : set_rate_pll_regs t rate with
    | none =>
      unfold clk_hb_dac2hd_set_rate
      rw [if_neg hr, hsel]
      exact Or.inl rfl
    | some p =>
      have hmem := (set_rate_pll_regs_some_iff t rate).mp (by rw [hsel]; rfl)
      obtain ⟨regs, num⟩ := p
      rw [set_rate_of_table t rate drvdata b regs num hr hsel]
      cases hw : clk_hb_dac2hd_write_pll_regs regs num true b with
      | mk o b1 =>
        cases o with
        | ok u => exact Or.inr ⟨rfl, hmem⟩
        | error e =>
          dsimp only
          split
          · exact Or.inl rfl
          · exact Or.inr ⟨rfl, hmem⟩
        | undefined => exact Or.inl rfl

theorem set_rates_rate (t : dac2hd_pll_regs) : ∀ (rates : List Nat)
    (s : clk_hb_dac2hd_drvdata × Bus ClkOp),
    (s.1.rate = 0 ∨ s.1.rate ∈ [44100, 48000, 88200, 96000, 176400, 192000]) →
    ((clk_hb_dac2hd_set_rates t rates s).1.rate = 0 ∨
      (clk_hb_dac2hd_set_rates t rates s).1.rate ∈
        [44100, 48000, 88200, 96000, 176400, 192000]) := by
  intro rates
  induction rates with
  | nil => intro s hs; exact hs
  | cons r rs ih =>
    intro s hs
    unfold clk_hb_dac2hd_set_rates
    apply ih
    rcases set_rate_rate_cases t r s.1 s.2 with h | ⟨h, hmem⟩
    · rw [h]; exact hs
    · rw [h]; exact Or.inr hmem

/-- C14, the case the claim misses: 0 is outside the six supported rates, and the call of
`clk_hb_dac2hd_set_rate` for 0 on the driver data as allocated, whose stored rate is 0, takes
the no-op return and returns 0, not `-EINVAL`. -/
theorem set_rate_zero_before_selection :
    0 ∉ [44100, 48000, 88200, 96000, 176400, 192000] ∧
    clk_hb_dac2hd_set_rates clk_hb_dac2hd_static_defaults []
        (clk_hb_dac2hd_drvdata_kzalloc, ⟨fun _ => 0, []⟩) =
      (clk_hb_dac2hd_drvdata_kzalloc, ⟨fun _ => 0, []⟩) ∧
    (clk_hb_dac2hd_set_rate clk_hb_dac2hd_static_defaults 0 clk_hb_dac2hd_drvdata_kzalloc
        ⟨fun _ => 0, []⟩).1 = Outcome.ok () ∧
    (clk_hb_dac2hd_set_rate clk_hb_dac2hd_static_defaults 0 clk_hb_dac2hd_drvdata_kzalloc
        ⟨fun _ => 0, []⟩).1 ≠ Outcome.error (-EINVAL) :=
  ⟨by decide, rfl, rfl, by decide⟩

/-- C14: let the target be outside the six supported rates.  In every state reached from the
driver data as allocated by a sequence of `clk_hb_dac2hd_set_rate` calls, on any bus, the
stored rate is 0 or one of the six, and a call for the target returns `-EINVAL`, issues no bus
operation and leaves the stored rate as it was, unless the target is the stored rate.  That
exception is the target 0 while the stored rate is still 0: a target other than 0 differs from
the stored rate, and so does every target outside the six, 0 included, once the stored rate is
not 0.  The same holds in any state: a target outside the six that differs from the stored
rate gets `-EINVAL` with nothing changed, and a target equal to the stored rate takes the
no-op return before the `switch`. -/
theorem set_rate_unknown_rate (t : dac2hd_pll_regs) (rate : Nat)
    (hout : rate ∉ [44100, 48000, 88200, 96000, 176400, 192000]) :
    (∀ (rates : List Nat) (b : Bus ClkOp),
      ((clk_hb_dac2hd_set_rates t rates (clk_hb_dac2hd_drvdata_kzalloc, b)).1.rate = 0 ∨
        (clk_hb_dac2hd_set_rates t rates (clk_hb_dac2hd_drvdata_kzalloc, b)).1.rate ∈
          [44100, 48000, 88200, 96000, 176400, 192000]) ∧
      (rate ≠ (clk_hb_dac2hd_set_rates t rates (clk_hb_dac2hd_drvdata_kzalloc, b)).1.rate →
        clk_hb_dac2hd_set_rate t rate
            (clk_hb_dac2hd_set_rates t rates (clk_hb_dac2hd_drvdata_kzalloc, b)).1
            (clk_hb_dac2hd_set_rates t rates (clk_hb_dac2hd_drvdata_kzalloc, b)).2 =
          (Outcome.error (-EINVAL),
            (clk_hb_dac2hd_set_rates t rates (clk_hb_dac2hd_drvdata_kzalloc, b)).1,
            (clk_hb_dac2hd_set_rates t rates (clk_hb_dac2hd_drvdata_kzalloc, b)).2)) ∧
      (rate ≠ 0 →
        rate ≠ (clk_hb_dac2hd_set_rates t rates (clk_hb_dac2hd_drvdata_kzalloc, b)).1.rate) ∧
      ((clk_hb_dac2hd_set_rates t rates (clk_hb_dac2hd_drvdata_kzalloc, b)).1.rate ≠ 0 →
        rate ≠ (clk_hb_dac2hd_set_rates t rates (clk_hb_dac2hd_drvdata_kzalloc, b)).1.rate)) ∧
    (∀ (drvdata : clk_hb_dac2hd_drvdata) (b1 : Bus ClkOp), rate ≠ drvdata.rate →
      clk_hb_dac2hd_set_rate t rate drvdata b1 = (Outcome.error (-EINVAL), drvdata, b1)) ∧
    (∀ (drvdata : clk_hb_dac2hd_drvdata) (b1 : Bus ClkOp), rate = drvdata.rate →
      clk_hb_dac2hd_set_rate t rate drvdata b1 = (Outcome.ok (), drvdata, b1)) := by
  have hnone : set_rate_pll_regs t rate = none := by
    cases hsel : set_rate_pll_regs t rate with
    | none => rfl
    | some p =>
      exact absurd ((set_rate_pll_regs_some_iff t rate).mp (by rw [hsel]; rfl)) hout
  have hany : ∀ (drvdata : clk_hb_dac2hd_drvdata) (b1 : Bus ClkOp), rate ≠ drvdata.rate →
      clk_hb_dac2hd_set_rate t rate drvdata b1 = (Outcome.error (-EINVAL), drvdata, b1) := by
    intro drvdata b1 hne
    unfold clk_hb_dac2hd_set_rate
    rw [if_neg hne, hnone]
  refine ⟨?_, hany, ?_⟩
  · intro rates b
    have hreach := set_rates_rate t rates (clk_hb_dac2hd_drvdata_kzalloc, b) (Or.inl rfl)
    refine ⟨hreach, fun hne => hany _ _ hne, ?_, ?_⟩
    · intro h0 heq
      rcases hreach with h | h
      · rw [h] at heq; exact h0 heq
      · rw [← heq] at h; exact hout h
    · intro hs heq
      rcases hreach with h | h
      · exact hs h
      · rw [← heq] at h; exact hout h
  · intro drvdata b1 heq
    unfold clk_hb_dac2hd_set_rate
    rw [if_pos heq]

/-- C14, for the targets 12345 and 0 with the compiled-in tables on a bus where every write
succeeds, after the calls for 192000 and 44100: each call returns `-EINVAL`, and the stored
rate and the log are those the two calls left. -/
theorem set_rate_unknown_rate_witness :
    12345 ∉ [44100, 48000, 88200, 96000, 176400, 192000] ∧
    clk_hb_dac2hd_set_rate clk_hb_dac2hd_static_defaults 12345
        (clk_hb_dac2hd_set_rates clk_hb_dac2hd_static_defaults [192000, 44100]
          (clk_hb_dac2hd_drvdata_kzalloc, ⟨fun _ => 0, []⟩)).1
        (clk_hb_dac2hd_set_rates clk_hb_dac2hd_static_defaults [192000, 44100]
          (clk_hb_dac2hd_drvdata_kzalloc, ⟨fun _ => 0, []⟩)).2 =
      (Outcome.error (-EINVAL),
        (clk_hb_dac2hd_set_rates clk_hb_dac2hd_static_defaults [192000, 44100]
          (clk_hb_dac2hd_drvdata_kzalloc, ⟨fun _ => 0, []⟩)).1,
        (clk_hb_dac2hd_set_rates clk_hb_dac2hd_static_defaults [192000, 44100]
          (clk_hb_dac2hd_drvdata_kzalloc, ⟨fun _ => 0, []⟩)).2) ∧
    clk_hb_dac2hd_set_rate clk_hb_dac2hd_static_defaults 0
        (clk_hb_dac2hd_set_rates clk_hb_dac2hd_static_defaults [192000, 44100]
          (clk_hb_dac2hd_drvdata_kzalloc, ⟨fun _ => 0, []⟩)).1
        (clk_hb_dac2hd_set_rates clk_hb_dac2hd_static_defaults [192000, 44100]
          (clk_hb_dac2hd_drvdata_kzalloc, ⟨fun _ => 0, []⟩)).2 =
      (Outcome.error (-EINVAL),
        (clk_hb_dac2hd_set_rates clk_hb_dac2hd_static_defaults [192000, 44100]
          (clk_hb_dac2hd_drvdata_kzalloc, ⟨fun _ => 0, []⟩)).1,
        (clk_hb_dac2hd_set_rates clk_hb_dac2hd_static_defaults [192000, 44100]
          (clk_hb_dac2hd_drvdata_kzalloc, ⟨fun _ => 0, []⟩)).2) ∧
    (clk_hb_dac2hd_set_rates clk_hb_dac2hd_static_defaults [192000, 44100]
      (clk_hb_dac2hd_drvdata_kzalloc, ⟨fun _ => 0, []⟩)).1.rate = 44100 :=
  ⟨by decide,
    ((set_rate_unknown_rate clk_hb_dac2hd_static_defaults 12345 (by decide)).1
      [192000, 44100] ⟨fun _ => 0, []⟩).2.1 (by decide),
    ((set_rate_unknown_rate clk_hb_dac2hd_static_defaults 0 (by decide)).1
      [192000, 44100] ⟨fun _ => 0, []⟩).2.1 (by decide), rfl⟩


/-! ## The claims about the overclock ceilings and controls -/

theorem pll_max_eq (w o : Nat) (hw : 32 ≤ w) (ho : 25000000 * o < 2 ^ w) :
    zpcm512x_pll_max_ w o = zpcm512x_pll_max o := by
  have h32 : 2 ^ 32 ≤ 2 ^ w := Nat.pow_le_pow_right (by decide) hw
  unfold zpcm512x_pll_max_ zpcm512x_pll_max
  rw [Nat.mod_eq_of_lt ho]
  apply Nat.mod_eq_of_lt
  generalize 2 ^ w = N at h32 ho
  norm_num at h32
  omega

/-- C16, where the claim fails: on a kernel with a 32-bit `unsigned long` the product
`25000000 * overclock_pll` wraps from 172 on, so that the ceiling is 67750000 at 171 and
25050327 at 172: it has decreased, and it is not `25000000 + 25000000 * 172 / 100`.  With 64
bits the same happens between 737869762948 and 737869762949.  The control handler stores such
a value when the bias level allows the change. -/
theorem pll_max_wraps :
    zpcm512x_pll_max_ 32 171 = 67750000 ∧ zpcm512x_pll_max_ 32 172 = 25050327 ∧
    ¬ (zpcm512x_pll_max_ 32 171 ≤ zpcm512x_pll_max_ 32 172) ∧
    zpcm512x_pll_max_ 32 172 ≠ 25000000 + 25000000 * 172 / 100 ∧
    zpcm512x_pll_max_ 64 737869762948 = 184467440762000000 ∧
    zpcm512x_pll_max_ 64 737869762949 = 25154483 ∧
    ¬ (zpcm512x_pll_max_ 64 737869762948 ≤ zpcm512x_pll_max_ 64 737869762949) ∧
    (zpcm512x_overclock_pll_put snd_soc_bias_level.STANDBY ⟨3, 4, 0, 0, 0, 0, 24576000, false⟩
      172).2.overclock_pll = 172 := by
  decide

/-- C16: for an `unsigned long` of `w` bits, `w` at least 32, and stored percentages
`a ≤ b` with `25000000 * b` below `2 ^ w` (every `b` up to 171, so the whole range 0..20 of
the mixer control), the ceiling `zpcm512x_pll_max_` does not decrease from `a` to `b`, and at
`a` and at `b` it is `25000000 + 25000000 * overclock_pll / 100`, which is
`25000000 + 250000 * overclock_pll` and the value of `zpcm512x_pll_max`: 25 MHz at an
overclock of 0 and 30 MHz at 20. -/
theorem pll_max_monotone (w a b : Nat) (hw : 32 ≤ w) (h : a ≤ b)
    (hfit : 25000000 * b < 2 ^ w) :
    zpcm512x_pll_max_ w a ≤ zpcm512x_pll_max_ w b ∧
    zpcm512x_pll_max_ w a = 25000000 + 25000000 * a / 100 ∧
    zpcm512x_pll_max_ w b = 25000000 + 25000000 * b / 100 ∧
    zpcm512x_pll_max_ w a = 25000000 + 250000 * a ∧
    zpcm512x_pll_max_ w b = 25000000 + 250000 * b ∧
    zpcm512x_pll_max_ w a = zpcm512x_pll_max a ∧
    zpcm512x_pll_max_ w b = zpcm512x_pll_max b ∧
    zpcm512x_pll_max_ w 0 = 25000000 ∧ zpcm512x_pll_max_ w 20 = 30000000 ∧
    (b ≤ 171 → 25000000 * b < 2 ^ 32) := by
  have h32 : 2 ^ 32 ≤ 2 ^ w := Nat.pow_le_pow_right (by decide) hw
  have hfita : 25000000 * a < 2 ^ w :=
    Nat.lt_of_le_of_lt (Nat.mul_le_mul_left _ h) hfit
  have hlin : ∀ o, zpcm512x_pll_max o = 25000000 + 250000 * o := by
    intro o
    unfold zpcm512x_pll_max
    omega
  have ha := pll_max_eq w a hw hfita
  have hb := pll_max_eq w b hw hfit
  have h0 := pll_max_eq w 0 hw (Nat.lt_of_lt_of_le (by decide) h32)
  have h20 := pll_max_eq w 20 hw (Nat.lt_of_lt_of_le (by decide) h32)
  refine ⟨?_, ha, hb, ?_, ?_, ha, hb, ?_, ?_, ?_⟩
  · rw [ha, hb, hlin a, hlin b]; omega
  · rw [ha, hlin a]
  · rw [hb, hlin b]
  · rw [h0]; rfl
  · rw [h20]; rfl
  · intro hb171
    norm_num
    omega

/-- C16, on a 32-bit kernel over the range of the mixer control: the ceiling is 25 MHz at 0
and 30 MHz at 20, and it does not decrease between them. -/
theorem pll_max_monotone_witness :
    32 ≤ 32 ∧ 0 ≤ 20 ∧ 25000000 * 20 < 2 ^ 32 ∧
    zpcm512x_pll_max_ 32 0 ≤ zpcm512x_pll_max_ 32 20 ∧
    zpcm512x_pll_max_ 32 0 = 25000000 ∧ zpcm512x_pll_max_ 32 20 = 30000000 :=
  ⟨by decide, by decide, by decide,
    (pll_max_monotone 32 0 20 (by decide) (by decide) (by decide)).1, by decide, by decide⟩

/-- C17: when the bias level of the component is neither `SND_SOC_BIAS_OFF` nor
`SND_SOC_BIAS_STANDBY`, each of `zpcm512x_overclock_pll_put`, `zpcm512x_overclock_dsp_put` and
`zpcm512x_overclock_dac_put` returns `-EBUSY` and leaves the private data, with the three
overclock values, as they were.  When it is one of the two, each returns 0 with the new value
in its own field and every other field as it was. -/
theorem overclock_put_guard (level : snd_soc_bias_level) (priv : zpcm512x_priv) (value : Nat) :
    (level ≠ snd_soc_bias_level.OFF → level ≠ snd_soc_bias_level.STANDBY →
      zpcm512x_overclock_pll_put level priv value = (Outcome.error (-EBUSY), priv) ∧
      zpcm512x_overclock_dsp_put level priv value = (Outcome.error (-EBUSY), priv) ∧
      zpcm512x_overclock_dac_put level priv value = (Outcome.error (-EBUSY), priv)) ∧
    (level = snd_soc_bias_level.OFF ∨ level = snd_soc_bias_level.STANDBY →
      (zpcm512x_overclock_pll_put level priv value =
          (Outcome.ok (), { priv with overclock_pll := value }) ∧
        (zpcm512x_overclock_pll_put level priv value).2.overclock_pll = value ∧
        (zpcm512x_overclock_pll_put level priv value).2.overclock_dsp = priv.overclock_dsp ∧
        (zpcm512x_overclock_pll_put level priv value).2.overclock_dac = priv.overclock_dac) ∧
      (zpcm512x_overclock_dsp_put level priv value =
          (Outcome.ok (), { priv with overclock_dsp := value }) ∧
        (zpcm512x_overclock_dsp_put level priv value).2.overclock_pll = priv.overclock_pll ∧
        (zpcm512x_overclock_dsp_put level priv value).2.overclock_dsp = value ∧
        (zpcm512x_overclock_dsp_put level priv value).2.overclock_dac = priv.overclock_dac) ∧
      (zpcm512x_overclock_dac_put level priv value =
          (Outcome.ok (), { priv with overclock_dac := value }) ∧
        (zpcm512x_overclock_dac_put level priv value).2.overclock_pll = priv.overclock_pll ∧
        (zpcm512x_overclock_dac_put level priv value).2.overclock_dsp = priv.overclock_dsp ∧
        (zpcm512x_overclock_dac_put level priv value).2.overclock_dac = value)) := by
  constructor
  · intro h1 h2
    cases level with
    | OFF => exact absurd rfl h1
    | STANDBY => exact absurd rfl h2
    | PREPARE => exact ⟨rfl, rfl, rfl⟩
    | ON => exact ⟨rfl, rfl, rfl⟩
  · intro h
    rcases h with rfl | rfl
    · exact ⟨⟨rfl, rfl, rfl, rfl⟩, ⟨rfl, rfl, rfl, rfl⟩, ⟨rfl, rfl, rfl, rfl⟩⟩
    · exact ⟨⟨rfl, rfl, rfl, rfl⟩, ⟨rfl, rfl, rfl, rfl⟩, ⟨rfl, rfl, rfl, rfl⟩⟩

/-- C17, for private data holding the overclock values 5 (PLL), 7 (DSP) and 6 (DAC): with the
bias level `SND_SOC_BIAS_ON` a put of 10 to the PLL control returns `-EBUSY` and changes
nothing; with `SND_SOC_BIAS_STANDBY` a put of 10 to the DSP control returns 0 and leaves 5, 10
and 6 as the PLL, DSP and DAC values. -/
theorem overclock_put_guard_witness :
    zpcm512x_overclock_pll_put snd_soc_bias_level.ON ⟨3, 4, 5, 6, 7, 0, 24576000, false⟩ 10 =
      (Outcome.error (-EBUSY), ⟨3, 4, 5, 6, 7, 0, 24576000, false⟩) ∧
    zpcm512x_overclock_dsp_put snd_soc_bias_level.STANDBY
        ⟨3, 4, 5, 6, 7, 0, 24576000, false⟩ 10 =
      (Outcome.ok (), ⟨3, 4, 5, 6, 10, 0, 24576000, false⟩) :=
  ⟨((overclock_put_guard snd_soc_bias_level.ON ⟨3, 4, 5, 6, 7, 0, 24576000, false⟩ 10).1
      (by decide) (by decide)).1,
   ((overclock_put_guard snd_soc_bias_level.STANDBY ⟨3, 4, 5, 6, 7, 0, 24576000, false⟩ 10).2
      (Or.inr rfl)).2.1.1⟩

/-! ## The claims about the start of the SCK search and the rate rule -/

theorem fls_from_spec (x : Nat) : ∀ n : Nat, x < 2 ^ n →
    (x = 0 → fls_from x n = 0) ∧
    (0 < x → 1 ≤ fls_from x n ∧ 2 ^ (fls_from x n - 1) ≤ x ∧ x < 2 ^ fls_from x n) := by
  intro n
  induction n with
  | zero =>
    intro h
    have hx : x = 0 := by simpa using h
    exact ⟨fun _ => rfl, fun hpos => by omega⟩
  | succ n ih =>
    intro h
    unfold fls_from
    by_cases hle : 2 ^ n ≤ x
    · rw [if_pos hle]
      have hp : 0 < 2 ^ n := Nat.two_pow_pos n
      refine ⟨fun h0 => by omega, fun _ => ⟨by omega, ?_, h⟩⟩
      rw [Nat.add_sub_cancel]
      exact hle
    · rw [if_neg hle]
      exact ih (by omega)

theorem floor_log2_from_succ (x : Nat) : ∀ n : Nat, 0 < x → x < 2 ^ n →
    floor_log2_from x n + 1 = fls_from x n := by
  intro n
  induction n with
  | zero =>
    intro hpos h
    have hx : x = 0 := by simpa using h
    omega
  | succ n ih =>
    intro hpos h
    unfold floor_log2_from fls_from
    by_cases hle : 2 ^ n ≤ x
    · rw [if_pos hle, if_pos hle]
    · rw [if_neg hle, if_neg hle]
      exact ih hpos (by omega)

theorem find_sck_loop_first (pll_max bclk_rate : Nat) : ∀ k : Nat,
    (find_sck_loop pll_max bclk_rate k = 0 ∧
      ∀ i, i < k → rounddown pll_max (bclk_rate * 2 ^ i) < 16000000) ∨
    (∃ j, j < k ∧ find_sck_loop pll_max bclk_rate k = rounddown pll_max (bclk_rate * 2 ^ j) ∧
      16000000 ≤ rounddown pll_max (bclk_rate * 2 ^ j) ∧
      ∀ i, j < i → i < k → rounddown pll_max (bclk_rate * 2 ^ i) < 16000000) := by
  intro k
  induction k with
  | zero => exact Or.inl ⟨rfl, fun i hi => by omega⟩
  | succ k ih =>
    unfold find_sck_loop
    simp only [Nat.one_shiftLeft]
    by_cases hge : rounddown pll_max (bclk_rate * 2 ^ k) ≥ 16000000
    · rw [if_pos hge]
      exact Or.inr ⟨k, by omega, rfl, hge, fun i h1 h2 => by omega⟩
    · rw [if_neg hge]
      rcases ih with ⟨h0, hall⟩ | ⟨j, hj, heq, hq, hall⟩
      · refine Or.inl ⟨h0, fun i hi => ?_⟩
        rcases Nat.lt_or_ge i k with h | h
        · exact hall i h
        · have : i = k := by omega
          subst this
          omega
      · refine Or.inr ⟨j, by omega, heq, hq, fun i h1 h2 => ?_⟩
        rcases Nat.lt_or_ge i k with h | h
        · exact hall i h1 h
        · have : i = k := by omega
          subst this
          omega

/-- C20, the start the claim misses: at `bclk_rate = 2304000` (48 kHz frames of 48 bits) with
the ceiling of 25 MHz the quotient `(pll_max - 16000000) / bclk_rate` is 3.  The largest power of
two not exceeding 3 is 2, but the source starts at `1 << fls(3) = 4`, finds
`rounddown(25000000, 2304000 * 4) = 18432000` and returns it, while the search started at 2
returns `rounddown(25000000, 2304000 * 2) = 23040000`. -/
theorem find_sck_start_not_largest_pow2 :
    (zpcm512x_pll_max 0 - 16000000) / 2304000 = 3 ∧
    1 <<< fls 3 = 4 ∧ 1 <<< floor_log2 3 = 2 ∧
    zpcm512x_find_sck 0 2304000 = 18432000 ∧
    find_sck_from_largest_pow2 0 2304000 = 23040000 := by
  decide

/-- C20: with `q = (pll_max - 16000000) / bclk_rate`, `zpcm512x_find_sck` starts its search at
`pow2 = 1 << fls(q)`, the smallest power of two above `q`: `q < 2 ^ fls(q)`, and for `q > 0`
it is twice the largest power of two not exceeding `q` (`2 ^ fls(q) <= 2 * q` and
`fls(q) = floor(log2(q)) + 1`), while for `q = 0` it is 1.  From there it halves `pow2` and
returns, for the first `pow2 = 2 ^ j` that qualifies, `rounddown(pll_max, bclk_rate * pow2)`,
which is at least 16 MHz; it returns 0 when no `pow2` from the start down to 1 qualifies. -/
theorem find_sck_search_order (overclock_pll bclk_rate : Nat) (ho : overclock_pll ≤ 100)
    (_hb : 0 < bclk_rate) :
    (zpcm512x_pll_max overclock_pll - 16000000) / bclk_rate <
      2 ^ fls ((zpcm512x_pll_max overclock_pll - 16000000) / bclk_rate) ∧
    (0 < (zpcm512x_pll_max overclock_pll - 16000000) / bclk_rate →
      2 ^ fls ((zpcm512x_pll_max overclock_pll - 16000000) / bclk_rate) ≤
        2 * ((zpcm512x_pll_max overclock_pll - 16000000) / bclk_rate) ∧
      fls ((zpcm512x_pll_max overclock_pll - 16000000) / bclk_rate) =
        floor_log2 ((zpcm512x_pll_max overclock_pll - 16000000) / bclk_rate) + 1) ∧
    ((zpcm512x_pll_max overclock_pll - 16000000) / bclk_rate = 0 →
      fls ((zpcm512x_pll_max overclock_pll - 16000000) / bclk_rate) = 0) ∧
    ((zpcm512x_find_sck overclock_pll bclk_rate = 0 ∧
        ∀ i, i ≤ fls ((zpcm512x_pll_max overclock_pll - 16000000) / bclk_rate) →
          rounddown (zpcm512x_pll_max overclock_pll) (bclk_rate * 2 ^ i) < 16000000) ∨
      (∃ j, j ≤ fls ((zpcm512x_pll_max overclock_pll - 16000000) / bclk_rate) ∧
        zpcm512x_find_sck overclock_pll bclk_rate =
          rounddown (zpcm512x_pll_max overclock_pll) (bclk_rate * 2 ^ j) ∧
        16000000 ≤ zpcm512x_find_sck overclock_pll bclk_rate ∧
        ∀ i, j < i → i ≤ fls ((zpcm512x_pll_max overclock_pll - 16000000) / bclk_rate) →
          rounddown (zpcm512x_pll_max overclock_pll) (bclk_rate * 2 ^ i) < 16000000)) := by
  have hq32 : (zpcm512x_pll_max overclock_pll - 16000000) / bclk_rate < 2 ^ 32 := by
    have h1 : (zpcm512x_pll_max overclock_pll - 16000000) / bclk_rate ≤
        zpcm512x_pll_max overclock_pll - 16000000 := Nat.div_le_self _ _
    have h2 : zpcm512x_pll_max overclock_pll = 25000000 + 250000 * overclock_pll := by
      unfold zpcm512x_pll_max
      omega
    have h3 : (2 : Nat) ^ 32 = 4294967296 := by norm_num
    omega
  have hfind : zpcm512x_find_sck overclock_pll bclk_rate =
      find_sck_loop (zpcm512x_pll_max overclock_pll) bclk_rate
        (fls ((zpcm512x_pll_max overclock_pll - 16000000) / bclk_rate) + 1) := rfl
  have hloop := find_sck_loop_first (zpcm512x_pll_max overclock_pll) bclk_rate
    (fls ((zpcm512x_pll_max overclock_pll - 16000000) / bclk_rate) + 1)
  rw [← hfind] at hloop
  clear hfind
  generalize (zpcm512x_pll_max overclock_pll - 16000000) / bclk_rate = q at hq32 hloop ⊢
  obtain ⟨hz, hp⟩ := fls_from_spec q 32 hq32
  refine ⟨?_, ?_, hz, ?_⟩
  · rcases Nat.eq_zero_or_pos q with h0 | hpos
    · subst h0
      exact Nat.two_pow_pos _
    · exact (hp hpos).2.2
  · intro hpos
    obtain ⟨h1, h2, _⟩ := hp hpos
    refine ⟨?_, (floor_log2_from_succ q 32 hpos hq32).symm⟩
    show 2 ^ fls_from q 32 ≤ 2 * q
    obtain ⟨m, hm⟩ : ∃ m, fls_from q 32 = m + 1 := ⟨fls_from q 32 - 1, by omega⟩
    rw [hm] at h2 ⊢
    rw [Nat.add_sub_cancel] at h2
    rw [Nat.pow_succ]
    omega
  · rcases hloop with ⟨h0, hall⟩ | ⟨j, hj, heq, hge, hall⟩
    · exact Or.inl ⟨h0, fun i hi => hall i (by omega)⟩
    · exact Or.inr ⟨j, by omega, heq, by rw [heq]; exact hge,
        fun i h1 h2 => hall i h1 (by omega)⟩

/-- C20, at `bclk_rate = 2304000` with the ceiling of 25 MHz, where `q = 3` and `fls(q) = 2`:
the search starts at `pow2 = 4`, which qualifies at once, and 18432000 is returned. -/
theorem find_sck_search_order_witness :
    zpcm512x_find_sck 0 2304000 = 18432000 ∧
    (zpcm512x_pll_max 0 - 16000000) / 2304000 <
      2 ^ fls ((zpcm512x_pll_max 0 - 16000000) / 2304000) ∧
    fls ((zpcm512x_pll_max 0 - 16000000) / 2304000) = 2 ∧
    rounddown (zpcm512x_pll_max 0) (2304000 * 2 ^ 2) = 18432000 :=
  ⟨by decide, (find_sck_search_order 0 2304000 (by decide) (by decide)).1, by decide,
    by decide⟩

theorem find_sck_ne_zero_iff (overclock_pll bclk_rate : Nat) :
    zpcm512x_find_sck overclock_pll bclk_rate ≠ 0 ↔
      16000000 ≤ rounddown (zpcm512x_pll_max overclock_pll) bclk_rate := by
  unfold zpcm512x_find_sck
  constructor
  · intro h
    by_contra hc
    obtain ⟨h1, h2, m, hm⟩ := find_sck_loop_result _ _ _ h
    rcases Nat.eq_zero_or_pos bclk_rate with hb | hb
    · subst hb
      rw [Nat.zero_mul] at hm
      omega
    · exact hc ((multiple_in_range_iff _ _ hb).mp
        ⟨m, by rw [Nat.mul_comm, ← hm]; exact h1, by rw [Nat.mul_comm, ← hm]; exact h2⟩)
  · intro h
    have := find_sck_loop_last _ _ h
      (fls ((zpcm512x_pll_max overclock_pll - 16000000) / bclk_rate))
    omega

theorem rounddown_window (pll_max bclk_rate : Nat) (hpm : 24000000 ≤ pll_max)
    (hb : 0 < bclk_rate) (hbm : bclk_rate ≤ pll_max) :
    16000000 ≤ rounddown pll_max bclk_rate ↔
      (2 * bclk_rate ≤ pll_max ∨ 16000000 ≤ bclk_rate) := by
  rw [rounddown_eq_mul]
  have hdm := Nat.div_add_mod pll_max bclk_rate
  have hmod := Nat.mod_lt pll_max hb
  constructor
  · intro h
    by_contra hc
    have hq : pll_max / bclk_rate < 2 := (Nat.div_lt_iff_lt_mul hb).mpr (by omega)
    have hle : bclk_rate * (pll_max / bclk_rate) ≤ bclk_rate * 1 :=
      Nat.mul_le_mul_left _ (by omega)
    omega
  · intro h
    rcases h with h | h
    · have hq : 2 ≤ pll_max / bclk_rate := (Nat.le_div_iff_mul_le hb).mpr h
      have hle : bclk_rate * 2 ≤ bclk_rate * (pll_max / bclk_rate) :=
        Nat.mul_le_mul_left _ hq
      omega
    · have hq : 1 ≤ pll_max / bclk_rate := (Nat.le_div_iff_mul_le hb).mpr (by omega)
      have hle : bclk_rate * 1 ≤ bclk_rate * (pll_max / bclk_rate) :=
        Nat.mul_le_mul_left _ hq
      omega

/-- C18: in PLL mode, where `zpcm512x_dai_startup_master` installs the rule, and for every
overclock percentage, the rate constraint of `zpcm512x_hw_rule_rate` describes the rates in
`[8000, 384000]` for which `zpcm512x_find_sck` succeeds.  For a frame size of 32 the rule leaves
the rates alone, and `zpcm512x_find_sck(32 * rate)` is non-zero for every such rate.  For a
frame size `F` of 48 or 64 the rule passes the ranges `[8000, zpcm512x_sck_max / F / 2]` and
`[DIV_ROUND_UP(16000000, F), 384000]`, and `zpcm512x_find_sck(F * rate)` is non-zero if and only
if `rate <= zpcm512x_sck_max / F / 2` or `rate >= DIV_ROUND_UP(16000000, F)`, that is, if and
only if one of the two ranges contains the rate. -/
theorem hw_rule_rate_matches_find_sck (priv : zpcm512x_priv) (hpll : priv.pll_out ≠ 0)
    (rate : Nat) (hlo : 8000 ≤ rate) (hhi : rate ≤ 384000) :
    (zpcm512x_hw_rule_rate priv 32 = Outcome.ok none ∧
      zpcm512x_find_sck priv.overclock_pll (32 * rate) ≠ 0) ∧
    (∀ F, F = 48 ∨ F = 64 →
      zpcm512x_hw_rule_rate priv F =
        Outcome.ok (some
          [{ min := 8000, max := zpcm512x_sck_max priv / F / 2 },
           { min := DIV_ROUND_UP 16000000 F, max := 384000 }]) ∧
      (zpcm512x_find_sck priv.overclock_pll (F * rate) ≠ 0 ↔
        (rate ≤ zpcm512x_sck_max priv / F / 2 ∨ DIV_ROUND_UP 16000000 F ≤ rate)) ∧
      (zpcm512x_find_sck priv.overclock_pll (F * rate) ≠ 0 ↔
        hw_rule_rate_admits (some
          [{ min := 8000, max := zpcm512x_sck_max priv / F / 2 },
           { min := DIV_ROUND_UP 16000000 F, max := 384000 }]) rate = true)) := by
  have hmax : zpcm512x_sck_max priv = zpcm512x_pll_max priv.overclock_pll := by
    unfold zpcm512x_sck_max
    rw [if_neg hpll]
  have hlin : zpcm512x_pll_max priv.overclock_pll = 25000000 + 250000 * priv.overclock_pll := by
    unfold zpcm512x_pll_max
    omega
  have hkey : ∀ F, F = 32 ∨ F = 48 ∨ F = 64 →
      (zpcm512x_find_sck priv.overclock_pll (F * rate) ≠ 0 ↔
        (2 * (F * rate) ≤ zpcm512x_pll_max priv.overclock_pll ∨ 16000000 ≤ F * rate)) := by
    intro F hF
    rw [find_sck_ne_zero_iff]
    apply rounddown_window
    · omega
    · rcases hF with rfl | rfl | rfl <;> omega
    · rcases hF with rfl | rfl | rfl <;> omega
  refine ⟨⟨rfl, ?_⟩, ?_⟩
  · rw [hkey 32 (Or.inl rfl)]
    omega
  · intro F hF
    have hiff : zpcm512x_find_sck priv.overclock_pll (F * rate) ≠ 0 ↔
        (rate ≤ zpcm512x_sck_max priv / F / 2 ∨ DIV_ROUND_UP 16000000 F ≤ rate) := by
      rw [hkey F (Or.inr hF), hmax]
      unfold DIV_ROUND_UP
      rcases hF with rfl | rfl <;> omega
    refine ⟨?_, hiff, ?_⟩
    · rcases hF with rfl | rfl <;> rfl
    · rw [hiff]
      unfold hw_rule_rate_admits
      simp only [List.any_cons, List.any_nil, Bool.or_false, Bool.or_eq_true, decide_eq_true_eq]
      omega

/-- C18, in PLL mode without overclock at frames of 64 bits: the rule passes the ranges
`[8000, 195312]` and `[250000, 384000]`; 192000 lies in the first and `zpcm512x_find_sck`
returns 24576000 for it, 200000 lies in the hole and `zpcm512x_find_sck` returns 0. -/
theorem hw_rule_rate_matches_find_sck_witness :
    zpcm512x_hw_rule_rate ⟨3, 4, 0, 0, 0, 0, 24576000, false⟩ 64 =
      Outcome.ok (some [{ min := 8000, max := 195312 }, { min := 250000, max := 384000 }]) ∧
    zpcm512x_find_sck 0 (64 * 192000) = 24576000 ∧ zpcm512x_find_sck 0 (64 * 200000) = 0 ∧
    (zpcm512x_find_sck 0 (64 * 200000) ≠ 0 ↔
      (200000 ≤ zpcm512x_sck_max ⟨3, 4, 0, 0, 0, 0, 24576000, false⟩ / 64 / 2 ∨
        DIV_ROUND_UP 16000000 64 ≤ 200000)) :=
  ⟨by decide, by decide, by decide,
    ((hw_rule_rate_matches_find_sck ⟨3, 4, 0, 0, 0, 0, 24576000, false⟩ (by decide) 200000
      (by decide) (by decide)).2 64 (Or.inr rfl)).2.1⟩


/-! ## The claim about the IDAC value -/

theorem set_dividers_ok_inv (priv : zpcm512x_priv) (params : snd_pcm_hw_params)
    (b b' : Bus BusOp) (d : Dividers)
    (h : zpcm512x_set_dividers priv params b = (Outcome.ok d, b')) :
    ∃ (lrclk_div : Nat) (k : ClockSel) (b1 : Bus BusOp) (src : Nat × Nat) (b2 : Bus BusOp),
      set_dividers_lrclk_div priv params = Outcome.ok lrclk_div ∧
      set_dividers_clock priv params lrclk_div b = (Outcome.ok k, b1) ∧
      k.bclk_div ≤ 128 ∧ k.bclk_div ≠ 0 ∧
      set_dividers_dac_source priv k.sck_rate (16 * (k.sck_rate / k.bclk_div / lrclk_div))
        k.pllin_rate b1 = (Outcome.ok src, b2) ∧
      set_dividers_compute priv lrclk_div k (k.sck_rate / k.bclk_div / lrclk_div)
        (16 * (k.sck_rate / k.bclk_div / lrclk_div))
        (if k.mck_rate > zpcm512x_dsp_max priv.overclock_dsp then 2 else 1) src.1 src.2 =
          Outcome.ok d ∧
      set_dividers_write d b2 = (Outcome.ok (), b') := by
  unfold zpcm512x_set_dividers at h
  rw [Drv.bind_eq] at h
  obtain ⟨lrclk_div, b0, hl0, h1⟩ := Drv.bind_ok_inv _ _ _ _ _ h
  clear h
  obtain ⟨hl, hb0⟩ := Drv.lift_ok_inv _ _ _ _ hl0
  clear hl0
  subst hb0
  rw [Drv.bind_eq] at h1
  obtain ⟨k, b1, hk, h2⟩ := Drv.bind_ok_inv _ _ _ _ _ h1
  clear h1
  unfold set_dividers_chain at h2
  split at h2
  · simp [Drv.lift] at h2
  · rename_i hb128
    split at h2
    · simp [Drv.lift] at h2
    · rename_i hbz
      simp only [Drv.bind_eq] at h2
      obtain ⟨src, b2, hsrc, h3⟩ := Drv.bind_ok_inv _ _ _ _ _ h2
      clear h2
      obtain ⟨d', b3, hd0, h4⟩ := Drv.bind_ok_inv _ _ _ _ _ h3
      clear h3
      obtain ⟨hd', hb3⟩ := Drv.lift_ok_inv _ _ _ _ hd0
      clear hd0
      subst hb3
      obtain ⟨u, b4, hw, h5⟩ := Drv.bind_ok_inv _ _ _ _ _ h4
      clear h4
      obtain ⟨hdd, hb4⟩ := Drv.ret_ok_inv _ _ _ _ h5
      clear h5
      subst hdd hb4
      exact ⟨lrclk_div, k, b1, src, b3, hl, hk, Nat.le_of_not_gt hb128, hbz, hsrc, hd', hw⟩

theorem set_dividers_clock_mck (priv : zpcm512x_priv) (params : snd_pcm_hw_params)
    (lrclk_div : Nat) (b b' : Bus BusOp) (k : ClockSel)
    (h : set_dividers_clock priv params lrclk_div b = (Outcome.ok k, b')) :
    (priv.pll_out = 0 → k.sck_rate = priv.sclk_rate ∧ k.mck_rate = k.sck_rate ∧
      k.coeff = none) ∧
    (priv.pll_out ≠ 0 →
      k.sck_rate = zpcm512x_find_sck priv.overclock_pll (snd_soc_params_to_bclk params) ∧
      ∃ c, zpcm512x_find_pll_coeff priv.sclk_rate (4 * k.sck_rate) = Outcome.ok c ∧
        k.coeff = some c ∧ k.mck_rate = c.real_pll) := by
  unfold set_dividers_clock at h
  split at h
  · rename_i hp
    obtain ⟨h, _⟩ := Drv.lift_ok_inv _ _ _ _ h
    unfold set_dividers_no_pll at h
    simp only at h
    split at h
    · simp at h
    · simp only [Outcome.ok.injEq] at h
      subst h
      exact ⟨fun _ => ⟨rfl, rfl, rfl⟩, fun hne => absurd hp hne⟩
  · rename_i hp
    unfold set_dividers_pll at h
    simp only at h
    split at h
    · simp [Drv.lift] at h
    · split at h
      · simp [Drv.lift] at h
      · cases hc : zpcm512x_find_pll_coeff priv.sclk_rate
            (4 * zpcm512x_find_sck priv.overclock_pll (snd_soc_params_to_bclk params)) with
        | undefined => rw [hc] at h; simp [Drv.lift] at h
        | error e => rw [hc] at h; simp [Drv.lift] at h
        | ok c =>
          rw [hc] at h
          simp only [Drv.bind_eq] at h
          obtain ⟨_, b1, _, h⟩ := Drv.bind_ok_inv _ _ _ _ _ h
          obtain ⟨hk, _⟩ := Drv.ret_ok_inv _ _ _ _ h
          subst hk
          exact ⟨fun h0 => absurd h0 hp, fun _ => ⟨rfl, c, hc, rfl, rfl⟩⟩

theorem set_dividers_compute_fields (priv : zpcm512x_priv) (lrclk_div : Nat) (k : ClockSel)
    (sample_rate osr_rate dsp_div dac_rate0 dacsrc_rate : Nat) (d : Dividers)
    (h : set_dividers_compute priv lrclk_div k sample_rate osr_rate dsp_div dac_rate0
      dacsrc_rate = Outcome.ok d) :
    d.sck_rate = k.sck_rate ∧ d.mck_rate = k.mck_rate ∧ d.coeff = k.coeff ∧
    d.idac = k.mck_rate / (dsp_div * sample_rate) := by
  unfold set_dividers_compute at h
  simp only at h
  split at h
  · simp at h
  · split at h
    · simp at h
    · split at h
      · simp at h
      · cases hn : set_dividers_ncp_div priv
            (dacsrc_rate / DIV_ROUND_CLOSEST dacsrc_rate dac_rate0) with
        | undefined => rw [hn] at h; simp at h
        | error e => rw [hn] at h; simp at h
        | ok ncp =>
          rw [hn] at h
          simp only [Outcome.ok.injEq] at h
          subst h
          exact ⟨rfl, rfl, rfl, rfl⟩

/-- C15: whenever `zpcm512x_set_dividers` returns success, the `idac` value is the integer
quotient `mck_rate / (dsp_div * sample_rate)`, whose divisor is positive, with
`sample_rate = sck_rate / bclk_div / lrclk_div`; `mck_rate` is `sck_rate`, the rate of the
SCLK clock, without PLL, and the `real_pll` of the coefficients the solver has found for
`4 * sck_rate` in PLL mode.  It is written as `idac >> 8` to `IDAC_1` and `idac & 0xff` to
`IDAC_2`, the two writes before the last operation of the run; these are `idac / 256` and
`idac % 256`, from which `idac` is recovered. -/
theorem set_dividers_idac (priv : zpcm512x_priv) (params : snd_pcm_hw_params)
    (b b' : Bus BusOp) (d : Dividers)
    (h : zpcm512x_set_dividers priv params b = (Outcome.ok d, b')) :
    d.idac = d.mck_rate / (d.dsp_div * d.sample_rate) ∧
    0 < d.dsp_div * d.sample_rate ∧
    d.sample_rate = d.sck_rate / d.bclk_div / d.lrclk_div ∧
    (priv.pll_out = 0 → d.mck_rate = d.sck_rate ∧ d.sck_rate = priv.sclk_rate) ∧
    (priv.pll_out ≠ 0 →
      ∃ c, zpcm512x_find_pll_coeff priv.sclk_rate (4 * d.sck_rate) = Outcome.ok c ∧
        d.coeff = some c ∧ d.mck_rate = c.real_pll) ∧
    (∃ pre : List BusOp, b'.log = b.log ++ pre ++
      [BusOp.write Reg.IDAC_1 ((d.idac >>> 8 : Nat) : Int),
       BusOp.write Reg.IDAC_2 ((d.idac &&& 0xff : Nat) : Int),
       BusOp.update_bits Reg.FS_SPEED_MODE (Bits.sym Sym.FSSP) (Bits.sym d.fssp)]) ∧
    d.idac >>> 8 = d.idac / 256 ∧ d.idac &&& 0xff = d.idac % 256 ∧
    256 * (d.idac >>> 8) + (d.idac &&& 0xff) = d.idac := by
  obtain ⟨lrclk_div, k, b1, src, b2, hl, hk, _, hbz, hsrc, hd, hw⟩ :=
    set_dividers_ok_inv priv params b b' d h
  obtain ⟨ho, hle, _, _⟩ := set_dividers_dac_source_ok _ _ _ _ _ _ _ hsrc
  obtain ⟨e1, _, e3, e4, _, e6, _, _, _⟩ :=
    set_dividers_compute_ok _ _ _ _ _ _ _ _ _ hd ho hle
  obtain ⟨f1, f2, f3, f4⟩ := set_dividers_compute_fields _ _ _ _ _ _ _ _ _ hd
  obtain ⟨hno, hpll⟩ := set_dividers_clock_mck _ _ _ _ _ _ hk
  obtain ⟨_, ops1, hlog1, _, _⟩ := clean_set_dividers_clock priv params lrclk_div b
  rw [hk] at hlog1
  simp only at hlog1
  obtain ⟨_, ops2, hlog2, _, _⟩ :=
    clean_set_dividers_dac_source priv k.sck_rate
      (16 * (k.sck_rate / k.bclk_div / lrclk_div)) k.pllin_rate b1
  rw [hsrc] at hlog2
  simp only at hlog2
  have hlogw := set_dividers_write_ok _ _ _ _ hw
  have hshift : d.idac >>> 8 = d.idac / 256 := by
    rw [Nat.shiftRight_eq_div_pow]
  have hand : d.idac &&& 0xff = d.idac % 256 := by
    have := Nat.and_pow_two_sub_one_eq_mod d.idac 8
    simpa using this
  have hsample : 0 < d.sample_rate := by
    rw [e4]; omega
  have hdsp : 0 < d.dsp_div := by
    rw [e6]; split <;> omega
  refine ⟨?_, Nat.mul_pos hdsp hsample, ?_, ?_, ?_, ?_, hshift, hand, ?_⟩
  · rw [f4, f2, e6, e4]
  · rw [e4, f1, e3, e1]
  · intro hp
    obtain ⟨g1, g2, _⟩ := hno hp
    exact ⟨by rw [f2, f1]; exact g2, by rw [f1]; exact g1⟩
  · intro hp
    obtain ⟨_, c, hc, g2, g3⟩ := hpll hp
    exact ⟨c, by rw [f1]; exact hc, by rw [f3]; exact g2, by rw [f2]; exact g3⟩
  · refine ⟨ops1 ++ ops2 ++
      [BusOp.write Reg.DSP_CLKDIV ((d.dsp_div : Int) - 1),
       BusOp.write Reg.DAC_CLKDIV ((d.dac_div : Int) - 1),
       BusOp.write Reg.NCP_CLKDIV ((d.ncp_div : Int) - 1),
       BusOp.write Reg.OSR_CLKDIV ((d.osr_div : Int) - 1),
       BusOp.write Reg.MASTER_CLKDIV_1 ((d.bclk_div : Int) - 1),
       BusOp.write Reg.MASTER_CLKDIV_2 ((d.lrclk_div : Int) - 1)], ?_⟩
    rw [hlogw, hlog2, hlog1]
    simp only [List.append_assoc, List.cons_append, List.nil_append]
  · rw [hshift, hand]
    omega

/-- C15, for the 24.576 MHz clock of the DAC+ Pro without PLL, a BCLK ratio of 64 and 48 kHz,
on a bus where every operation succeeds: `zpcm512x_set_dividers` succeeds with
`mck_rate = 24576000`, `dsp_div = 1`, `sample_rate = 48000` and `idac = 512`, written as 2 to
`IDAC_1` and 0 to `IDAC_2`. -/
theorem set_dividers_idac_witness :
    ∃ (d : Dividers) (b' : Bus BusOp),
      zpcm512x_set_dividers ⟨0, 0, 0, 0, 0, 64, 24576000, false⟩ ⟨48000, 32, 64⟩
        ⟨fun _ => 0, []⟩ = (Outcome.ok d, b') ∧
      d.mck_rate = 24576000 ∧ d.dsp_div = 1 ∧ d.sample_rate = 48000 ∧ d.idac = 512 ∧
      d.idac >>> 8 = 2 ∧ d.idac &&& 0xff = 0 ∧
      d.idac = d.mck_rate / (d.dsp_div * d.sample_rate) :=
  ⟨{ lrclk_div := 64, sck_rate := 24576000, mck_rate := 24576000, bclk_rate := 3072000,
     bclk_div := 8, sample_rate := 48000, osr_rate := 768000, dsp_div := 1,
     dacsrc_rate := 24576000, dac_rate := 6144000, osr_div := 8, dac_div := 4, ncp_div := 4,
     idac := 512, fssp := Sym.FSSP_48KHZ, coeff := none },
   (zpcm512x_set_dividers ⟨0, 0, 0, 0, 0, 64, 24576000, false⟩ ⟨48000, 32, 64⟩
      ⟨fun _ => 0, []⟩).2,
   rfl, rfl, rfl, rfl, rfl, rfl, rfl,
   (set_dividers_idac ⟨0, 0, 0, 0, 0, 64, 24576000, false⟩ ⟨48000, 32, 64⟩
      ⟨fun _ => 0, []⟩ _ _ rfl).1⟩

/-! ## The search for a DAC rate on the PLL input -/

/-- C19, a run where the returned rate is not the largest that qualifies: in PLL mode with
`overclock_dac = 13`, `pllin_rate = 24576000` and `osr_rate = 768000` (48 kHz) the ceiling is
6942720 and the search starts at `9 * 768000 = 6912000`.  Each pass of the loop subtracts
`osr_rate` twice, once at the end of the body and once in the loop header, so that only the
multiples 9, 7, 5, 3 and 1 of `osr_rate` are tried, and `zpcm512x_pllin_dac_rate` returns
768000, although `6144000 = 8 * 768000` is below the ceiling and divides `pllin_rate` with a
quotient of 4.  With `pllin_rate = 6912000 = 9 * 768000` and no overclock it returns 0, although
`2304000 = 3 * 768000` qualifies. -/
theorem pllin_dac_rate_skips_multiples :
    zpcm512x_dac_max 13 6144000 = 6942720 ∧
    rounddown (zpcm512x_dac_max 13 6144000) 768000 = 9 * 768000 ∧
    zpcm512x_pllin_dac_rate ⟨3, 4, 0, 13, 0, 0, 24576000, false⟩ 768000 24576000 =
      Outcome.ok 768000 ∧
    (8 * 768000 ≤ zpcm512x_dac_max 13 6144000 ∧ 24576000 % (8 * 768000) = 0 ∧
      24576000 / (8 * 768000) ≤ 128) ∧
    zpcm512x_pllin_dac_rate ⟨3, 4, 0, 0, 0, 0, 6912000, false⟩ 768000 6912000 = Outcome.ok 0 ∧
    (3 * 768000 ≤ zpcm512x_dac_max 0 6144000 ∧ 6912000 % (3 * 768000) = 0 ∧
      6912000 / (3 * 768000) ≤ 128) := by
  decide


/-! ## The claims about the search order and the constraints of the solver -/

theorem find_R_largest (num : Nat) : ∀ (n R J : Nat), find_R num n = some (R, J) →
    ∀ R', R < R' → R' ≤ n → num % R' = 0 → 1 ≤ num / R' → num / R' ≤ 63 → False := by
  intro n
  induction n with
  | zero => intro R J h; simp [find_R] at h
  | succ n ih =>
    intro R J h R' hlt hle hmod hlo hhi
    unfold find_R at h
    split at h
    · rename_i hne
      rcases Nat.lt_or_ge R' (n + 1) with hR | hR
      · exact ih R J h R' hlt (by omega) hmod hlo hhi
      · have : R' = n + 1 := by omega
        subst this
        exact hne hmod
    · split at h
      · rename_i hJ
        rcases Nat.lt_or_ge R' (n + 1) with hR | hR
        · exact ih R J h R' hlt (by omega) hmod hlo hhi
        · have : R' = n + 1 := by omega
          subst this
          generalize num / (n + 1) = q at hJ hlo hhi
          omega
      · simp only [Option.some.injEq, Prod.mk.injEq] at h
        omega

/-- C21: when `zpcm512x_find_pll_coeff` succeeds through the exact `D = 0` path, `P` is the
`den` and `R` divides the `num` with which the path is entered, `J = num / R` lies in `[1, 63]`,
and every `R'` in `[1, 16]` that divides `num` with `num / R'` in `[1, 63]` is at most `R`, so
that `J` is the smallest such quotient.  Here `num` and `den` are `pll_rate / g` and
`pllin_rate / g` for `g = gcd(pll_rate, pllin_rate)`, which are coprime, both multiplied by
`s = DIV_ROUND_UP(pllin_rate / den, 20000000)` when `pllin_rate / den > 20000000` and `num < 8`
(`pllin_rate / den` being `g`), and by `s = 1` otherwise. -/
theorem find_pll_coeff_largest_R (pllin_rate pll_rate : Nat) (c : PllCoeff)
    (h : zpcm512x_find_pll_coeff pllin_rate pll_rate = Outcome.ok c)
    (hpath : c.path = PllPath.exactInt) :
    c.D = 0 ∧ c.P = pll_den pllin_rate pll_rate ∧
    (1 ≤ c.R ∧ c.R ≤ 16) ∧ pll_num pllin_rate pll_rate % c.R = 0 ∧
    c.J = pll_num pllin_rate pll_rate / c.R ∧ (1 ≤ c.J ∧ c.J ≤ 63) ∧
    (∀ R', 1 ≤ R' → R' ≤ 16 → pll_num pllin_rate pll_rate % R' = 0 →
      1 ≤ pll_num pllin_rate pll_rate / R' → pll_num pllin_rate pll_rate / R' ≤ 63 →
      R' ≤ c.R ∧ c.J ≤ pll_num pllin_rate pll_rate / R') ∧
    (∃ s, 1 ≤ s ∧
      s = (if pllin_rate / (pllin_rate / Nat.gcd pll_rate pllin_rate) > 20000000 ∧
            pll_rate / Nat.gcd pll_rate pllin_rate < 8 then
          DIV_ROUND_UP (pllin_rate / (pllin_rate / Nat.gcd pll_rate pllin_rate)) 20000000
        else 1) ∧
      pll_num pllin_rate pll_rate = pll_rate / Nat.gcd pll_rate pllin_rate * s ∧
      pll_den pllin_rate pll_rate = pllin_rate / Nat.gcd pll_rate pllin_rate * s ∧
      pllin_rate / (pllin_rate / Nat.gcd pll_rate pllin_rate) = Nat.gcd pll_rate pllin_rate ∧
      Nat.Coprime (pll_rate / Nat.gcd pll_rate pllin_rate)
        (pllin_rate / Nat.gcd pll_rate pllin_rate)) := by
  obtain ⟨hpos, hcase⟩ := find_pll_coeff_ok_cases pllin_rate pll_rate c h
  have hR : c.D = 0 ∧ c.P = pll_den pllin_rate pll_rate ∧
      find_R (pll_num pllin_rate pll_rate) 16 = some (c.R, c.J) := by
    rcases hcase with ⟨_, hD, hP, _, _, _, _, hR, _⟩ | ⟨hp, _⟩ | ⟨hp, _⟩
    · exact ⟨hD, hP, hR⟩
    · rw [hpath] at hp; exact absurd hp (by decide)
    · rw [hpath] at hp; exact absurd hp (by decide)
  obtain ⟨hD, hP, hfind⟩ := hR
  obtain ⟨r1, r2, hmod, hJ, j1, j2⟩ := find_R_some _ _ _ _ hfind
  have hg : 0 < Nat.gcd pll_rate pllin_rate := Nat.gcd_pos_of_pos_right _ hpos
  refine ⟨hD, hP, ⟨r1, r2⟩, hmod, hJ, ⟨j1, j2⟩, ?_, ?_⟩
  · intro R' h1 h2 hm hlo hhi
    have hle : R' ≤ c.R := by
      by_contra hc
      exact find_R_largest _ _ _ _ hfind R' (by omega) h2 hm hlo hhi
    refine ⟨hle, ?_⟩
    rw [hJ]
    exact Nat.div_le_div_left hle (by omega)
  · have hdvd : Nat.gcd pll_rate pllin_rate ∣ pllin_rate := Nat.gcd_dvd_right _ _
    have hquot : pllin_rate / (pllin_rate / Nat.gcd pll_rate pllin_rate) =
        Nat.gcd pll_rate pllin_rate := Nat.div_div_self hdvd (by omega)
    have hcop : Nat.Coprime (pll_rate / Nat.gcd pll_rate pllin_rate)
        (pllin_rate / Nat.gcd pll_rate pllin_rate) := Nat.coprime_div_gcd_div_gcd hg
    by_cases hs : pllin_rate / (pllin_rate / Nat.gcd pll_rate pllin_rate) > 20000000 ∧
        pll_rate / Nat.gcd pll_rate pllin_rate < 8
    · refine ⟨DIV_ROUND_UP (pllin_rate / (pllin_rate / Nat.gcd pll_rate pllin_rate)) 20000000,
        ?_, by rw [if_pos hs], ?_, ?_, hquot, hcop⟩
      · unfold DIV_ROUND_UP
        omega
      · unfold pll_num
        simp only
        rw [if_pos hs]
      · unfold pll_den
        simp only
        rw [if_pos hs]
    · refine ⟨1, le_refl _, by rw [if_neg hs], ?_, ?_, hquot, hcop⟩
      · unfold pll_num
        simp only
        rw [if_neg hs, Nat.mul_one]
      · unfold pll_den
        simp only
        rw [if_neg hs, Nat.mul_one]

/-- C21, at `pllin_rate = 24576000` and `pll_rate = 98304000`: `num / den = 4 / 1` is scaled by
2 to `8 / 2`, and of the divisors 1, 2, 4 and 8 of 8 the largest is taken, `R = 8` with
`J = 1` and `P = 2`. -/
theorem find_pll_coeff_largest_R_witness :
    zpcm512x_find_pll_coeff 24576000 98304000 =
      Outcome.ok ⟨8, 1, 0, 2, 98304000, PllPath.exactInt⟩ ∧
    pll_num 24576000 98304000 = 8 ∧ pll_den 24576000 98304000 = 2 ∧
    (∀ R', 1 ≤ R' → R' ≤ 16 → pll_num 24576000 98304000 % R' = 0 →
      1 ≤ pll_num 24576000 98304000 / R' → pll_num 24576000 98304000 / R' ≤ 63 →
      R' ≤ 8 ∧ 1 ≤ pll_num 24576000 98304000 / R') :=
  ⟨by decide, by decide, by decide,
    (find_pll_coeff_largest_R 24576000 98304000 ⟨8, 1, 0, 2, 98304000, PllPath.exactInt⟩
      (by decide) rfl).2.2.2.2.2.2.1⟩

/-- What holds of a successful result with `D > 0`: `R = 1`, `4 <= J <= 11` and
`6667000 <= pllin_rate / P`, with `pllin_rate / P <= 200000000` on the exact path, where the
loop tests this bound, and `pllin_rate / P <= 20000000` on the fallback. -/
theorem find_pll_coeff_frac_constraints (pllin_rate pll_rate : Nat) (c : PllCoeff)
    (h : zpcm512x_find_pll_coeff pllin_rate pll_rate = Outcome.ok c) (hD : 0 < c.D) :
    c.R = 1 ∧ 4 ≤ c.J ∧ c.J ≤ 11 ∧ 6667000 ≤ pllin_rate / c.P ∧
    pllin_rate / c.P ≤ 200000000 ∧
    (c.path = PllPath.fallback → pllin_rate / c.P ≤ 20000000) ∧
    c.path ≠ PllPath.exactInt := by
  obtain ⟨hpos, hcase⟩ := find_pll_coeff_ok_cases pllin_rate pll_rate c h
  rcases hcase with ⟨_, hD0, _⟩ | ⟨hp, hR, _, _, K, hK, hJ, hDK⟩ | ⟨hp, hfb⟩
  · omega
  · obtain ⟨_, _, x1, x2, _, _, k1, k2⟩ := find_P_some _ _ _ _ _ _ _ hK
    refine ⟨hR, by omega, by omega, x1, x2, fun hf => ?_, by rw [hp]; decide⟩
    rw [hp] at hf
    exact absurd hf (by decide)
  · obtain ⟨p2, x1, hc⟩ := find_pll_coeff_fallback_ok _ _ _ hfb
    have hk := pll_clamp_K_bounds
      (DIV_ROUND_CLOSEST_ULL (10000 * pll_rate * pll_fallback_P pllin_rate) pllin_rate)
    have hP : pllin_rate / pll_fallback_P pllin_rate ≤ 20000000 := by
      unfold pll_fallback_P DIV_ROUND_UP
      split
      · rename_i h0
        have : pllin_rate = 0 := by omega
        omega
      · apply Nat.div_le_of_le_mul
        have := Nat.div_add_mod (pllin_rate + 20000000 - 1) 20000000
        have := Nat.mod_lt (pllin_rate + 20000000 - 1) (by decide : 0 < 20000000)
        omega
    rw [hc] at hD ⊢
    simp only at hD ⊢
    generalize pll_clamp_K
      (DIV_ROUND_CLOSEST_ULL (10000 * pll_rate * pll_fallback_P pllin_rate) pllin_rate) = K
      at hk hD ⊢
    refine ⟨trivial, by omega, by omega, x1, by omega, fun _ => hP, by decide⟩

/-- C22, a result with `D > 0` outside the documented constraints: for `pllin_rate = 24000000`
and `pll_rate = 98304000` the reduced ratio is `512 / 125`, the `D = 0` case is skipped because
`den > 15`, and the `D > 0` loop accepts `P = 1` with `K = 40960`, since its test of
`pllin_rate / P` is against 200000000.  The function returns `R = 1`, `J = 4`, `D = 960`,
`P = 1`, for which `pllin_rate / P` is 24 MHz, above the 20 MHz of the constraint comment. -/
theorem find_pll_coeff_frac_above_20MHz :
    zpcm512x_find_pll_coeff 24000000 98304000 =
      Outcome.ok ⟨1, 4, 960, 1, 98304000, PllPath.exactFrac⟩ ∧
    pll_num 24000000 98304000 = 512 ∧ pll_den 24000000 98304000 = 125 ∧
    find_P 24000000 40960 1 15 1 = some (1, 40960) ∧
    20000000 < 24000000 / 1 := by
  decide

theorem find_pll_coeff_fallback_error_inv (pllin_rate pll_rate : Nat) (e : Int)
    (h : find_pll_coeff_fallback pllin_rate pll_rate = Outcome.error e) :
    e = -EINVAL ∧
    (DIV_ROUND_UP pllin_rate 20000000 > 15 ∨
      pllin_rate / pll_fallback_P pllin_rate < 6667000) := by
  unfold find_pll_coeff_fallback at h
  simp only at h
  split at h
  · rename_i hP
    simp only [Outcome.error.injEq] at h
    exact ⟨h.symm, Or.inl hP.2⟩
  · split at h
    · rename_i hlo
      simp only [Outcome.error.injEq] at h
      exact ⟨h.symm, Or.inr hlo⟩
    · simp at h

/-- C26: `zpcm512x_find_pll_coeff` succeeds for every `pllin_rate` in `[6667000, 300000000]`
and every `pll_rate`.  For any `pllin_rate > 0` the function returns, and a failure is
`-EINVAL` from the fallback code, reached after both exact searches have failed, with
`DIV_ROUND_UP(pllin_rate, 20000000) > 15` or `pllin_rate / P < 6667000` for the `P` of the
fallback, `DIV_ROUND_UP(pllin_rate, 20000000)` replaced by 1 when it is 0; neither holds inside
the interval. -/
theorem find_pll_coeff_succeeds_to_300MHz (pllin_rate pll_rate : Nat) (hpos : 0 < pllin_rate) :
    (6667000 ≤ pllin_rate → pllin_rate ≤ 300000000 →
      (∃ c, zpcm512x_find_pll_coeff pllin_rate pll_rate = Outcome.ok c) ∧
      DIV_ROUND_UP pllin_rate 20000000 ≤ 15 ∧
      6667000 ≤ pllin_rate / pll_fallback_P pllin_rate) ∧
    zpcm512x_find_pll_coeff pllin_rate pll_rate ≠ Outcome.undefined ∧
    (∀ e, zpcm512x_find_pll_coeff pllin_rate pll_rate = Outcome.error e →
      e = -EINVAL ∧
      zpcm512x_find_pll_coeff pllin_rate pll_rate =
        find_pll_coeff_fallback pllin_rate pll_rate ∧
      (DIV_ROUND_UP pllin_rate 20000000 > 15 ∨
        pllin_rate / pll_fallback_P pllin_rate < 6667000)) := by
  have hor := find_pll_coeff_exact_or_fallback pllin_rate pll_rate hpos
  refine ⟨?_, ?_, ?_⟩
  · intro h1 h2
    have hP15 : DIV_ROUND_UP pllin_rate 20000000 ≤ 15 := by
      unfold DIV_ROUND_UP
      omega
    have hlo : 6667000 ≤ pllin_rate / pll_fallback_P pllin_rate := by
      unfold pll_fallback_P DIV_ROUND_UP
      split
      · omega
      · have h3 : (pllin_rate + 20000000 - 1) / 20000000 ≤ 15 := by omega
        have h4 : 1 ≤ (pllin_rate + 20000000 - 1) / 20000000 := by omega
        obtain ⟨P, hP⟩ : ∃ P, P = (pllin_rate + 20000000 - 1) / 20000000 := ⟨_, rfl⟩
        rw [← hP] at h3 h4 ⊢
        interval_cases P <;> omega
    refine ⟨?_, hP15, hlo⟩
    rcases hor with ⟨c, hc, _⟩ | heq
    · exact ⟨c, hc⟩
    · obtain ⟨c, hc, _⟩ := find_pll_coeff_fallback_succeeds pllin_rate pll_rate h1 h2
      exact ⟨c, by rw [heq]; exact hc⟩
  · rcases hor with ⟨c, hc, _⟩ | heq
    · rw [hc]; simp
    · rw [heq]
      rcases find_pll_coeff_fallback_error pllin_rate pll_rate with ⟨c, hc, _⟩ | herr
      · rw [hc]; simp
      · rw [herr]; simp
  · intro e he
    rcases hor with ⟨c, hc, _⟩ | heq
    · rw [hc] at he; simp at he
    · rw [heq] at he
      obtain ⟨h1, h2⟩ := find_pll_coeff_fallback_error_inv pllin_rate pll_rate e he
      exact ⟨h1, heq, h2⟩

/-- C26, at the two ends of the interval and just outside it, for `pll_rate = 98304000`: the
solver succeeds at 6667000 and at 300000000 and returns `-EINVAL` at 6666999 and at
300000001. -/
theorem find_pll_coeff_succeeds_to_300MHz_witness :
    (∃ c, zpcm512x_find_pll_coeff 300000000 98304000 = Outcome.ok c) ∧
    zpcm512x_find_pll_coeff 6667000 98304000 =
      Outcome.ok ⟨1, 12, 0, 1, 80004000, PllPath.fallback⟩ ∧
    zpcm512x_find_pll_coeff 6666999 98304000 = Outcome.error (-EINVAL) ∧
    zpcm512x_find_pll_coeff 300000001 98304000 = Outcome.error (-EINVAL) :=
  ⟨((find_pll_coeff_succeeds_to_300MHz 300000000 98304000 (by decide)).1
      (by decide) (by decide)).1, by decide, by decide, by decide⟩


/-! ## The claim about the accuracy of the fallback -/

/-- Rounding `N * pll / u` to the closest `K` and `K * u / N` down returns to `pll` within
`u / (2 * N)`, rounded down above and up below. -/
theorem round_trip_bound (u N pll : Nat) (hu : 0 < u) (hN : 0 < N) :
    (N * pll + u / 2) / u * u / N ≤ pll + u / (2 * N) ∧
    pll ≤ (N * pll + u / 2) / u * u / N + (u + 2 * N - 1) / (2 * N) := by
  have e1 := Nat.div_add_mod (N * pll + u / 2) u
  have r1 := Nat.mod_lt (N * pll + u / 2) hu
  generalize (N * pll + u / 2) / u = K at e1 ⊢
  generalize (N * pll + u / 2) % u = m1 at e1 r1
  have e2 := Nat.div_add_mod (K * u) N
  have r2 := Nat.mod_lt (K * u) hN
  generalize K * u / N = real at e2 ⊢
  generalize K * u % N = m2 at e2 r2
  have hKu : u * K = K * u := Nat.mul_comm _ _
  have e3 := Nat.div_add_mod u (2 * N)
  have r3 := Nat.mod_lt u (by omega : 0 < 2 * N)
  have e4 := Nat.div_add_mod (u + 2 * N - 1) (2 * N)
  have r4 := Nat.mod_lt (u + 2 * N - 1) (by omega : 0 < 2 * N)
  generalize u / (2 * N) = w at e3 ⊢
  generalize u % (2 * N) = m3 at e3 r3
  generalize (u + 2 * N - 1) / (2 * N) = v at e4 ⊢
  generalize (u + 2 * N - 1) % (2 * N) = m4 at e4 r4
  have a1 : 2 * N * w = 2 * (N * w) := by ring
  have a2 : 2 * N * v = 2 * (N * v) := by ring
  constructor
  · by_contra hc
    have h1 : N * (pll + w + 1) ≤ N * real := Nat.mul_le_mul_left N (by omega)
    have h2 : N * (pll + w + 1) = N * pll + N * w + N := by ring
    omega
  · by_contra hc
    have h1 : N * (real + v + 1) ≤ N * pll := Nat.mul_le_mul_left N (by omega)
    have h2 : N * (real + v + 1) = N * real + N * v + N := by ring
    omega

/-- C27, a request that the fallback misses by more than `pllin_rate / (20000 * P)`: for
`pllin_rate = 16934400` and `pll_rate = 90757376` the fallback is taken with `P = 1` and the
unclamped `K = 53593`, and `real_pll` is `53593 * 16934400 / 10000` rounded down, 90756529.
This is 847 Hz below the request, while `pllin_rate / (20000 * P)` is 846.72. -/
theorem fallback_misses_by_847 :
    zpcm512x_find_pll_coeff 16934400 90757376 =
      Outcome.ok ⟨1, 5, 3593, 1, 90756529, PllPath.fallback⟩ ∧
    pll_fallback_P 16934400 = 1 ∧
    DIV_ROUND_CLOSEST_ULL (10000 * 90757376 * pll_fallback_P 16934400) 16934400 = 53593 ∧
    90757376 - 90756529 = 847 ∧ 16934400 / (20000 * 1) = 846 ∧
    16934400 < 847 * (20000 * 1) := by
  decide

/-- C27: when `zpcm512x_find_pll_coeff` returns through the fallback and `K` is not clamped,
that is `40000 <= K0 <= 120000` for the rounded quotient
`K0 = DIV_ROUND_CLOSEST_ULL(10000 * pll_rate * P, pllin_rate)` with
`P = DIV_ROUND_UP(pllin_rate, 20000000)`, the achieved rate is within 1000 Hz of the request:
`real_pll` exceeds `pll_rate` by at most `pllin_rate / (20000 * P)` rounded down and falls
short of it by at most `pllin_rate / (20000 * P)` rounded up, which is at most 1000. -/
theorem find_pll_coeff_fallback_accuracy (pllin_rate pll_rate : Nat) (c : PllCoeff)
    (h : zpcm512x_find_pll_coeff pllin_rate pll_rate = Outcome.ok c)
    (hpath : c.path = PllPath.fallback)
    (hlo : 40000 ≤
      DIV_ROUND_CLOSEST_ULL (10000 * pll_rate * pll_fallback_P pllin_rate) pllin_rate)
    (hhi : DIV_ROUND_CLOSEST_ULL (10000 * pll_rate * pll_fallback_P pllin_rate) pllin_rate ≤
      120000) :
    c.P = DIV_ROUND_UP pllin_rate 20000000 ∧
    10000 * c.J + c.D =
      DIV_ROUND_CLOSEST_ULL (10000 * pll_rate * c.P) pllin_rate ∧
    c.real_pll ≤ pll_rate + pllin_rate / (20000 * c.P) ∧
    pll_rate ≤ c.real_pll + DIV_ROUND_UP pllin_rate (20000 * c.P) ∧
    DIV_ROUND_UP pllin_rate (20000 * c.P) ≤ 1000 ∧
    c.real_pll ≤ pll_rate + 1000 ∧ pll_rate ≤ c.real_pll + 1000 := by
  obtain ⟨hpos, hcase⟩ := find_pll_coeff_ok_cases pllin_rate pll_rate c h
  have hfb : find_pll_coeff_fallback pllin_rate pll_rate = Outcome.ok c := by
    rcases hcase with ⟨hp, _⟩ | ⟨hp, _⟩ | ⟨_, hfb⟩
    · rw [hpath] at hp; exact absurd hp (by decide)
    · rw [hpath] at hp; exact absurd hp (by decide)
    · exact hfb
  obtain ⟨_, _, hc⟩ := find_pll_coeff_fallback_ok _ _ _ hfb
  have hPeq : pll_fallback_P pllin_rate = DIV_ROUND_UP pllin_rate 20000000 := by
    unfold pll_fallback_P
    split
    · rename_i h0
      unfold DIV_ROUND_UP at h0
      omega
    · rfl
  have hPpos : 0 < pll_fallback_P pllin_rate := by
    rw [hPeq]
    unfold DIV_ROUND_UP
    omega
  have hPle : pllin_rate ≤ 20000000 * pll_fallback_P pllin_rate := by
    rw [hPeq]
    unfold DIV_ROUND_UP
    omega
  have hclamp : pll_clamp_K
      (DIV_ROUND_CLOSEST_ULL (10000 * pll_rate * pll_fallback_P pllin_rate) pllin_rate) =
      DIV_ROUND_CLOSEST_ULL (10000 * pll_rate * pll_fallback_P pllin_rate) pllin_rate := by
    generalize DIV_ROUND_CLOSEST_ULL (10000 * pll_rate * pll_fallback_P pllin_rate)
      pllin_rate = K0 at hlo hhi ⊢
    unfold pll_clamp_K
    simp only
    split_ifs <;> omega
  rw [hclamp] at hc
  have hb := round_trip_bound pllin_rate (10000 * pll_fallback_P pllin_rate) pll_rate hpos
    (by omega)
  have e1 : 10000 * pll_fallback_P pllin_rate * pll_rate =
      10000 * pll_rate * pll_fallback_P pllin_rate := by ring
  have e2 : 2 * (10000 * pll_fallback_P pllin_rate) = 20000 * pll_fallback_P pllin_rate := by
    ring
  rw [e1, e2] at hb
  have hup : DIV_ROUND_UP pllin_rate (20000 * pll_fallback_P pllin_rate) ≤ 1000 := by
    unfold DIV_ROUND_UP
    apply Nat.le_of_lt_succ
    apply (Nat.div_lt_iff_lt_mul (by omega)).mpr
    have e3 : (1000 + 1) * (20000 * pll_fallback_P pllin_rate) =
        20000000 * pll_fallback_P pllin_rate + 20000 * pll_fallback_P pllin_rate := by ring
    omega
  have hdown : pllin_rate / (20000 * pll_fallback_P pllin_rate) ≤ 1000 := by
    apply Nat.div_le_of_le_mul
    have e3 : 20000 * pll_fallback_P pllin_rate * 1000 =
        20000000 * pll_fallback_P pllin_rate := by ring
    omega
  have hreal : c.real_pll =
      DIV_ROUND_CLOSEST_ULL (10000 * pll_rate * pll_fallback_P pllin_rate) pllin_rate *
        pllin_rate / (10000 * pll_fallback_P pllin_rate) := by
    rw [hc]; rfl
  have hP : c.P = pll_fallback_P pllin_rate := by
    rw [hc]
  have hJD : 10000 * c.J + c.D =
      DIV_ROUND_CLOSEST_ULL (10000 * pll_rate * pll_fallback_P pllin_rate) pllin_rate := by
    rw [hc]
    simp only
    omega
  have hb1 : c.real_pll ≤ pll_rate + pllin_rate / (20000 * pll_fallback_P pllin_rate) := by
    rw [hreal]; exact hb.1
  have hb2 : pll_rate ≤ c.real_pll +
      DIV_ROUND_UP pllin_rate (20000 * pll_fallback_P pllin_rate) := by
    rw [hreal]
    unfold DIV_ROUND_UP
    exact hb.2
  rw [hP]
  exact ⟨hPeq, hJD, hb1, hb2, hup, by omega, by omega⟩

/-- C27, at `pllin_rate = 16934400` and `pll_rate = 90757376`, where `P = 1` and `K = 53593`:
`real_pll = 90756529` is 847 Hz below the request, and `pllin_rate / 20000` rounded up is
847. -/
theorem find_pll_coeff_fallback_accuracy_witness :
    zpcm512x_find_pll_coeff 16934400 90757376 =
      Outcome.ok ⟨1, 5, 3593, 1, 90756529, PllPath.fallback⟩ ∧
    DIV_ROUND_UP 16934400 (20000 * 1) = 847 ∧
    90757376 ≤ 90756529 + DIV_ROUND_UP 16934400 (20000 * 1) ∧
    90756529 ≤ 90757376 + 16934400 / (20000 * 1) :=
  ⟨by decide, by decide,
    (find_pll_coeff_fallback_accuracy 16934400 90757376
      ⟨1, 5, 3593, 1, 90756529, PllPath.fallback⟩ (by decide) rfl (by decide)
      (by decide)).2.2.2.1,
    (find_pll_coeff_fallback_accuracy 16934400 90757376
      ⟨1, 5, 3593, 1, 90756529, PllPath.fallback⟩ (by decide) rfl (by decide)
      (by decide)).2.2.1⟩


/-! ## The claims about the DAC rate on the PLL input and the charge pump -/

theorem set_dividers_compute_inv (priv : zpcm512x_priv) (lrclk_div : Nat) (k : ClockSel)
    (sample_rate osr_rate dsp_div dac_rate0 dacsrc_rate : Nat) (d : Dividers)
    (h : set_dividers_compute priv lrclk_div k sample_rate osr_rate dsp_div dac_rate0
      dacsrc_rate = Outcome.ok d) :
    d.osr_rate = osr_rate ∧ d.dacsrc_rate = dacsrc_rate ∧ d.dsp_div = dsp_div ∧
    d.osr_div = DIV_ROUND_CLOSEST dac_rate0 osr_rate ∧
    d.dac_div = DIV_ROUND_CLOSEST dacsrc_rate dac_rate0 ∧ d.dac_div ≠ 0 ∧
    d.dac_rate = dacsrc_rate / d.dac_div ∧
    set_dividers_ncp_div priv d.dac_rate = Outcome.ok d.ncp_div := by
  unfold set_dividers_compute at h
  simp only at h
  split at h
  · simp at h
  · split at h
    · simp at h
    · split at h
      · simp at h
      · rename_i hd0
        cases hn : set_dividers_ncp_div priv
            (dacsrc_rate / DIV_ROUND_CLOSEST dacsrc_rate dac_rate0) with
        | undefined => rw [hn] at h; simp at h
        | error e => rw [hn] at h; simp at h
        | ok ncp =>
          rw [hn] at h
          simp only [Outcome.ok.injEq] at h
          subst h
          exact ⟨rfl, rfl, rfl, rfl, rfl, hd0, rfl, hn⟩

theorem set_dividers_ncp_div_inv (priv : zpcm512x_priv) (dac_rate n : Nat)
    (h : set_dividers_ncp_div priv dac_rate = Outcome.ok n) :
    dac_rate / n ≤ 2048000 ∧
    n = (if DIV_ROUND_CLOSEST dac_rate (zpcm512x_ncp_target priv.overclock_dac dac_rate) > 128 ∨
          dac_rate /
            DIV_ROUND_CLOSEST dac_rate (zpcm512x_ncp_target priv.overclock_dac dac_rate) >
            2048000 then
        DIV_ROUND_UP dac_rate 2048000
      else DIV_ROUND_CLOSEST dac_rate (zpcm512x_ncp_target priv.overclock_dac dac_rate)) := by
  have hup : dac_rate / DIV_ROUND_UP dac_rate 2048000 ≤ 2048000 := by
    apply Nat.div_le_of_le_mul
    unfold DIV_ROUND_UP
    omega
  unfold set_dividers_ncp_div at h
  simp only at h
  split at h
  · rename_i h128
    split at h
    · simp at h
    · simp only [Outcome.ok.injEq] at h
      subst h
      exact ⟨hup, by rw [if_pos (Or.inl h128)]⟩
  · rename_i h128
    split at h
    · simp at h
    · split at h
      · rename_i hgt
        split at h
        · simp at h
        · simp only [Outcome.ok.injEq] at h
          subst h
          exact ⟨hup, by rw [if_pos (Or.inr hgt)]⟩
      · rename_i hgt
        simp only [Outcome.ok.injEq] at h
        subst h
        refine ⟨Nat.le_of_not_gt hgt, ?_⟩
        rw [if_neg]
        intro hc
        rcases hc with hc | hc
        · exact h128 hc
        · exact hgt hc

/-- C25: whenever `zpcm512x_set_dividers` returns success, the final `dac_rate` is
`dacsrc_rate / dac_div` and the final `ncp_div` gives `dac_rate / ncp_div <= 2048000`.  The
divider is `DIV_ROUND_CLOSEST(dac_rate, zpcm512x_ncp_target(dac_rate))`, replaced by
`DIV_ROUND_UP(dac_rate, 2048000)` when it exceeds 128 or gives more than 2048000, and lies in
`[1, 128]`. -/
theorem set_dividers_ncp_limit (priv : zpcm512x_priv) (params : snd_pcm_hw_params)
    (b b' : Bus BusOp) (d : Dividers)
    (h : zpcm512x_set_dividers priv params b = (Outcome.ok d, b')) :
    d.dac_rate = d.dacsrc_rate / d.dac_div ∧ 0 < d.dac_div ∧
    d.dac_rate / d.ncp_div ≤ 2048000 ∧ (1 ≤ d.ncp_div ∧ d.ncp_div ≤ 128) ∧
    d.ncp_div =
      (if DIV_ROUND_CLOSEST d.dac_rate (zpcm512x_ncp_target priv.overclock_dac d.dac_rate) >
            128 ∨
          d.dac_rate /
            DIV_ROUND_CLOSEST d.dac_rate (zpcm512x_ncp_target priv.overclock_dac d.dac_rate) >
            2048000 then
        DIV_ROUND_UP d.dac_rate 2048000
      else DIV_ROUND_CLOSEST d.dac_rate (zpcm512x_ncp_target priv.overclock_dac d.dac_rate)) := by
  obtain ⟨lrclk_div, k, b1, src, b2, _, _, _, _, hsrc, hd, _⟩ :=
    set_dividers_ok_inv priv params b b' d h
  obtain ⟨ho, hle, _, _⟩ := set_dividers_dac_source_ok _ _ _ _ _ _ _ hsrc
  obtain ⟨_, _, _, _, _, _, _, _, hncp⟩ :=
    set_dividers_compute_ok _ _ _ _ _ _ _ _ _ hd ho hle
  obtain ⟨_, hsrc2, _, _, _, hd0, hrate, hn⟩ :=
    set_dividers_compute_inv _ _ _ _ _ _ _ _ _ hd
  obtain ⟨hlim, hsel⟩ := set_dividers_ncp_div_inv _ _ _ hn
  exact ⟨by rw [hsrc2]; exact hrate, Nat.pos_of_ne_zero hd0, hlim, hncp, hsel⟩

/-- C25, for the 24.576 MHz clock of the DAC+ Pro without PLL, a BCLK ratio of 64 and 48 kHz,
on a bus where every operation succeeds: the final `dac_rate` is 6144000, `ncp_div` is 4 and the
charge pump runs at 1536000 Hz. -/
theorem set_dividers_ncp_limit_witness :
    ∃ (d : Dividers) (b' : Bus BusOp),
      zpcm512x_set_dividers ⟨0, 0, 0, 0, 0, 64, 24576000, false⟩ ⟨48000, 32, 64⟩
        ⟨fun _ => 0, []⟩ = (Outcome.ok d, b') ∧
      d.dac_rate = 6144000 ∧ d.ncp_div = 4 ∧ d.dac_rate / d.ncp_div = 1536000 ∧
      d.dac_rate / d.ncp_div ≤ 2048000 :=
  ⟨{ lrclk_div := 64, sck_rate := 24576000, mck_rate := 24576000, bclk_rate := 3072000,
     bclk_div := 8, sample_rate := 48000, osr_rate := 768000, dsp_div := 1,
     dacsrc_rate := 24576000, dac_rate := 6144000, osr_div := 8, dac_div := 4, ncp_div := 4,
     idac := 512, fssp := Sym.FSSP_48KHZ, coeff := none },
   (zpcm512x_set_dividers ⟨0, 0, 0, 0, 0, 64, 24576000, false⟩ ⟨48000, 32, 64⟩
      ⟨fun _ => 0, []⟩).2,
   rfl, rfl, rfl, rfl,
   (set_dividers_ncp_limit ⟨0, 0, 0, 0, 0, 64, 24576000, false⟩ ⟨48000, 32, 64⟩
      ⟨fun _ => 0, []⟩ _ _ rfl).2.2.1⟩

theorem pllin_dac_rate_loop_result (osr_rate pllin_rate : Nat) : ∀ (fuel dac_rate r : Nat),
    pllin_dac_rate_loop osr_rate pllin_rate fuel dac_rate = some r → r ≠ 0 →
    r ≤ dac_rate ∧ pllin_rate % r = 0 ∧ pllin_rate / r ≤ 128 := by
  intro fuel
  induction fuel with
  | zero => intro dac_rate r h; simp [pllin_dac_rate_loop] at h
  | succ n ih =>
    intro dac_rate r h hr
    unfold pllin_dac_rate_loop at h
    split at h
    · simp only [Option.some.injEq] at h; exact absurd h.symm hr
    · split at h
      · simp only [Option.some.injEq] at h; exact absurd h.symm hr
      · rename_i h128
        split at h
        · rename_i hmod
          simp only [Option.some.injEq] at h
          subst h
          exact ⟨le_refl _, hmod, Nat.le_of_not_gt h128⟩
        · split at h
          · simp at h
          · split at h
            · simp at h
            · obtain ⟨h1, h2⟩ := ih _ r h hr
              exact ⟨by omega, h2⟩

theorem div_round_closest_of_dvd (a b : Nat) (hb : 0 < b) (h : b ∣ a) :
    DIV_ROUND_CLOSEST a b = a / b := by
  obtain ⟨m, rfl⟩ := h
  unfold DIV_ROUND_CLOSEST
  rw [Nat.mul_add_div hb, Nat.div_eq_of_lt (by omega : b / 2 < b), Nat.mul_div_cancel_left _ hb]
  rfl

theorem set_dividers_dac_source_pllin (priv : zpcm512x_priv)
    (sck_rate osr_rate pllin_rate r : Nat) (b b' : Bus BusOp) (src : Nat × Nat)
    (h : set_dividers_dac_source priv sck_rate osr_rate pllin_rate b = (Outcome.ok src, b'))
    (hr : zpcm512x_pllin_dac_rate priv osr_rate pllin_rate = Outcome.ok r) (hne : r ≠ 0) :
    src = (r, pllin_rate) := by
  unfold set_dividers_dac_source at h
  rw [hr] at h
  simp only at h
  rw [if_pos hne] at h
  rw [Drv.bind_eq] at h
  obtain ⟨_, b1, _, h⟩ := Drv.bind_ok_inv _ _ _ _ _ h
  rw [Drv.bind_eq] at h
  obtain ⟨_, b2, _, h⟩ := Drv.bind_ok_inv _ _ _ _ _ h
  obtain ⟨hsrc, _⟩ := Drv.ret_ok_inv _ _ _ _ h
  exact hsrc.symm

theorem set_dividers_clock_pllin (priv : zpcm512x_priv) (params : snd_pcm_hw_params)
    (lrclk_div : Nat) (b b' : Bus BusOp) (k : ClockSel)
    (h : set_dividers_clock priv params lrclk_div b = (Outcome.ok k, b'))
    (hp : priv.pll_out ≠ 0) : k.pllin_rate = priv.sclk_rate ∧ 0 < priv.sclk_rate := by
  unfold set_dividers_clock at h
  rw [if_neg hp] at h
  unfold set_dividers_pll at h
  simp only at h
  split at h
  · simp [Drv.lift] at h
  · split at h
    · simp [Drv.lift] at h
    · cases hc : zpcm512x_find_pll_coeff priv.sclk_rate
          (4 * zpcm512x_find_sck priv.overclock_pll (snd_soc_params_to_bclk params)) with
      | undefined => rw [hc] at h; simp [Drv.lift] at h
      | error e => rw [hc] at h; simp [Drv.lift] at h
      | ok c =>
        rw [hc] at h
        simp only [Drv.bind_eq] at h
        obtain ⟨_, b1, _, h⟩ := Drv.bind_ok_inv _ _ _ _ _ h
        obtain ⟨hk, _⟩ := Drv.ret_ok_inv _ _ _ _ h
        subst hk
        exact ⟨rfl, (find_pll_coeff_ok_cases _ _ _ hc).1⟩

/-- C28: a non-zero `dac_rate` returned by `zpcm512x_pllin_dac_rate(osr_rate, pllin_rate)` is a
multiple of `osr_rate`, does not exceed the DAC ceiling
`6144000 + 6144000 * overclock_dac / 100`, divides `pllin_rate` exactly with
`pllin_rate / dac_rate <= 128`, and `pll_out` is configured.  For `pllin_rate > 0` the divider
`DIV_ROUND_CLOSEST(pllin_rate, dac_rate)` is therefore in `[1, 128]`, so that the test
`dac_div > 128` does not reject, and a successful `zpcm512x_set_dividers` that has taken this
path (`pllin_rate` the rate of the SCLK clock, `osr_rate` its oversampling rate) ends with the
PLL input as DAC source, `dac_rate` as final DAC rate, `dac_div * dac_rate = pllin_rate`,
`1 <= dac_div <= 128` and `osr_div * osr_rate = dac_rate`. -/
theorem pllin_dac_rate_divides (priv : zpcm512x_priv) (osr_rate pllin_rate r : Nat)
    (h : zpcm512x_pllin_dac_rate priv osr_rate pllin_rate = Outcome.ok r) (hr : r ≠ 0) :
    priv.pll_out ≠ 0 ∧ osr_rate ∣ r ∧ r ≤ 6144000 + 6144000 * priv.overclock_dac / 100 ∧
    r ∣ pllin_rate ∧ pllin_rate / r ≤ 128 ∧
    (0 < pllin_rate →
      1 ≤ DIV_ROUND_CLOSEST pllin_rate r ∧ DIV_ROUND_CLOSEST pllin_rate r ≤ 128) ∧
    (∀ (params : snd_pcm_hw_params) (b b' : Bus BusOp) (d : Dividers),
      zpcm512x_set_dividers priv params b = (Outcome.ok d, b') →
      pllin_rate = priv.sclk_rate → osr_rate = d.osr_rate →
      d.dacsrc_rate = pllin_rate ∧ d.dac_rate = r ∧ d.dac_div * d.dac_rate = pllin_rate ∧
      1 ≤ d.dac_div ∧ d.dac_div ≤ 128 ∧ d.osr_div * d.osr_rate = d.dac_rate) := by
  obtain ⟨hp, hopos, hdvd⟩ := pllin_dac_rate_ok priv osr_rate pllin_rate r h hr
  have hloop : r ≤ zpcm512x_dac_max priv.overclock_dac 6144000 ∧ pllin_rate % r = 0 ∧
      pllin_rate / r ≤ 128 := by
    unfold zpcm512x_pllin_dac_rate at h
    rw [if_neg hp, if_neg (by omega)] at h
    split at h
    · simp only [Outcome.ok.injEq] at h; exact absurd h.symm hr
    · cases hl : pllin_dac_rate_loop osr_rate pllin_rate
          (rounddown (zpcm512x_dac_max priv.overclock_dac 6144000) osr_rate + 1)
          (rounddown (zpcm512x_dac_max priv.overclock_dac 6144000) osr_rate) with
      | none => rw [hl] at h; simp at h
      | some r' =>
        rw [hl] at h
        simp only [Outcome.ok.injEq] at h
        subst h
        obtain ⟨h1, h2⟩ := pllin_dac_rate_loop_result _ _ _ _ _ hl hr
        exact ⟨le_trans h1 (rounddown_le _ _), h2⟩
  obtain ⟨hceil, hmod, h128⟩ := hloop
  have hrpos : 0 < r := Nat.pos_of_ne_zero hr
  have hrdvd : r ∣ pllin_rate := Nat.dvd_of_mod_eq_zero hmod
  have hdiv : DIV_ROUND_CLOSEST pllin_rate r = pllin_rate / r :=
    div_round_closest_of_dvd _ _ hrpos hrdvd
  have hdivpos : 0 < pllin_rate → 1 ≤ pllin_rate / r := fun hpos =>
    Nat.div_pos (Nat.le_of_dvd hpos hrdvd) hrpos
  refine ⟨hp, hdvd, hceil, hrdvd, h128, ?_, ?_⟩
  · intro hpos
    rw [hdiv]
    exact ⟨hdivpos hpos, h128⟩
  · intro params b b' d hrun hpllin hosr
    obtain ⟨lrclk_div, k, b1, src, b2, _, hk, _, _, hsrc, hd, _⟩ :=
      set_dividers_ok_inv priv params b b' d hrun
    obtain ⟨hkp, hspos⟩ := set_dividers_clock_pllin _ _ _ _ _ _ hk hp
    obtain ⟨e1, e2, _, e4, e5, _, e7, _⟩ := set_dividers_compute_inv _ _ _ _ _ _ _ _ _ hd
    rw [e1] at hosr
    rw [← hosr, hkp, ← hpllin] at hsrc
    have hs := set_dividers_dac_source_pllin _ _ _ _ _ _ _ _ hsrc h hr
    rw [hs] at e2 e4 e5 e7
    simp only at e2 e4 e5 e7
    rw [hdiv] at e5
    have hpos : 0 < pllin_rate := by rw [hpllin]; exact hspos
    have hq : pllin_rate / r * r = pllin_rate := Nat.div_mul_cancel hrdvd
    have hrate : d.dac_rate = r := by
      rw [e7, e5]
      exact Nat.div_div_self hrdvd (by omega)
    have hosrdiv : d.osr_div * osr_rate = r := by
      rw [e4, ← hosr, div_round_closest_of_dvd _ _ hopos hdvd]
      exact Nat.div_mul_cancel hdvd
    refine ⟨e2, hrate, ?_, ?_, ?_, ?_⟩
    · rw [hrate, e5]; exact hq
    · rw [e5]; exact hdivpos hpos
    · rw [e5]; exact h128
    · rw [hrate, e1, ← hosr]; exact hosrdiv

/-- C28, in PLL mode with the 24.576 MHz clock at 48 kHz (`osr_rate = 768000`):
`zpcm512x_pllin_dac_rate` returns 6144000, which is `8 * 768000`, at most the ceiling 6144000,
and a quarter of the PLL input. -/
theorem pllin_dac_rate_divides_witness :
    zpcm512x_pllin_dac_rate ⟨3, 4, 0, 0, 0, 0, 24576000, false⟩ 768000 24576000 =
      Outcome.ok 6144000 ∧
    768000 ∣ 6144000 ∧ 6144000 ≤ 6144000 + 6144000 * 0 / 100 ∧ 6144000 ∣ 24576000 ∧
    24576000 / 6144000 ≤ 128 ∧ DIV_ROUND_CLOSEST 24576000 6144000 = 4 :=
  ⟨by decide,
    (pllin_dac_rate_divides ⟨3, 4, 0, 0, 0, 0, 24576000, false⟩ 768000 24576000 6144000
      (by decide) (by decide)).2.1,
    (pllin_dac_rate_divides ⟨3, 4, 0, 0, 0, 0, 24576000, false⟩ 768000 24576000 6144000
      (by decide) (by decide)).2.2.1,
    (pllin_dac_rate_divides ⟨3, 4, 0, 0, 0, 0, 24576000, false⟩ 768000 24576000 6144000
      (by decide) (by decide)).2.2.2.1,
    (pllin_dac_rate_divides ⟨3, 4, 0, 0, 0, 0, 24576000, false⟩ 768000 24576000 6144000
      (by decide) (by decide)).2.2.2.2.1, by decide⟩

/-- C29: for every `osr_rate > 0` and every `pllin_rate`, `zpcm512x_pllin_dac_rate` returns.
When the loop is entered, `pllin_rate mod osr_rate == 0` and the candidates are multiples
`j * osr_rate`, starting at `j = dac_max / osr_rate`; from such a candidate the loop returns
within `j + 1` passes without applying either `dac_rate -= osr_rate` to a value below
`osr_rate` (the embedding has no result for a run that does, or that needs more passes): a
candidate of 0 ends the loop, a candidate equal to `osr_rate` returns 0 or `osr_rate`, and a
larger one that does not return is at least `2 * osr_rate`, so that both subtractions stay at
or above 0. -/
theorem pllin_dac_rate_terminates (priv : zpcm512x_priv) (osr_rate pllin_rate : Nat)
    (ho : 0 < osr_rate) :
    (∃ r, zpcm512x_pllin_dac_rate priv osr_rate pllin_rate = Outcome.ok r) ∧
    rounddown (zpcm512x_dac_max priv.overclock_dac 6144000) osr_rate =
      zpcm512x_dac_max priv.overclock_dac 6144000 / osr_rate * osr_rate ∧
    (pllin_rate % osr_rate = 0 →
      (∀ j fuel, j < fuel →
        pllin_dac_rate_loop osr_rate pllin_rate fuel (j * osr_rate) ≠ none) ∧
      (∀ fuel, pllin_dac_rate_loop osr_rate pllin_rate (fuel + 1) 0 = some 0) ∧
      (∀ fuel, pllin_dac_rate_loop osr_rate pllin_rate (fuel + 1) osr_rate = some 0 ∨
        pllin_dac_rate_loop osr_rate pllin_rate (fuel + 1) osr_rate = some osr_rate)) := by
  have hstart : rounddown (zpcm512x_dac_max priv.overclock_dac 6144000) osr_rate =
      zpcm512x_dac_max priv.overclock_dac 6144000 / osr_rate * osr_rate := by
    rw [rounddown_eq_mul, Nat.mul_comm]
  refine ⟨?_, hstart, ?_⟩
  · unfold zpcm512x_pllin_dac_rate
    by_cases hp : priv.pll_out = 0
    · rw [if_pos hp]
      exact ⟨_, rfl⟩
    · rw [if_neg hp, if_neg (by omega)]
      by_cases hmod : pllin_rate % osr_rate = 0
      · rw [if_neg (by rw [hmod]; simp)]
        have hle : zpcm512x_dac_max priv.overclock_dac 6144000 / osr_rate ≤
            zpcm512x_dac_max priv.overclock_dac 6144000 / osr_rate * osr_rate :=
          Nat.le_mul_of_pos_right _ ho
        rw [hstart]
        obtain ⟨r, hr⟩ := pllin_dac_rate_loop_returns osr_rate pllin_rate hmod
          (zpcm512x_dac_max priv.overclock_dac 6144000 / osr_rate * osr_rate + 1)
          (zpcm512x_dac_max priv.overclock_dac 6144000 / osr_rate) (by omega)
        rw [hr]
        exact ⟨r, rfl⟩
      · rw [if_pos hmod]
        exact ⟨_, rfl⟩
  · intro hmod
    refine ⟨?_, ?_, ?_⟩
    · intro j fuel hj
      obtain ⟨r, hr⟩ := pllin_dac_rate_loop_returns osr_rate pllin_rate hmod fuel j hj
      rw [hr]
      simp
    · intro fuel
      unfold pllin_dac_rate_loop
      rw [if_pos rfl]
    · intro fuel
      unfold pllin_dac_rate_loop
      rw [if_neg (by omega)]
      by_cases h128 : pllin_rate / osr_rate > 128
      · rw [if_pos h128]
        exact Or.inl rfl
      · rw [if_neg h128, if_pos hmod]
        exact Or.inr rfl

/-- C29, with `osr_rate = 768000`: for `pllin_rate = 6912000`, which no candidate of the search
divides, the function returns 0 after trying 6144000, 4608000, 3072000 and 1536000, and for
`pllin_rate = 1000`, which `osr_rate` does not divide, it returns 0 before the loop. -/
theorem pllin_dac_rate_terminates_witness :
    zpcm512x_pllin_dac_rate ⟨3, 4, 0, 0, 0, 0, 6912000, false⟩ 768000 6912000 = Outcome.ok 0 ∧
    zpcm512x_pllin_dac_rate ⟨3, 4, 0, 0, 0, 0, 1000, false⟩ 768000 1000 = Outcome.ok 0 ∧
    ∃ r, zpcm512x_pllin_dac_rate ⟨3, 4, 0, 13, 0, 0, 24576000, false⟩ 768000 24576000 =
      Outcome.ok r :=
  ⟨by decide, by decide,
    (pllin_dac_rate_terminates ⟨3, 4, 0, 13, 0, 0, 24576000, false⟩ 768000 24576000
      (by decide)).1⟩


/-! ## The claim about the DSP clock -/

/-- What holds of the DSP divider on a successful run: `dsp_div` is 2 when `mck_rate` exceeds
`zpcm512x_dsp_max` and 1 otherwise, and the DSP clock `mck_rate / dsp_div` stays at or below
`zpcm512x_dsp_max` as long as `mck_rate` is at most twice that ceiling. -/
theorem set_dividers_dsp_div (priv : zpcm512x_priv) (params : snd_pcm_hw_params)
    (b b' : Bus BusOp) (d : Dividers)
    (h : zpcm512x_set_dividers priv params b = (Outcome.ok d, b')) :
    d.dsp_div = (if d.mck_rate > zpcm512x_dsp_max priv.overclock_dsp then 2 else 1) ∧
    zpcm512x_dsp_max priv.overclock_dsp = 50000000 + 50000000 * priv.overclock_dsp / 100 ∧
    (d.mck_rate ≤ 2 * zpcm512x_dsp_max priv.overclock_dsp + 1 →
      d.mck_rate / d.dsp_div ≤ zpcm512x_dsp_max priv.overclock_dsp) ∧
    (2 * zpcm512x_dsp_max priv.overclock_dsp + 1 < d.mck_rate →
      zpcm512x_dsp_max priv.overclock_dsp < d.mck_rate / d.dsp_div) := by
  obtain ⟨lrclk_div, k, b1, src, b2, _, _, _, _, _, hd, _⟩ :=
    set_dividers_ok_inv priv params b b' d h
  obtain ⟨_, _, e3, _⟩ := set_dividers_compute_inv _ _ _ _ _ _ _ _ _ hd
  obtain ⟨_, f2, _, _⟩ := set_dividers_compute_fields _ _ _ _ _ _ _ _ _ hd
  rw [← f2] at e3
  refine ⟨e3, rfl, ?_, ?_⟩
  · intro hle
    rw [e3]
    split <;> omega
  · intro hgt
    rw [e3, if_pos (by omega)]
    omega

/-- C24, two runs whose DSP clock is above the ceiling.  In PLL mode with the 24.576 MHz
clock, `overclock_pll = 20`, `overclock_dsp = 0` and 58 kHz frames of 64 bits,
`zpcm512x_find_sck` selects 29696000, the solver gives `real_pll = 118784000` exactly, and
`zpcm512x_set_dividers` succeeds with `mck_rate = 118784000` and `dsp_div = 2`: the DSP clock
is 59392000, above `zpcm512x_dsp_max = 50000000`.  Without any overclock, a 17.5 MHz clock
and 195312 Hz frames of 64 bits give `sck_rate = 24999936`, the fallback of the solver rounds
`real_pll` up to 100000250, and the DSP clock is 50000125. -/
theorem dsp_clock_above_dsp_max :
    zpcm512x_dsp_max 0 = 50000000 ∧
    (∃ (d : Dividers) (b' : Bus BusOp),
      zpcm512x_set_dividers ⟨3, 4, 20, 0, 0, 0, 24576000, false⟩ ⟨58000, 32, 64⟩
        ⟨fun _ => 0, []⟩ = (Outcome.ok d, b') ∧
      d.sck_rate = 29696000 ∧ d.mck_rate = 118784000 ∧ d.dsp_div = 2 ∧
      d.mck_rate / d.dsp_div = 59392000 ∧ zpcm512x_dsp_max 0 < d.mck_rate / d.dsp_div) ∧
    (∃ (d : Dividers) (b' : Bus BusOp),
      zpcm512x_set_dividers ⟨3, 4, 0, 0, 0, 0, 17500000, false⟩ ⟨195312, 32, 64⟩
        ⟨fun _ => 0, []⟩ = (Outcome.ok d, b') ∧
      d.sck_rate = 24999936 ∧ d.mck_rate = 100000250 ∧ d.dsp_div = 2 ∧
      d.mck_rate / d.dsp_div = 50000125 ∧ zpcm512x_dsp_max 0 < d.mck_rate / d.dsp_div) := by
  refine ⟨by decide, ⟨?_, ?_⟩⟩
  · exact ⟨{ lrclk_div := 64, sck_rate := 29696000, mck_rate := 118784000,
             bclk_rate := 3712000, bclk_div := 8, sample_rate := 58000, osr_rate := 928000,
             dsp_div := 2, dacsrc_rate := 29696000, dac_rate := 3712000, osr_div := 4,
             dac_div := 8, ncp_div := 2, idac := 1024, fssp := Sym.FSSP_96KHZ,
             coeff := some ⟨1, 29, 0, 6, 118784000, PllPath.exactInt⟩ },
      (zpcm512x_set_dividers ⟨3, 4, 20, 0, 0, 0, 24576000, false⟩ ⟨58000, 32, 64⟩
        ⟨fun _ => 0, []⟩).2,
      rfl, rfl, rfl, rfl, rfl, by decide⟩
  · exact ⟨{ lrclk_div := 64, sck_rate := 24999936, mck_rate := 100000250,
             bclk_rate := 12499968, bclk_div := 2, sample_rate := 195312,
             osr_rate := 3124992, dsp_div := 2, dacsrc_rate := 24999936, dac_rate := 3124992,
             osr_div := 1, dac_div := 8, ncp_div := 2, idac := 256, fssp := Sym.FSSP_384KHZ,
             coeff := some ⟨1, 5, 7143, 1, 100000250, PllPath.fallback⟩ },
      (zpcm512x_set_dividers ⟨3, 4, 0, 0, 0, 0, 17500000, false⟩ ⟨195312, 32, 64⟩
        ⟨fun _ => 0, []⟩).2,
      rfl, rfl, rfl, rfl, rfl, by decide⟩

/-! ## The claim about the PLL coefficient writes -/

theorem Drv.bind_ret_unit {Op : Type} (m : Drv Op Unit) :
    Drv.bind m (fun _ => Drv.ret ()) = m := by
  funext b
  unfold Drv.bind
  rcases hm : m b with ⟨o, b1⟩
  cases o with
  | ok u => rfl
  | error e => rfl
  | undefined => rfl

theorem set_dividers_write_pll_eq (c : PllCoeff) :
    set_dividers_write_pll c = Drv.issue_all (pll_coeff_writes c) := by
  unfold set_dividers_write_pll pll_coeff_writes regmap_write
  simp only [Drv.bind_eq, Drv.issue_all, Drv.bind_ret_unit]

theorem Drv.issue_all_run {Op : Type} : ∀ (ops : List Op) (b : Bus Op),
    Drv.issue_all ops b = (Outcome.ok (), { b with log := b.log ++ ops }) ∨
    ∃ e n, Drv.issue_all ops b = (Outcome.error e, { b with log := b.log ++ ops.take n }) := by
  intro ops
  induction ops with
  | nil =>
    intro b
    left
    simp [Drv.issue_all, Drv.ret]
  | cons op ops ih =>
    intro b
    unfold Drv.issue_all
    by_cases h0 : b.ret b.log.length = 0
    · rw [Drv.bind_of_ok _ _ _ _ _ (Drv.issue_of_ok op b h0)]
      rcases ih { b with log := b.log ++ [op] } with h | ⟨e, n, h⟩
      · left
        rw [h]
        simp
      · right
        refine ⟨e, n + 1, ?_⟩
        rw [h]
        simp
    · right
      rw [Drv.bind_of_error _ _ _ _ _ (Drv.issue_of_error op b h0)]
      exact ⟨b.ret b.log.length, 1, by simp⟩

theorem Drv.clean_mono {Op α : Type} (P Q : Op → Prop) (m : Drv Op α)
    (hPQ : ∀ op, P op → Q op) (hm : Drv.Clean P m) : Drv.Clean Q m := by
  intro b
  obtain ⟨hret, ops, hlog, hP, hok⟩ := hm b
  exact ⟨hret, ops, hlog, fun op hop => hPQ op (hP op hop), hok⟩

theorem dac_source_regs (priv : zpcm512x_priv) (sck_rate osr_rate pllin_rate : Nat) :
    Drv.Clean (fun op => op.reg = Reg.DAC_REF ∨ op.reg = Reg.GPIO_DACIN)
      (set_dividers_dac_source priv sck_rate osr_rate pllin_rate) := by
  unfold set_dividers_dac_source
  split
  · exact Drv.clean_lift _ _
  · exact Drv.clean_lift _ _
  · split
    · refine Drv.clean_bind _ _ _ (clean_regmap_update_bits _ _ _ _ (by simp [BusOp.reg]))
        fun _ => ?_
      refine Drv.clean_bind _ _ _ (clean_regmap_update_bits _ _ _ _ (by simp [BusOp.reg]))
        fun _ => ?_
      exact Drv.clean_ret _ _
    · split
      · exact Drv.clean_lift _ _
      · simp only
        split
        · exact Drv.clean_lift _ _
        · refine Drv.clean_bind _ _ _ (clean_regmap_update_bits _ _ _ _ (by simp [BusOp.reg]))
            fun _ => ?_
          exact Drv.clean_ret _ _

theorem divider_writes_regs (d : Dividers) :
    Drv.Clean (fun op => op.reg.is_pll_coeff = false) (set_dividers_write d) := by
  unfold set_dividers_write
  refine Drv.clean_bind _ _ _ (clean_regmap_write _ _ _ rfl) fun _ => ?_
  refine Drv.clean_bind _ _ _ (clean_regmap_write _ _ _ rfl) fun _ => ?_
  refine Drv.clean_bind _ _ _ (clean_regmap_write _ _ _ rfl) fun _ => ?_
  refine Drv.clean_bind _ _ _ (clean_regmap_write _ _ _ rfl) fun _ => ?_
  refine Drv.clean_bind _ _ _ (clean_regmap_write _ _ _ rfl) fun _ => ?_
  refine Drv.clean_bind _ _ _ (clean_regmap_write _ _ _ rfl) fun _ => ?_
  refine Drv.clean_bind _ _ _ (clean_regmap_write _ _ _ rfl) fun _ => ?_
  refine Drv.clean_bind _ _ _ (clean_regmap_write _ _ _ rfl) fun _ => ?_
  exact clean_regmap_update_bits _ _ _ _ rfl

theorem chain_regs (priv : zpcm512x_priv) (lrclk_div : Nat) (k : ClockSel) :
    Drv.Clean (fun op => op.reg.is_pll_coeff = false) (set_dividers_chain priv lrclk_div k) := by
  unfold set_dividers_chain
  split
  · exact Drv.clean_lift _ _
  · split
    · exact Drv.clean_lift _ _
    · simp only
      refine Drv.clean_bind _ _ _
        (Drv.clean_mono _ _ _ (fun op hop => ?_) (dac_source_regs _ _ _ _)) fun _ => ?_
      · rcases hop with h | h <;> rw [h] <;> rfl
      refine Drv.clean_bind _ _ _ (Drv.clean_lift _ _) fun _ => ?_
      refine Drv.clean_bind _ _ _ (divider_writes_regs _) fun _ => ?_
      exact Drv.clean_ret _ _

/-- The PLL branch of `zpcm512x_set_dividers` either returns before any bus operation, or has
coefficients from the solver and goes on to write them. -/
theorem set_dividers_pll_cases (priv : zpcm512x_priv) (params : snd_pcm_hw_params) :
    (∃ o : Outcome ClockSel, (∀ k, o ≠ Outcome.ok k) ∧
      set_dividers_pll priv params = Drv.lift o) ∨
    (∃ (c : PllCoeff) (k : ClockSel),
      zpcm512x_find_pll_coeff priv.sclk_rate
        (4 * zpcm512x_find_sck priv.overclock_pll (snd_soc_params_to_bclk params)) =
          Outcome.ok c ∧
      k.coeff = some c ∧
      set_dividers_pll priv params =
        Drv.bind (set_dividers_write_pll c) (fun _ => Drv.ret k)) := by
  unfold set_dividers_pll
  simp only
  split
  · exact Or.inl ⟨_, fun k => by simp, rfl⟩
  · split
    · exact Or.inl ⟨_, fun k => by simp, rfl⟩
    · cases hc : zpcm512x_find_pll_coeff priv.sclk_rate
          (4 * zpcm512x_find_sck priv.overclock_pll (snd_soc_params_to_bclk params)) with
      | undefined => exact Or.inl ⟨_, fun k => by simp, rfl⟩
      | error e => exact Or.inl ⟨_, fun k => by simp, rfl⟩
      | ok c => exact Or.inr ⟨c, _, rfl, rfl, rfl⟩

/-- The ranges of the coefficients of a successful run of the solver. -/
theorem find_pll_coeff_ok_range (pllin_rate pll_rate : Nat) (c : PllCoeff)
    (h : zpcm512x_find_pll_coeff pllin_rate pll_rate = Outcome.ok c) :
    1 ≤ c.R ∧ c.R ≤ 16 ∧ 1 ≤ c.J ∧ c.J ≤ 63 ∧ c.D ≤ 9999 ∧ 1 ≤ c.P ∧ c.P ≤ 15 := by
  obtain ⟨hpos, hcase⟩ := find_pll_coeff_ok_cases pllin_rate pll_rate c h
  have hP1 := find_pll_coeff_ok_P_pos pllin_rate pll_rate c h
  rcases hcase with ⟨_, hD, _, hP, _, hlo, _, hR, _⟩ | ⟨_, hR, _, _, K, hK, hJ, hD⟩ | ⟨_, hfb⟩
  · obtain ⟨r1, r2, _, _, j1, j2⟩ := find_R_some _ _ _ _ hR
    omega
  · obtain ⟨_, p2, x1, _, _, _, k1, k2⟩ := find_P_some _ _ _ _ _ _ _ hK
    omega
  · obtain ⟨p2, x1, hc⟩ := find_pll_coeff_fallback_ok _ _ _ hfb
    have hk := pll_clamp_K_bounds
      (DIV_ROUND_CLOSEST_ULL (10000 * pll_rate * pll_fallback_P pllin_rate) pllin_rate)
    rw [hc] at hP1 ⊢
    simp only at hP1 ⊢
    omega

/-- C23: in PLL mode the operations `zpcm512x_set_dividers` issues start with the PLL
coefficient writes.  On every run, successful or not, the operations appended to the log are
none, or the first few of the five writes `PLL_COEFF_0 = P - 1`, `PLL_COEFF_1 = J`,
`PLL_COEFF_2 = D >> 8`, `PLL_COEFF_3 = D & 0xff`, `PLL_COEFF_4 = R - 1` for the coefficients
of the solver (a run that ends at a failing write), or all five in this order followed by
operations on other registers.  On a successful run they are the five writes, then the
operations selecting the DAC clock source (on `DAC_REF` and `GPIO_DACIN`), then the divider,
IDAC and speed-mode writes.  Each of the five values fits in one byte and the encoding is
lossless: `(COEFF_2 << 8) | COEFF_3 = D`, `COEFF_0 + 1 = P` and `COEFF_4 + 1 = R`. -/
theorem set_dividers_pll_coeff_first (priv : zpcm512x_priv) (params : snd_pcm_hw_params)
    (b : Bus BusOp) (hpll : priv.pll_out ≠ 0) :
    (∃ ops : List BusOp,
      (zpcm512x_set_dividers priv params b).2.log = b.log ++ ops ∧
      (ops = [] ∨
        ∃ c, zpcm512x_find_pll_coeff priv.sclk_rate
            (4 * zpcm512x_find_sck priv.overclock_pll (snd_soc_params_to_bclk params)) =
              Outcome.ok c ∧
          ((∃ n, ops = (pll_coeff_writes c).take n) ∨
            ∃ rest, ops = pll_coeff_writes c ++ rest ∧
              ∀ op ∈ rest, op.reg.is_pll_coeff = false))) ∧
    (∀ (d : Dividers) (b' : Bus BusOp),
      zpcm512x_set_dividers priv params b = (Outcome.ok d, b') →
      ∃ (c : PllCoeff) (mid : List BusOp),
        zpcm512x_find_pll_coeff priv.sclk_rate (4 * d.sck_rate) = Outcome.ok c ∧
        d.coeff = some c ∧
        b'.log = b.log ++
          [BusOp.write Reg.PLL_COEFF_0 ((c.P : Int) - 1),
           BusOp.write Reg.PLL_COEFF_1 (c.J : Int),
           BusOp.write Reg.PLL_COEFF_2 ((c.D >>> 8 : Nat) : Int),
           BusOp.write Reg.PLL_COEFF_3 ((c.D &&& 0xff : Nat) : Int),
           BusOp.write Reg.PLL_COEFF_4 ((c.R : Int) - 1)] ++ mid ++ divider_writes d ∧
        (∀ op ∈ mid, op.reg = Reg.DAC_REF ∨ op.reg = Reg.GPIO_DACIN) ∧
        (0 ≤ (c.P : Int) - 1 ∧ (c.P : Int) - 1 ≤ 255) ∧ c.J ≤ 255 ∧ c.D >>> 8 ≤ 255 ∧
        c.D &&& 0xff ≤ 255 ∧ (0 ≤ (c.R : Int) - 1 ∧ (c.R : Int) - 1 ≤ 255) ∧
        ((c.D >>> 8) <<< 8) ||| (c.D &&& 0xff) = c.D ∧
        ((c.P : Int) - 1) + 1 = c.P ∧ ((c.R : Int) - 1) + 1 = c.R) := by
  have hclk : ∀ lrclk_div, set_dividers_clock priv params lrclk_div =
      set_dividers_pll priv params := by
    intro lrclk_div
    unfold set_dividers_clock
    rw [if_neg hpll]
  constructor
  · unfold zpcm512x_set_dividers
    simp only [Drv.bind_eq]
    cases hl : set_dividers_lrclk_div priv params with
    | undefined =>
      rw [Drv.bind_of_undefined (Drv.lift Outcome.undefined) _ b b rfl]
      exact ⟨[], by simp, Or.inl rfl⟩
    | error e =>
      rw [Drv.bind_of_error (Drv.lift (Outcome.error e)) _ b b e rfl]
      exact ⟨[], by simp, Or.inl rfl⟩
    | ok lrclk_div =>
      rw [Drv.bind_of_ok (Drv.lift (Outcome.ok lrclk_div)) _ b b lrclk_div rfl, hclk]
      rcases set_dividers_pll_cases priv params with ⟨o, ho, heq⟩ | ⟨c, k, hc, _, heq⟩
      · rw [heq]
        cases o with
        | ok k => exact absurd rfl (ho k)
        | error e =>
          rw [Drv.bind_of_error (Drv.lift (Outcome.error e)) _ b b e rfl]
          exact ⟨[], by simp, Or.inl rfl⟩
        | undefined =>
          rw [Drv.bind_of_undefined (Drv.lift Outcome.undefined) _ b b rfl]
          exact ⟨[], by simp, Or.inl rfl⟩
      · rw [heq, set_dividers_write_pll_eq]
        rcases Drv.issue_all_run (pll_coeff_writes c) b with h | ⟨e, n, h⟩
        · have h1 : Drv.bind (Drv.issue_all (pll_coeff_writes c)) (fun _ => Drv.ret k) b =
              (Outcome.ok k, { b with log := b.log ++ pll_coeff_writes c }) := by
            rw [Drv.bind_of_ok _ _ _ _ _ h]
            rfl
          rw [Drv.bind_of_ok _ _ _ _ _ h1]
          obtain ⟨_, rest, hlog, hQ, _⟩ :=
            chain_regs priv lrclk_div k { b with log := b.log ++ pll_coeff_writes c }
          refine ⟨pll_coeff_writes c ++ rest, ?_, Or.inr ⟨c, hc, Or.inr ⟨rest, rfl, hQ⟩⟩⟩
          rw [hlog]
          simp only [List.append_assoc]
        · have h1 : Drv.bind (Drv.issue_all (pll_coeff_writes c)) (fun _ => Drv.ret k) b =
              (Outcome.error e, { b with log := b.log ++ (pll_coeff_writes c).take n }) := by
            rw [Drv.bind_of_error _ _ _ _ _ h]
          rw [Drv.bind_of_error _ _ _ _ _ h1]
          exact ⟨(pll_coeff_writes c).take n, rfl, Or.inr ⟨c, hc, Or.inl ⟨n, rfl⟩⟩⟩
  · intro d b' hrun
    obtain ⟨lrclk_div, k, b1, src, b2, _, hk, _, _, hsrc, hd, hw⟩ :=
      set_dividers_ok_inv priv params b b' d hrun
    obtain ⟨f1, _, f3, _⟩ := set_dividers_compute_fields _ _ _ _ _ _ _ _ _ hd
    obtain ⟨_, hmck⟩ := set_dividers_clock_mck _ _ _ _ _ _ hk
    obtain ⟨_, c, hc, hkc, _⟩ := hmck hpll
    have hb1 : b1.log = b.log ++ pll_coeff_writes c := by
      rw [hclk] at hk
      rcases set_dividers_pll_cases priv params with ⟨o, ho, heq⟩ | ⟨c', k', _, hk', heq⟩
      · rw [heq] at hk
        obtain ⟨h1, _⟩ := Drv.lift_ok_inv _ _ _ _ hk
        exact absurd h1 (ho k)
      · rw [heq, set_dividers_write_pll_eq] at hk
        obtain ⟨_, b0, h0, hret⟩ := Drv.bind_ok_inv _ _ _ _ _ hk
        obtain ⟨hkk, hb⟩ := Drv.ret_ok_inv _ _ _ _ hret
        subst hkk hb
        have hcc : c' = c := by
          rw [hk'] at hkc
          exact Option.some.inj hkc
        subst hcc
        rcases Drv.issue_all_run (pll_coeff_writes c') b with h | ⟨e, n, h⟩
        · rw [h] at h0
          simp only [Prod.mk.injEq] at h0
          rw [← h0.2]
        · rw [h] at h0
          simp at h0
    obtain ⟨_, mid, hlog2, hmid, _⟩ :=
      dac_source_regs priv k.sck_rate (16 * (k.sck_rate / k.bclk_div / lrclk_div))
        k.pllin_rate b1
    rw [hsrc] at hlog2
    simp only at hlog2
    have hlogw := set_dividers_write_ok _ _ _ _ hw
    obtain ⟨r1, r2, j1, j2, hD, p1, p2⟩ := find_pll_coeff_ok_range _ _ _ hc
    have hshift : c.D >>> 8 = c.D / 256 := by
      rw [Nat.shiftRight_eq_div_pow]
    have hand : c.D &&& 0xff = c.D % 256 := by
      have := Nat.and_pow_two_sub_one_eq_mod c.D 8
      simpa using this
    have hor : ((c.D >>> 8) <<< 8) ||| (c.D &&& 0xff) = c.D := by
      rw [hand, hshift, Nat.shiftLeft_eq, Nat.mul_comm,
        ← Nat.mul_add_lt_is_or (Nat.mod_lt c.D (by decide : 0 < 2 ^ 8)) (c.D / 256)]
      exact Nat.div_add_mod c.D 256
    refine ⟨c, mid, by rw [f1]; exact hc, by rw [f3]; exact hkc, ?_, hmid,
      ⟨by omega, by omega⟩, by omega, by omega, by omega, ⟨by omega, by omega⟩, hor,
      by omega, by omega⟩
    rw [hlogw, hlog2, hb1]
    rfl

/-- C23, in PLL mode with the 24.576 MHz clock at 48 kHz frames of 64 bits, on a bus where
every operation succeeds: the coefficients are `R = 8`, `J = 1`, `D = 0`, `P = 2`, and the log
of `zpcm512x_set_dividers` starts with the writes of 1, 1, 0, 0 and 7 to `PLL_COEFF_0` to
`PLL_COEFF_4`. -/
theorem set_dividers_pll_coeff_first_witness :
    (zpcm512x_set_dividers ⟨3, 4, 0, 0, 0, 0, 24576000, false⟩ ⟨48000, 32, 64⟩
        ⟨fun _ => 0, []⟩).2.log.take 5 =
      [BusOp.write Reg.PLL_COEFF_0 1, BusOp.write Reg.PLL_COEFF_1 1,
       BusOp.write Reg.PLL_COEFF_2 0, BusOp.write Reg.PLL_COEFF_3 0,
       BusOp.write Reg.PLL_COEFF_4 7] ∧
    ∃ ops : List BusOp,
      (zpcm512x_set_dividers ⟨3, 4, 0, 0, 0, 0, 24576000, false⟩ ⟨48000, 32, 64⟩
        ⟨fun _ => 0, []⟩).2.log = [] ++ ops ∧
      (ops = [] ∨
        ∃ c, zpcm512x_find_pll_coeff 24576000
            (4 * zpcm512x_find_sck 0 (snd_soc_params_to_bclk ⟨48000, 32, 64⟩)) =
              Outcome.ok c ∧
          ((∃ n, ops = (pll_coeff_writes c).take n) ∨
            ∃ rest, ops = pll_coeff_writes c ++ rest ∧
              ∀ op ∈ rest, op.reg.is_pll_coeff = false)) :=
  ⟨by decide,
    (set_dividers_pll_coeff_first ⟨3, 4, 0, 0, 0, 0, 24576000, false⟩ ⟨48000, 32, 64⟩
      ⟨fun _ => 0, []⟩ (by decide)).1⟩


/-! ## The claim about the advertised rates with the DAC+ Pro clocks -/

theorem Drv.uniform_ret {Op α : Type} (a : α) : Drv.Uniform (pure a : Drv Op α) := by
  intro b b' hb _
  exact ⟨rfl, hb⟩

theorem Drv.uniform_lift {Op α : Type} (o : Outcome α) : Drv.Uniform (Drv.lift o : Drv Op α) := by
  intro b b' hb _
  exact ⟨rfl, hb⟩

theorem Drv.issue_all_ok {Op : Type} (op : Op) (b : Bus Op) (hb : b.all_ok) :
    Drv.issue op b = (Outcome.ok (), { b with log := b.log ++ [op] }) ∧
    Bus.all_ok { b with log := b.log ++ [op] } := by
  refine ⟨Drv.issue_of_ok op b (by simpa using hb 0), ?_⟩
  intro j
  have := hb (1 + j)
  simp only [List.length_append, List.length_singleton]
  rw [← this]
  congr 1
  omega

theorem Drv.uniform_issue {Op : Type} (op : Op) : Drv.Uniform (Drv.issue op) := by
  intro b b' hb hb'
  rw [(Drv.issue_all_ok op b hb).1, (Drv.issue_all_ok op b' hb').1]
  exact ⟨rfl, (Drv.issue_all_ok op b hb).2⟩

theorem Drv.uniform_bind {Op α β : Type} (m : Drv Op α) (f : α → Drv Op β)
    (hm : Drv.Uniform m) (hf : ∀ a, Drv.Uniform (f a)) : Drv.Uniform (m >>= f) := by
  intro b b' hb hb'
  rw [Drv.bind_eq]
  obtain ⟨heq, hall⟩ := hm b b' hb hb'
  obtain ⟨_, hall'⟩ := hm b' b hb' hb
  rcases hmb : m b with ⟨o, b1⟩
  rcases hmb' : m b' with ⟨o', b1'⟩
  rw [hmb, hmb'] at heq
  rw [hmb] at hall
  rw [hmb'] at hall'
  simp only at heq hall hall'
  subst heq
  cases o with
  | ok a =>
    rw [Drv.bind_of_ok _ _ _ _ _ hmb, Drv.bind_of_ok _ _ _ _ _ hmb']
    exact hf a b1 b1' hall hall'
  | error e =>
    rw [Drv.bind_of_error _ _ _ _ _ hmb, Drv.bind_of_error _ _ _ _ _ hmb']
    exact ⟨rfl, hall⟩
  | undefined =>
    rw [Drv.bind_of_undefined _ _ _ _ hmb, Drv.bind_of_undefined _ _ _ _ hmb']
    exact ⟨rfl, hall⟩

theorem uniform_set_dividers_clock (priv : zpcm512x_priv) (params : snd_pcm_hw_params)
    (lrclk_div : Nat) : Drv.Uniform (set_dividers_clock priv params lrclk_div) := by
  unfold set_dividers_clock
  split
  · exact Drv.uniform_lift _
  · unfold set_dividers_pll
    simp only
    split
    · exact Drv.uniform_lift _
    · split
      · exact Drv.uniform_lift _
      · split
        · exact Drv.uniform_lift _
        · exact Drv.uniform_lift _
        · refine Drv.uniform_bind _ _ ?_ fun _ => Drv.uniform_ret _
          unfold set_dividers_write_pll regmap_write
          refine Drv.uniform_bind _ _ (Drv.uniform_issue _) fun _ => ?_
          refine Drv.uniform_bind _ _ (Drv.uniform_issue _) fun _ => ?_
          refine Drv.uniform_bind _ _ (Drv.uniform_issue _) fun _ => ?_
          refine Drv.uniform_bind _ _ (Drv.uniform_issue _) fun _ => ?_
          exact Drv.uniform_issue _

theorem uniform_set_dividers_dac_source (priv : zpcm512x_priv)
    (sck_rate osr_rate pllin_rate : Nat) :
    Drv.Uniform (set_dividers_dac_source priv sck_rate osr_rate pllin_rate) := by
  unfold set_dividers_dac_source regmap_update_bits
  split
  · exact Drv.uniform_lift _
  · exact Drv.uniform_lift _
  · split
    · refine Drv.uniform_bind _ _ (Drv.uniform_issue _) fun _ => ?_
      refine Drv.uniform_bind _ _ (Drv.uniform_issue _) fun _ => ?_
      exact Drv.uniform_ret _
    · split
      · exact Drv.uniform_lift _
      · simp only
        split
        · exact Drv.uniform_lift _
        · refine Drv.uniform_bind _ _ (Drv.uniform_issue _) fun _ => ?_
          exact Drv.uniform_ret _

theorem uniform_set_dividers_write (d : Dividers) : Drv.Uniform (set_dividers_write d) := by
  unfold set_dividers_write regmap_write regmap_update_bits
  refine Drv.uniform_bind _ _ (Drv.uniform_issue _) fun _ => ?_
  refine Drv.uniform_bind _ _ (Drv.uniform_issue _) fun _ => ?_
  refine Drv.uniform_bind _ _ (Drv.uniform_issue _) fun _ => ?_
  refine Drv.uniform_bind _ _ (Drv.uniform_issue _) fun _ => ?_
  refine Drv.uniform_bind _ _ (Drv.uniform_issue _) fun _ => ?_
  refine Drv.uniform_bind _ _ (Drv.uniform_issue _) fun _ => ?_
  refine Drv.uniform_bind _ _ (Drv.uniform_issue _) fun _ => ?_
  refine Drv.uniform_bind _ _ (Drv.uniform_issue _) fun _ => ?_
  exact Drv.uniform_issue _

theorem uniform_set_dividers (priv : zpcm512x_priv) (params : snd_pcm_hw_params) :
    Drv.Uniform (zpcm512x_set_dividers priv params) := by
  unfold zpcm512x_set_dividers
  refine Drv.uniform_bind _ _ (Drv.uniform_lift _) fun lrclk_div => ?_
  refine Drv.uniform_bind _ _ (uniform_set_dividers_clock _ _ _) fun k => ?_
  unfold set_dividers_chain
  split
  · exact Drv.uniform_lift _
  · split
    · exact Drv.uniform_lift _
    · simp only
      refine Drv.uniform_bind _ _ (uniform_set_dividers_dac_source _ _ _ _) fun _ => ?_
      refine Drv.uniform_bind _ _ (Drv.uniform_lift _) fun _ => ?_
      refine Drv.uniform_bind _ _ (uniform_set_dividers_write _) fun _ => ?_
      exact Drv.uniform_ret _

/-- Without PLL the run of `zpcm512x_set_dividers` reads of the private data only `pll_out`,
`overclock_dac`, `overclock_dsp`, `sclk_rate` and what decides `lrclk_div`, and of the
parameters only the rate. -/
theorem set_dividers_no_pll_congr (priv priv' : zpcm512x_priv)
    (params params' : snd_pcm_hw_params) (hp : priv.pll_out = 0) (hp' : priv'.pll_out = 0)
    (h1 : priv.overclock_dac = priv'.overclock_dac)
    (h2 : priv.overclock_dsp = priv'.overclock_dsp)
    (h3 : priv.sclk_rate = priv'.sclk_rate) (h4 : params.rate = params'.rate)
    (h5 : set_dividers_lrclk_div priv params = set_dividers_lrclk_div priv' params') :
    zpcm512x_set_dividers priv params = zpcm512x_set_dividers priv' params' := by
  have e2 : ∀ L, set_dividers_clock priv params L = set_dividers_clock priv' params' L := by
    intro L
    unfold set_dividers_clock
    rw [if_pos hp, if_pos hp']
    unfold set_dividers_no_pll
    rw [h3, h4]
  have e3 : ∀ (p : zpcm512x_priv), p.pll_out = 0 → ∀ osr pllin,
      zpcm512x_pllin_dac_rate p osr pllin = Outcome.ok 0 := by
    intro p hp0 osr pllin
    unfold zpcm512x_pllin_dac_rate
    rw [if_pos hp0]
  have e4 : ∀ sck osr pllin, set_dividers_dac_source priv sck osr pllin =
      set_dividers_dac_source priv' sck osr pllin := by
    intro sck osr pllin
    unfold set_dividers_dac_source
    rw [e3 priv hp, e3 priv' hp']
    simp only [ne_eq, not_true_eq_false, if_false]
    rw [h1]
  have e5 : ∀ L k a1 a2 a3 a4 a5, set_dividers_compute priv L k a1 a2 a3 a4 a5 =
      set_dividers_compute priv' L k a1 a2 a3 a4 a5 := by
    intro L k a1 a2 a3 a4 a5
    unfold set_dividers_compute set_dividers_ncp_div zpcm512x_ncp_target set_dividers_fssp
    rw [h1]
  have e6 : ∀ L k, set_dividers_chain priv L k = set_dividers_chain priv' L k := by
    intro L k
    unfold set_dividers_chain
    rw [h2]
    simp only [e4, e5]
  unfold zpcm512x_set_dividers
  rw [h5]
  simp only [e2, e6]

/-- C30: every rate of `zpcm512x_dai_rates` is produced exactly in master mode without PLL
with the DAC+ Pro clocks.  With `pll_out` unset, the three overclock values 0, the SCLK rate
that `snd_rpi_hb_dacplus_set_sclk` selects for the rate (22579200 for 11025, 22050, 44100,
88200, 176400 and 352800, and 24576000 otherwise) and `lrclk_div` 32 or 64 (from `bclk_ratio`,
or from the frame size when `bclk_ratio` is 0), `zpcm512x_set_dividers` succeeds on every bus
whose operations succeed, with `bclk_div * lrclk_div * rate = sck_rate`, the actual sample rate
equal to the requested one, `dsp_div = 1`, `dac_div = 4`, `ncp_div = 4`,
`osr_div * 16 * rate * 4 = sck_rate` and `idac = sck_rate / rate`. -/
theorem dacplus_pro_rates_exact (priv : zpcm512x_priv) (params : snd_pcm_hw_params)
    (b : Bus BusOp) (L : Nat) (hb : b.all_ok) (hrate : params.rate ∈ zpcm512x_dai_rates)
    (hL : L = 32 ∨ L = 64) (hpll : priv.pll_out = 0) (_ho1 : priv.overclock_pll = 0)
    (ho2 : priv.overclock_dac = 0) (ho3 : priv.overclock_dsp = 0)
    (hratio : priv.bclk_ratio = L ∨ (priv.bclk_ratio = 0 ∧ params.frame_size = L))
    (hsclk : priv.sclk_rate = snd_rpi_hb_dacplus_set_sclk params.rate) :
    ∃ (d : Dividers) (b' : Bus BusOp),
      zpcm512x_set_dividers priv params b = (Outcome.ok d, b') ∧
      d.sck_rate = priv.sclk_rate ∧
      d.sck_rate = (if snd_rpi_hb_dacplus_clk_for_rate params.rate = HIFIBERRY_DACPRO_CLK44EN
        then 22579200 else 24576000) ∧
      d.lrclk_div = L ∧ d.bclk_div * d.lrclk_div * params.rate = d.sck_rate ∧
      d.sample_rate = params.rate ∧ d.dsp_div = 1 ∧ d.dac_div = 4 ∧ d.ncp_div = 4 ∧
      d.osr_div * 16 * params.rate * 4 = d.sck_rate ∧ d.idac = d.sck_rate / params.rate := by
  obtain ⟨huni, _⟩ := uniform_set_dividers priv params b ⟨fun _ => 0, []⟩ hb (fun _ => rfl)
  have hLpos : 0 < L := by omega
  have hcongr : ∃ ratio fs, (ratio = L ∨ (ratio = 0 ∧ fs = L)) ∧ (ratio = 0 ∨ fs = 0) ∧
      zpcm512x_set_dividers priv params =
        zpcm512x_set_dividers
          ⟨0, 0, 0, 0, 0, ratio, snd_rpi_hb_dacplus_set_sclk params.rate, false⟩
          ⟨params.rate, 0, fs⟩ := by
    rcases hratio with hr | ⟨hr, hf⟩
    · refine ⟨L, 0, Or.inl rfl, Or.inr rfl,
        set_dividers_no_pll_congr _ _ _ _ hpll rfl ho2 ho3 hsclk rfl ?_⟩
      unfold set_dividers_lrclk_div
      rw [hr]
      simp only
      rw [if_pos hLpos, if_pos hLpos]
    · refine ⟨0, L, Or.inr ⟨rfl, rfl⟩, Or.inl rfl,
        set_dividers_no_pll_congr _ _ _ _ hpll rfl ho2 ho3 hsclk rfl ?_⟩
      unfold set_dividers_lrclk_div
      rw [hr, hf]
  obtain ⟨ratio, fs, hsel, hzero, hrun⟩ := hcongr
  rw [hrun] at huni
  generalize params.rate = rate at hrate hsclk hrun huni ⊢
  have hplan : (zpcm512x_set_dividers
      ⟨0, 0, 0, 0, 0, ratio, snd_rpi_hb_dacplus_set_sclk rate, false⟩ ⟨rate, 0, fs⟩
      ⟨fun _ => 0, []⟩).1 =
      Outcome.ok
        { lrclk_div := L, sck_rate := snd_rpi_hb_dacplus_set_sclk rate,
          mck_rate := snd_rpi_hb_dacplus_set_sclk rate, bclk_rate := rate * L,
          bclk_div := snd_rpi_hb_dacplus_set_sclk rate / (rate * L), sample_rate := rate,
          osr_rate := 16 * rate, dsp_div := 1,
          dacsrc_rate := snd_rpi_hb_dacplus_set_sclk rate,
          dac_rate := snd_rpi_hb_dacplus_set_sclk rate / 4,
          osr_div := snd_rpi_hb_dacplus_set_sclk rate / 4 / (16 * rate), dac_div := 4,
          ncp_div := 4, idac := snd_rpi_hb_dacplus_set_sclk rate / rate,
          fssp := set_dividers_fssp ⟨0, 0, 0, 0, 0, 0, 0, false⟩ rate, coeff := none } := by
    simp only [zpcm512x_dai_rates, List.mem_cons, List.mem_singleton, List.not_mem_nil,
      or_false] at hrate
    rcases hsel with hr | ⟨hr, hf⟩
    · have hf : fs = 0 := by omega
      subst hr hf
      rcases hL with rfl | rfl <;>
        rcases hrate with rfl | rfl | rfl | rfl | rfl | rfl | rfl | rfl | rfl | rfl | rfl |
          rfl | rfl | rfl <;> rfl
    · subst hr hf
      rcases hL with rfl | rfl <;>
        rcases hrate with rfl | rfl | rfl | rfl | rfl | rfl | rfl | rfl | rfl | rfl | rfl |
          rfl | rfl | rfl <;> rfl
  rw [hplan] at huni
  rw [hrun, hsclk]
  refine ⟨_, _, Prod.ext huni rfl, ?_⟩
  simp only [zpcm512x_dai_rates, List.mem_cons, List.mem_singleton, List.not_mem_nil,
    or_false] at hrate
  rcases hL with rfl | rfl <;>
    rcases hrate with rfl | rfl | rfl | rfl | rfl | rfl | rfl | rfl | rfl | rfl | rfl |
      rfl | rfl | rfl <;> decide

/-- C30, for 44100 Hz with a BCLK ratio of 64 on a bus where every operation succeeds: the
22.5792 MHz clock is selected and `zpcm512x_set_dividers` succeeds with
`bclk_div * 64 * 44100 = 22579200`, `dsp_div = 1`, `dac_div = 4`, `ncp_div = 4` and
`idac = 512`. -/
theorem dacplus_pro_rates_exact_witness :
    snd_rpi_hb_dacplus_set_sclk 44100 = 22579200 ∧
    ∃ (d : Dividers) (b' : Bus BusOp),
      zpcm512x_set_dividers ⟨0, 0, 0, 0, 0, 64, 22579200, false⟩ ⟨44100, 32, 64⟩
        ⟨fun _ => 0, []⟩ = (Outcome.ok d, b') ∧
      d.sck_rate = 22579200 ∧
      d.sck_rate = (if snd_rpi_hb_dacplus_clk_for_rate 44100 = HIFIBERRY_DACPRO_CLK44EN
        then 22579200 else 24576000) ∧
      d.lrclk_div = 64 ∧ d.bclk_div * d.lrclk_div * 44100 = d.sck_rate ∧
      d.sample_rate = 44100 ∧ d.dsp_div = 1 ∧ d.dac_div = 4 ∧ d.ncp_div = 4 ∧
      d.osr_div * 16 * 44100 * 4 = d.sck_rate ∧ d.idac = d.sck_rate / 44100 :=
  ⟨by decide,
    dacplus_pro_rates_exact ⟨0, 0, 0, 0, 0, 64, 22579200, false⟩ ⟨44100, 32, 64⟩
      ⟨fun _ => 0, []⟩ 64 (fun _ => rfl) (by decide) (Or.inr rfl) rfl rfl rfl rfl (Or.inl rfl)
      (by decide)⟩

end HiFiBerry
